import Mathlib

/-!
# QmVk: physical-device capability layer

A shallow embedding of `PhysicalDevice.cpp` (capability discovery in `init`,
memory-type selection, queue-family selection, heap introspection, the memory
quirk, extension checks, the format-properties cache and the PCI path
formatter), of the queue cache of `Device` and of `MemoryObjectBase::aligned`,
together with the properties proved about them.

Conventions of the embedding:

* `uint32_t` / `uint64_t` values and Vulkan flag sets are natural numbers;
  `&`, `|`, `^` are `&&&`, `|||`, `^^^`.  A flag set converts to `bool` as
  "is not zero".
* The fixed-size arrays of `vk::PhysicalDeviceMemoryProperties` together
  with their element counts are lists: `memoryTypeCount` is the length of
  `memoryTypes`, `memoryHeapCount` the length of `memoryHeaps`.
* `throw vk::InitializationFailedError(msg)` is `Except.error`.
* `std::unordered_map` / `std::unordered_set` are lists in their iteration
  order.
-/

namespace QmVk

/-! ## Vulkan API types and constants used by the source -/

namespace vk

/-- Value of `VK_MEMORY_PROPERTY_DEVICE_LOCAL_BIT`. -/
def MemoryPropertyFlagBits.eDeviceLocal : Nat := 0x1
/-- Value of `VK_MEMORY_PROPERTY_HOST_VISIBLE_BIT`. -/
def MemoryPropertyFlagBits.eHostVisible : Nat := 0x2
/-- Value of `VK_MEMORY_PROPERTY_HOST_COHERENT_BIT`. -/
def MemoryPropertyFlagBits.eHostCoherent : Nat := 0x4
/-- Value of `VK_MEMORY_PROPERTY_HOST_CACHED_BIT`. -/
def MemoryPropertyFlagBits.eHostCached : Nat := 0x8

/-- Value of `VK_MEMORY_HEAP_DEVICE_LOCAL_BIT`. -/
def MemoryHeapFlagBits.eDeviceLocal : Nat := 0x1
/-- Value of `VK_MEMORY_HEAP_MULTI_INSTANCE_BIT`. -/
def MemoryHeapFlagBits.eMultiInstance : Nat := 0x2

/-- Value of `VK_QUEUE_GRAPHICS_BIT`. -/
def QueueFlagBits.eGraphics : Nat := 0x1

/-- Value of `VK_PHYSICAL_DEVICE_TYPE_INTEGRATED_GPU`. -/
def PhysicalDeviceType.eIntegratedGpu : Nat := 1

/-- The native `vk::MemoryType`. -/
structure MemoryType where
  propertyFlags : Nat := 0
  heapIndex : Nat := 0
deriving DecidableEq, Repr, Inhabited

/-- The native `vk::MemoryHeap`. -/
structure MemoryHeap where
  size : Nat := 0
  flags : Nat := 0
deriving DecidableEq, Repr, Inhabited

/-- The native `vk::PhysicalDeviceMemoryProperties`: the first
`memoryTypeCount` entries of `memoryTypes` and the first `memoryHeapCount`
entries of `memoryHeaps`. -/
structure PhysicalDeviceMemoryProperties where
  memoryTypes : List MemoryType := []
  memoryHeaps : List MemoryHeap := []
deriving DecidableEq, Repr, Inhabited

/-- The native `vk::PhysicalDeviceMemoryBudgetPropertiesEXT`. -/
structure PhysicalDeviceMemoryBudgetPropertiesEXT where
  heapBudget : List Nat := []
  heapUsage : List Nat := []
deriving DecidableEq, Repr, Inhabited

/-- The fields of `vk::PhysicalDeviceProperties` read by the source. -/
structure PhysicalDeviceProperties where
  deviceType : Nat := 0
  vendorID : Nat := 0
deriving DecidableEq, Repr, Inhabited

/-- The native `vk::PhysicalDevicePCIBusInfoPropertiesEXT`. -/
structure PhysicalDevicePCIBusInfoPropertiesEXT where
  pciDomain : Nat := 0
  pciBus : Nat := 0
  pciDevice : Nat := 0
  pciFunction : Nat := 0
deriving DecidableEq, Repr, Inhabited

/-- The native `vk::FormatProperties`. -/
structure FormatProperties where
  linearTilingFeatures : Nat := 0
  optimalTilingFeatures : Nat := 0
  bufferFeatures : Nat := 0
deriving DecidableEq, Repr, Inhabited

/-- The error `vk::InitializationFailedError` thrown by the source. -/
inductive Error where
  | InitializationFailedError (message : String)
deriving DecidableEq, Repr

/-- `vk::Flags::operator~`: vulkan.hpp complements a flag set inside the set
`allFlags` of all bits the flag type declares (`m_mask ^ allFlags`).  The
header is not part of the repository, so `allFlags` is a parameter;
`0xFFFFFFFF` gives the plain 32-bit complement. -/
def flagsNot (allFlags m : Nat) : Nat := m ^^^ allFlags

end vk

/-- The value `~0u`, the "no heap restriction" sentinel. -/
def UINT32_MAX : Nat := 0xFFFFFFFF

/-- Modelled from the spec: the request class `MemoryPropertyFlags`
(`MemoryPropertyFlags.hpp`), four independent flag sets; the default
constructor leaves all four empty. -/
structure MemoryPropertyFlags where
  required : Nat := 0
  optional : Nat := 0
  optionalFallback : Nat := 0
  notWanted : Nat := 0
deriving DecidableEq, Repr, Inhabited

/-- Modelled from the spec: `PhysicalDevice::MemoryType`, the selection
result `{index, propertyFlags}`. -/
structure MemoryType where
  index : Nat := 0
  propertyFlags : Nat := 0
deriving DecidableEq, Repr, Inhabited

/-- Modelled from the spec: `PhysicalDevice::MemoryHeap`, the record
`{idx, size, budget, usage, deviceLocal, hostVisible, multiInstance}`;
`vector<MemoryHeap>(n)` value-initialises every record. -/
structure MemoryHeap where
  idx : Nat := 0
  size : Nat := 0
  budget : Nat := 0
  usage : Nat := 0
  deviceLocal : Bool := false
  hostVisible : Bool := false
  multiInstance : Bool := false
deriving DecidableEq, Repr, Inhabited

/-- Modelled from the spec: the value type of `m_queues`,
`{flags, familyIndex, count}`. -/
structure QueueFamilyProps where
  flags : Nat := 0
  familyIndex : Nat := 0
  count : Nat := 0
deriving DecidableEq, Repr, Inhabited

/-- The state of a `PhysicalDevice` read by the embedded member functions,
with the answers of the native queries and the build configuration. -/
structure PhysicalDevice where
  /-- Whether `QMVK_APPLY_MEMORY_PROPERTIES_QUIRKS` is defined. -/
  quirksCompiledIn : Bool := false
  /-- The `allFlags` of `vk::MemoryPropertyFlags` (see `vk.flagsNot`). -/
  allMemoryPropertyFlags : Nat := 0xFFFFFFFF
  /-- The member `m_properties`. -/
  m_properties : vk.PhysicalDeviceProperties := {}
  /-- What `getMemoryProperties(dld())` (and the properties-2 variants) report. -/
  nativeMemoryProperties : vk.PhysicalDeviceMemoryProperties := {}
  /-- The budget structure filled by the properties-2 query. -/
  nativeBudget : vk.PhysicalDeviceMemoryBudgetPropertiesEXT := {}
  m_hasMemoryBudget : Bool := false
  m_hasPciBusInfo : Bool := false
  m_pciBusInfo : vk.PhysicalDevicePCIBusInfoPropertiesEXT := {}
  /-- The map `m_queues` as the sequence of its `(key, value)` pairs in
  iteration order. -/
  m_queues : List (Nat × QueueFamilyProps) := []
  /-- The map `m_formatProperties` as the sequence of its `(format, record)` pairs. -/
  m_formatProperties : List (Nat × vk.FormatProperties) := []
  /-- The set `m_extensionProperties` of the supported extension names. -/
  m_extensionProperties : List String := []
deriving Repr, Inhabited

/-! ## `applyMemoryPropertiesQuirks` -/

/-- The constant `hostFlags` of `applyMemoryPropertiesQuirks`. -/
def hostFlags : Nat :=
  vk.MemoryPropertyFlagBits.eHostVisible |||
  vk.MemoryPropertyFlagBits.eHostCoherent |||
  vk.MemoryPropertyFlagBits.eHostCached

/-- Insertion into the `unordered_set<uint32_t>` (kept in insertion order). -/
def heapIndexesInsert (heapIndexes : List Nat) (heapIndex : Nat) : List Nat :=
  if heapIndex ∈ heapIndexes then heapIndexes else heapIndexes ++ [heapIndex]

/-- The first loop of `applyMemoryPropertiesQuirks`: `none` is the early
`return` taken when a host-coherent cached type is already device-local. -/
def collectHeapIndexes (nHeaps : Nat) :
    List vk.MemoryType → List Nat → Option (List Nat)
  | [], heapIndexes => some heapIndexes
  | memoryType :: rest, heapIndexes =>
    if memoryType.propertyFlags &&& hostFlags ≠ hostFlags then
      collectHeapIndexes nHeaps rest heapIndexes
    else if memoryType.propertyFlags &&& vk.MemoryPropertyFlagBits.eDeviceLocal ≠ 0 then
      none
    else if memoryType.heapIndex < nHeaps then
      collectHeapIndexes nHeaps rest (heapIndexesInsert heapIndexes memoryType.heapIndex)
    else
      collectHeapIndexes nHeaps rest heapIndexes

/-- The body of the second loop of `applyMemoryPropertiesQuirks` for one
collected heap index. -/
def markHeapDeviceLocal (props : vk.PhysicalDeviceMemoryProperties) (heapIndex : Nat) :
    vk.PhysicalDeviceMemoryProperties :=
  { memoryHeaps :=
      props.memoryHeaps.modify
        (fun h => { h with flags := h.flags ||| vk.MemoryHeapFlagBits.eDeviceLocal }) heapIndex
    memoryTypes :=
      props.memoryTypes.map fun t =>
        if t.heapIndex = heapIndex then
          { t with propertyFlags := t.propertyFlags ||| vk.MemoryPropertyFlagBits.eDeviceLocal }
        else t }

/-- The function `PhysicalDevice::applyMemoryPropertiesQuirks`. -/
def applyMemoryPropertiesQuirks (physDevProps : vk.PhysicalDeviceProperties)
    (props : vk.PhysicalDeviceMemoryProperties) : vk.PhysicalDeviceMemoryProperties :=
  if physDevProps.deviceType ≠ vk.PhysicalDeviceType.eIntegratedGpu ∨
      physDevProps.vendorID ≠ 0x1002 then
    props
  else
    let nHeaps := props.memoryHeaps.length
    if nHeaps ≤ 1 then
      props
    else
      match collectHeapIndexes nHeaps props.memoryTypes [] with
      | none => props
      | some heapIndexes => heapIndexes.foldl markHeapDeviceLocal props

/-- The layout the member functions work on: the native query followed by
the quirk when it is compiled in. -/
def PhysicalDevice.queryMemoryProperties (pd : PhysicalDevice) :
    vk.PhysicalDeviceMemoryProperties :=
  if pd.quirksCompiledIn then
    applyMemoryPropertiesQuirks pd.m_properties pd.nativeMemoryProperties
  else
    pd.nativeMemoryProperties

/-! ## `getMemoryHeapsInfo` -/

/-- The first loop of `getMemoryHeapsInfo`, writing record `i` from heap `i`. -/
def heapsInfoFill (pd : PhysicalDevice) : List vk.MemoryHeap → Nat → List MemoryHeap
  | [], _ => []
  | heap :: rest, i =>
    { idx := i
      size := heap.size
      budget := if pd.m_hasMemoryBudget then pd.nativeBudget.heapBudget.getD i 0 else heap.size
      usage := if pd.m_hasMemoryBudget then pd.nativeBudget.heapUsage.getD i 0 else 0
      deviceLocal := decide (heap.flags &&& vk.MemoryHeapFlagBits.eDeviceLocal ≠ 0)
      hostVisible := false
      multiInstance := decide (heap.flags &&& vk.MemoryHeapFlagBits.eMultiInstance ≠ 0) }
      :: heapsInfoFill pd rest (i + 1)

/-- The second loop of `getMemoryHeapsInfo`: every host-visible memory type
marks the record of its heap.  (A heap index outside the vector is undefined
behaviour in the source; the model then leaves the vector as it is.) -/
def heapsInfoMarkHostVisible (memoryHeaps : List MemoryHeap) :
    List vk.MemoryType → List MemoryHeap
  | [] => memoryHeaps
  | memoryType :: rest =>
    if memoryType.propertyFlags &&& vk.MemoryPropertyFlagBits.eHostVisible ≠ 0 then
      heapsInfoMarkHostVisible
        (memoryHeaps.modify (fun r => { r with hostVisible := true }) memoryType.heapIndex) rest
    else
      heapsInfoMarkHostVisible memoryHeaps rest

/-- The function `PhysicalDevice::getMemoryHeapsInfo`. -/
def PhysicalDevice.getMemoryHeapsInfo (pd : PhysicalDevice) : List MemoryHeap :=
  let props := pd.queryMemoryProperties
  heapsInfoMarkHostVisible (heapsInfoFill pd props.memoryHeaps 0) props.memoryTypes

/-! ## `findMemoryType` -/

/-- The local `pair<MemoryType, bool> result`. -/
structure MemoryTypeResult where
  first : MemoryType := {}
  second : Bool := false
deriving DecidableEq, Repr, Inhabited

/-- The variables the scan loop of `findMemoryType` updates. -/
structure ScanState where
  result : MemoryTypeResult := {}
  optionalFallbackFound : Bool := false
deriving DecidableEq, Repr, Inhabited

/-- How one iteration of the scan loop ends: `next` for `continue` or the
end of the body, `stop` for `break`. -/
inductive LoopStep where
  | next (st : ScanState)
  | stop (st : ScanState)
deriving DecidableEq, Repr

/-- The tail of the loop body: `if (!result.second) result = currResult;`
followed by `if (doBreak) break;`. -/
def findMemoryTypeTail (currResult : MemoryTypeResult) (doBreak : Bool) (st : ScanState) :
    LoopStep :=
  let st1 : ScanState := if !st.result.second then { st with result := currResult } else st
  if doBreak then LoopStep.stop st1 else LoopStep.next st1

/-- One iteration of the scan loop of `findMemoryType` for index `i`. -/
def findMemoryTypeBody (allFlags : Nat) (memoryPropertyFlags : MemoryPropertyFlags)
    (memoryTypeBits heap : Nat) (i : Nat) (memoryType : vk.MemoryType) (st : ScanState) :
    LoopStep :=
  if heap ≠ UINT32_MAX ∧ memoryType.heapIndex ≠ heap then
    LoopStep.next st
  else if memoryTypeBits &&& ((1 <<< i) % 2 ^ 32) = 0 then
    LoopStep.next st
  else
    let currMemoryPropertyFlags := memoryType.propertyFlags
    let required := memoryPropertyFlags.required
    if currMemoryPropertyFlags &&& required = required then
      let currResult : MemoryTypeResult := ⟨⟨i, currMemoryPropertyFlags⟩, true⟩
      let optional := memoryPropertyFlags.optional
      let optionalFallback := memoryPropertyFlags.optionalFallback
      let notWanted := memoryPropertyFlags.notWanted
      let flagsWithoutNotWanted := currMemoryPropertyFlags &&& vk.flagsNot allFlags notWanted
      if optional ≠ 0 ∨ optionalFallback ≠ 0 then
        if optional ≠ 0 ∧ flagsWithoutNotWanted &&& optional = optional then
          LoopStep.stop { st with result := currResult }
        else if optionalFallback ≠ 0 ∧ st.optionalFallbackFound = false ∧
            flagsWithoutNotWanted &&& optionalFallback = optionalFallback then
          findMemoryTypeTail currResult false
            { result := currResult, optionalFallbackFound := true }
        else
          findMemoryTypeTail currResult false st
      else if notWanted ≠ 0 then
        if flagsWithoutNotWanted = currMemoryPropertyFlags then
          LoopStep.stop { st with result := currResult }
        else
          findMemoryTypeTail currResult false st
      else
        findMemoryTypeTail currResult true st
    else
      LoopStep.next st

/-- The scan loop of `findMemoryType` over the types from index `i` on. -/
def findMemoryTypeLoop (allFlags : Nat) (memoryPropertyFlags : MemoryPropertyFlags)
    (memoryTypeBits heap : Nat) : List vk.MemoryType → Nat → ScanState → ScanState
  | [], _, st => st
  | memoryType :: rest, i, st =>
    match findMemoryTypeBody allFlags memoryPropertyFlags memoryTypeBits heap i memoryType st with
    | LoopStep.stop st1 => st1
    | LoopStep.next st1 =>
      findMemoryTypeLoop allFlags memoryPropertyFlags memoryTypeBits heap rest (i + 1) st1

/-- The function `PhysicalDevice::findMemoryType(memoryPropertyFlags,
memoryTypeBits, heap)`. -/
def PhysicalDevice.findMemoryType (pd : PhysicalDevice)
    (memoryPropertyFlags : MemoryPropertyFlags) (memoryTypeBits heap : Nat) :
    Except vk.Error MemoryType :=
  let memoryProperties := pd.queryMemoryProperties
  let st := findMemoryTypeLoop pd.allMemoryPropertyFlags memoryPropertyFlags memoryTypeBits heap
    memoryProperties.memoryTypes 0 {}
  if !st.result.second then
    Except.error (vk.Error.InitializationFailedError "Cannot find specified memory type")
  else
    Except.ok st.result.first

/-- The overload `PhysicalDevice::findMemoryType(memoryTypeBits)`.
Modelled from the spec: the declaration's default argument `heap = ~0u`
(`PhysicalDevice.hpp`), the "unrestricted" sentinel. -/
def PhysicalDevice.findMemoryTypeBits (pd : PhysicalDevice) (memoryTypeBits : Nat) :
    Except vk.Error MemoryType :=
  pd.findMemoryType {} memoryTypeBits UINT32_MAX

/-! ## `getQueuesFamily` -/

/-- The inner loop of `getQueuesFamily` over the entries of `m_queues`,
appending to `ret`. -/
def getQueuesFamilyScan (queueFlags : Nat) (tryExcludeGraphics firstOnly : Bool) :
    List (Nat × QueueFamilyProps) → List (Nat × Nat) → List (Nat × Nat)
  | [], ret => ret
  | familypropsPair :: rest, ret =>
    let props := familypropsPair.2
    if tryExcludeGraphics = true ∧ props.flags &&& vk.QueueFlagBits.eGraphics ≠ 0 then
      getQueuesFamilyScan queueFlags tryExcludeGraphics firstOnly rest ret
    else if props.flags &&& queueFlags = queueFlags then
      let ret1 := ret ++ [(props.familyIndex, props.count)]
      if firstOnly then ret1
      else getQueuesFamilyScan queueFlags tryExcludeGraphics firstOnly rest ret1
    else
      getQueuesFamilyScan queueFlags tryExcludeGraphics firstOnly rest ret

/-- The outer loop `for (t = 0; t < 2; ++t)` of `getQueuesFamily`, with
`remaining = 2 - t` passes left. -/
def getQueuesFamilyPasses (queues : List (Nat × QueueFamilyProps)) (queueFlags : Nat)
    (firstOnly : Bool) : Nat → Bool → List (Nat × Nat) → List (Nat × Nat)
  | 0, _, ret => ret
  | remaining + 1, tryExcludeGraphics, ret =>
    let ret1 := getQueuesFamilyScan queueFlags tryExcludeGraphics firstOnly queues ret
    if tryExcludeGraphics = true ∧ ret1.isEmpty = true then
      getQueuesFamilyPasses queues queueFlags firstOnly remaining false ret1
    else
      ret1

/-- The function `PhysicalDevice::getQueuesFamily`. -/
def PhysicalDevice.getQueuesFamily (pd : PhysicalDevice) (queueFlags : Nat)
    (tryExcludeGraphics firstOnly exceptionOnFail : Bool) :
    Except vk.Error (List (Nat × Nat)) :=
  let ret := getQueuesFamilyPasses pd.m_queues queueFlags firstOnly 2 tryExcludeGraphics []
  if exceptionOnFail = true ∧ ret.isEmpty = true then
    Except.error (vk.Error.InitializationFailedError "Cannot find specified queue family")
  else
    Except.ok ret

/-! ## `linuxPCIPath` -/

/-- The hexadecimal digits of an `unsigned int`, most significant first,
without leading zeros (no digit at all for zero). -/
def hexDigits (v : Nat) : List Char :=
  ([7, 6, 5, 4, 3, 2, 1, 0].map fun k => Nat.digitChar (v / 16 ^ k % 16)).dropWhile
    fun c => c == '0'

/-- The conversion `%.Nx` of `snprintf`: at least `precision` digits, padded
on the left with zeros. -/
def formatHexPrecision (precision v : Nat) : List Char :=
  List.replicate (precision - (hexDigits v).length) '0' ++ hexDigits v

/-- The conversion `%Nx` of `snprintf`: the default precision 1, padded on
the left with blanks to the field width. -/
def formatHexWidth (width v : Nat) : List Char :=
  List.replicate (width - (formatHexPrecision 1 v).length) ' ' ++ formatHexPrecision 1 v

/-- The call `snprintf(out, size, "%.4x:%.2x:%.2x.%1x", ...)` followed by
reading `out` back as a C string: at most `size - 1` characters are kept. -/
def snprintfPCI (size : Nat) (info : vk.PhysicalDevicePCIBusInfoPropertiesEXT) : List Char :=
  (formatHexPrecision 4 info.pciDomain ++ [':'] ++
    formatHexPrecision 2 info.pciBus ++ [':'] ++
    formatHexPrecision 2 info.pciDevice ++ ['.'] ++
    formatHexWidth 1 info.pciFunction).take (size - 1)

/-- The function `PhysicalDevice::linuxPCIPath`. -/
def PhysicalDevice.linuxPCIPath (pd : PhysicalDevice) : String :=
  if !pd.m_hasPciBusInfo then
    ""
  else
    String.mk (snprintfPCI 13 pd.m_pciBusInfo)

/-! ## Vocabulary of the statements about `findMemoryType` -/

/-- The first entry, counting indices from `i`, that satisfies `p`. -/
def firstSat (p : Nat → vk.MemoryType → Prop) [∀ i mt, Decidable (p i mt)] :
    List vk.MemoryType → Nat → Option (Nat × vk.MemoryType)
  | [], _ => none
  | memoryType :: rest, i =>
    if p i memoryType then some (i, memoryType) else firstSat p rest (i + 1)

/-- Bit `i` of the 32-bit mask `memoryTypeBits` is set. -/
def MaskAdmits (memoryTypeBits i : Nat) : Prop :=
  i < 32 ∧ memoryTypeBits.testBit i = true

instance (memoryTypeBits i : Nat) : Decidable (MaskAdmits memoryTypeBits i) := by
  unfold MaskAdmits; infer_instance

/-- The heap restriction admits the type: no restriction, or the type's heap is the requested one. -/
def HeapAdmits (heap : Nat) (memoryType : vk.MemoryType) : Prop :=
  heap = UINT32_MAX ∨ memoryType.heapIndex = heap

/-- The flags of the type contain all `required` bits. -/
def MeetsRequired (req : MemoryPropertyFlags) (memoryType : vk.MemoryType) : Prop :=
  memoryType.propertyFlags &&& req.required = req.required

/-- The type at index `i` passes the scan filters: heap, mask and `required`. -/
def PassesFilters (req : MemoryPropertyFlags) (memoryTypeBits heap i : Nat)
    (memoryType : vk.MemoryType) : Prop :=
  HeapAdmits heap memoryType ∧ MaskAdmits memoryTypeBits i ∧ MeetsRequired req memoryType

/-- The flags of the type without the `notWanted` bits contain all bits of `flags`. -/
def TestFlags (allFlags : Nat) (req : MemoryPropertyFlags) (flags : Nat)
    (memoryType : vk.MemoryType) : Prop :=
  (memoryType.propertyFlags &&& vk.flagsNot allFlags req.notWanted) &&& flags = flags

instance (heap : Nat) (mt : vk.MemoryType) : Decidable (HeapAdmits heap mt) := by
  unfold HeapAdmits; infer_instance

instance (req : MemoryPropertyFlags) (mt : vk.MemoryType) : Decidable (MeetsRequired req mt) := by
  unfold MeetsRequired; infer_instance

instance (req : MemoryPropertyFlags) (b h i : Nat) (mt : vk.MemoryType) :
    Decidable (PassesFilters req b h i mt) := by
  unfold PassesFilters; infer_instance

instance (a : Nat) (req : MemoryPropertyFlags) (f : Nat) (mt : vk.MemoryType) :
    Decidable (TestFlags a req f mt) := by
  unfold TestFlags; infer_instance

/-- A type passing the filters whose flags match a non-empty `optional`. -/
def OptionalMatch (allFlags : Nat) (req : MemoryPropertyFlags) (memoryTypeBits heap i : Nat)
    (memoryType : vk.MemoryType) : Prop :=
  PassesFilters req memoryTypeBits heap i memoryType ∧
    req.optional ≠ 0 ∧ TestFlags allFlags req req.optional memoryType

/-- A type passing the filters whose flags match a non-empty `optionalFallback`. -/
def FallbackMatch (allFlags : Nat) (req : MemoryPropertyFlags) (memoryTypeBits heap i : Nat)
    (memoryType : vk.MemoryType) : Prop :=
  PassesFilters req memoryTypeBits heap i memoryType ∧
    req.optionalFallback ≠ 0 ∧ TestFlags allFlags req req.optionalFallback memoryType

/-- A type passing the filters that the `notWanted` test of the source accepts. -/
def CleanMatch (allFlags : Nat) (req : MemoryPropertyFlags) (memoryTypeBits heap i : Nat)
    (memoryType : vk.MemoryType) : Prop :=
  PassesFilters req memoryTypeBits heap i memoryType ∧
    memoryType.propertyFlags &&& vk.flagsNot allFlags req.notWanted = memoryType.propertyFlags

instance (a : Nat) (req : MemoryPropertyFlags) (b h i : Nat) (mt : vk.MemoryType) :
    Decidable (OptionalMatch a req b h i mt) := by
  unfold OptionalMatch; infer_instance

instance (a : Nat) (req : MemoryPropertyFlags) (b h i : Nat) (mt : vk.MemoryType) :
    Decidable (FallbackMatch a req b h i mt) := by
  unfold FallbackMatch; infer_instance

instance (a : Nat) (req : MemoryPropertyFlags) (b h i : Nat) (mt : vk.MemoryType) :
    Decidable (CleanMatch a req b h i mt) := by
  unfold CleanMatch; infer_instance

/-- The result recorded for the type `p.2` at index `p.1`. -/
def recorded (p : Nat × vk.MemoryType) : MemoryTypeResult :=
  ⟨⟨p.1, p.2.propertyFlags⟩, true⟩

/-- The selection rule of `findMemoryType` as a priority list over the
first matches of the scan. -/
def selectMemoryType (allFlags : Nat) (req : MemoryPropertyFlags) (memoryTypeBits heap : Nat)
    (types : List vk.MemoryType) : Option (Nat × vk.MemoryType) :=
  if req.optional ≠ 0 ∨ req.optionalFallback ≠ 0 then
    match firstSat (OptionalMatch allFlags req memoryTypeBits heap) types 0 with
    | some p => some p
    | none =>
      match firstSat (FallbackMatch allFlags req memoryTypeBits heap) types 0 with
      | some p => some p
      | none => firstSat (PassesFilters req memoryTypeBits heap) types 0
  else if req.notWanted ≠ 0 then
    match firstSat (CleanMatch allFlags req memoryTypeBits heap) types 0 with
    | some p => some p
    | none => firstSat (PassesFilters req memoryTypeBits heap) types 0
  else
    firstSat (PassesFilters req memoryTypeBits heap) types 0

/-- The error thrown by `findMemoryType`. -/
def memoryTypeNotFound : vk.Error :=
  vk.Error.InitializationFailedError "Cannot find specified memory type"

deriving instance DecidableEq for Except

/-! ## Example inputs -/

/-- A device with five memory types on two heaps, used to instantiate the statements. -/
def exampleDevice : PhysicalDevice :=
  { nativeMemoryProperties :=
      { memoryTypes := [⟨1, 0⟩, ⟨6, 1⟩, ⟨14, 1⟩, ⟨7, 0⟩, ⟨14, 1⟩]
        memoryHeaps := [⟨100, 1⟩, ⟨200, 0⟩] } }

/-- A device built against headers that declare the memory property bits `0x1FF`, whose driver
reports the further bit `0x200` on type 0. -/
def undeclaredFlagDevice : PhysicalDevice :=
  { allMemoryPropertyFlags := 0x1FF
    nativeMemoryProperties :=
      { memoryTypes := [⟨0x201, 0⟩, ⟨0x1, 0⟩]
        memoryHeaps := [⟨100, 1⟩] } }

/-! ## Vocabulary of the statements about `getQueuesFamily` -/

/-- The flags of the family are a superset of the requested flags. -/
def Qualifies (queueFlags : Nat) (props : QueueFamilyProps) : Prop :=
  props.flags &&& queueFlags = queueFlags

/-- The family is graphics-capable. -/
def IsGraphics (props : QueueFamilyProps) : Prop :=
  props.flags &&& vk.QueueFlagBits.eGraphics ≠ 0

instance (queueFlags : Nat) (props : QueueFamilyProps) : Decidable (Qualifies queueFlags props) := by
  unfold Qualifies; infer_instance

instance (props : QueueFamilyProps) : Decidable (IsGraphics props) := by
  unfold IsGraphics; infer_instance

/-- The entry is one a pass collects: it qualifies and, when `excludeGraphics` is set, it is
not graphics-capable. -/
def FamilySelected (queueFlags : Nat) (excludeGraphics : Bool)
    (e : Nat × QueueFamilyProps) : Prop :=
  ¬ (excludeGraphics = true ∧ IsGraphics e.2) ∧ Qualifies queueFlags e.2

instance (queueFlags : Nat) (excludeGraphics : Bool) (e : Nat × QueueFamilyProps) :
    Decidable (FamilySelected queueFlags excludeGraphics e) := by
  unfold FamilySelected; infer_instance

/-- The `(familyIndex, count)` pairs of the qualifying families, in the iteration order of the
map, without the graphics-capable ones when `excludeGraphics` is set. -/
def qualifyingFamilies (queueFlags : Nat) (excludeGraphics : Bool)
    (queues : List (Nat × QueueFamilyProps)) : List (Nat × Nat) :=
  (queues.filter fun e => decide (FamilySelected queueFlags excludeGraphics e)).map
    fun e => (e.2.familyIndex, e.2.count)

/-- What one pass over the map collects: all qualifying pairs, or the first one only. -/
def collectedFamilies (queueFlags : Nat) (excludeGraphics firstOnly : Bool)
    (queues : List (Nat × QueueFamilyProps)) : List (Nat × Nat) :=
  if firstOnly then (qualifyingFamilies queueFlags excludeGraphics queues).take 1
  else qualifyingFamilies queueFlags excludeGraphics queues

/-- The invariant of `m_queues` set up by `init`: the keys of the map are distinct and every
entry stores its own key as `familyIndex`. -/
def QueuesWellFormed (queues : List (Nat × QueueFamilyProps)) : Prop :=
  (queues.map Prod.fst).Nodup ∧ ∀ e ∈ queues, e.2.familyIndex = e.1

instance (queues : List (Nat × QueueFamilyProps)) : Decidable (QueuesWellFormed queues) := by
  unfold QueuesWellFormed; infer_instance

/-- The error thrown by `getQueuesFamily`. -/
def queueFamilyNotFound : vk.Error :=
  vk.Error.InitializationFailedError "Cannot find specified queue family"

/-- A device with a graphics family, a compute-and-transfer family and a transfer family. -/
def exampleQueuesDevice : PhysicalDevice :=
  { m_queues := [(0, ⟨7, 0, 1⟩), (1, ⟨6, 1, 2⟩), (2, ⟨4, 2, 1⟩)] }

/-! ## Vocabulary of the statements about `linuxPCIPath` -/

/-- The lexical form `DDDD:BB:DD.F` of the spec: the domain as 4 hex digits, the bus as 2,
the device as 2 and the function as 1. -/
def pciPathForm (info : vk.PhysicalDevicePCIBusInfoPropertiesEXT) : String :=
  String.mk
    [Nat.digitChar (info.pciDomain / 16 ^ 3 % 16), Nat.digitChar (info.pciDomain / 16 ^ 2 % 16),
      Nat.digitChar (info.pciDomain / 16 % 16), Nat.digitChar (info.pciDomain % 16), ':',
      Nat.digitChar (info.pciBus / 16 % 16), Nat.digitChar (info.pciBus % 16), ':',
      Nat.digitChar (info.pciDevice / 16 % 16), Nat.digitChar (info.pciDevice % 16), '.',
      Nat.digitChar (info.pciFunction % 16)]

/-- The separators of the form `DDDD:BB:DD.F`: twelve characters with `:` at positions 4 and 7
and `.` at position 10. -/
def HasPCIPathShape (s : String) : Prop :=
  s.data.length = 12 ∧ s.data[4]? = some ':' ∧ s.data[7]? = some ':' ∧ s.data[10]? = some '.'

instance (s : String) : Decidable (HasPCIPathShape s) := by
  unfold HasPCIPathShape; infer_instance

/-- A device at the PCI location of the spec's example, domain 0, bus 1, device 0, function 0. -/
def examplePCIDevice : PhysicalDevice :=
  { m_hasPciBusInfo := true, m_pciBusInfo := { pciDomain := 0, pciBus := 1 } }

/-- A device in PCI domain `0x10000`, which needs five hex digits. -/
def wideDomainPCIDevice : PhysicalDevice :=
  { m_hasPciBusInfo := true, m_pciBusInfo := { pciDomain := 0x10000 } }

/-! ## Vocabulary of the statements about `applyMemoryPropertiesQuirks` -/

/-- What the second loop of `applyMemoryPropertiesQuirks` does to one memory type when it
handles the heap index `heapIndex`. -/
def markTypeStep (t : vk.MemoryType) (heapIndex : Nat) : vk.MemoryType :=
  if t.heapIndex = heapIndex then
    { t with propertyFlags := t.propertyFlags ||| vk.MemoryPropertyFlagBits.eDeviceLocal }
  else t

/-- What the second loop of `applyMemoryPropertiesQuirks` does to the heap at position `j` when
it handles the heap index `heapIndex`. -/
def markHeapStep (j : Nat) (h : vk.MemoryHeap) (heapIndex : Nat) : vk.MemoryHeap :=
  if heapIndex = j then { h with flags := h.flags ||| vk.MemoryHeapFlagBits.eDeviceLocal } else h

/-- A memory type that is host-visible, host-coherent and host-cached. -/
def IsHostCoherentCached (t : vk.MemoryType) : Prop :=
  t.propertyFlags &&& hostFlags = hostFlags

instance (t : vk.MemoryType) : Decidable (IsHostCoherentCached t) := by
  unfold IsHostCoherentCached; infer_instance

/-- An integrated adapter of vendor `0x1002` with three memory types on two heaps, none of its
host-coherent cached types being device-local. -/
def exampleQuirkDevice : PhysicalDevice :=
  { quirksCompiledIn := true
    m_properties := { deviceType := 1, vendorID := 0x1002 }
    nativeMemoryProperties :=
      { memoryTypes := [⟨1, 0⟩, ⟨14, 1⟩, ⟨6, 1⟩]
        memoryHeaps := [⟨100, 1⟩, ⟨200, 0⟩] } }

/-! ## `init`: the host-visible device-local heuristic -/

/-- The loop of `init` over the records of `getMemoryHeapsInfo()`; the state is the pair
`(deviceLocalAndHostVisibleSize, deviceLocalSize)`. -/
def initHeapSizesLoop : List MemoryHeap → Nat × Nat → Nat × Nat
  | [], sizes => sizes
  | heapInfo :: rest, (deviceLocalAndHostVisibleSize, deviceLocalSize) =>
    if !heapInfo.deviceLocal then
      initHeapSizesLoop rest (deviceLocalAndHostVisibleSize, deviceLocalSize)
    else if heapInfo.hostVisible then
      initHeapSizesLoop rest
        (if deviceLocalAndHostVisibleSize = 0 then heapInfo.size
          else deviceLocalAndHostVisibleSize, deviceLocalSize)
    else
      initHeapSizesLoop rest
        (deviceLocalAndHostVisibleSize,
          if deviceLocalSize = 0 then heapInfo.size else deviceLocalSize)

/-- The value `init` stores in `m_hasFullHostVisibleDeviceLocal`. -/
def PhysicalDevice.initHasFullHostVisibleDeviceLocal (pd : PhysicalDevice) : Bool :=
  let sizes := initHeapSizesLoop pd.getMemoryHeapsInfo (0, 0)
  decide (sizes.1 ≥ sizes.2)

/-- The size of the largest heap record satisfying `p`, 0 if there is none. -/
def largestHeapSize (p : MemoryHeap → Bool) (heaps : List MemoryHeap) : Nat :=
  ((heaps.filter p).map fun r => r.size).foldl max 0

/-- The size of the first heap record, in heap order, that satisfies `p` and has a non-zero
size; 0 if there is none. -/
def firstNonzeroHeapSize (p : MemoryHeap → Bool) (heaps : List MemoryHeap) : Nat :=
  (((heaps.filter p).map fun r => r.size).find? fun s => decide (s ≠ 0)).getD 0

/-- A device with two device-local host-visible heaps of sizes 10 and 1000 and a device-local
heap of size 500 that is not host-visible. -/
def twoVisibleHeapsDevice : PhysicalDevice :=
  { nativeMemoryProperties :=
      { memoryTypes := [⟨3, 0⟩, ⟨3, 1⟩, ⟨1, 2⟩]
        memoryHeaps := [⟨10, 1⟩, ⟨1000, 1⟩, ⟨500, 1⟩] } }

/-! ## `init`: the queue-family map -/

namespace vk

/-- Value of `VK_QUEUE_COMPUTE_BIT`. -/
def QueueFlagBits.eCompute : Nat := 0x2
/-- Value of `VK_QUEUE_TRANSFER_BIT`. -/
def QueueFlagBits.eTransfer : Nat := 0x4
/-- Value of `VK_QUEUE_VIDEO_DECODE_BIT_KHR`. -/
def QueueFlagBits.eVideoDecodeKHR : Nat := 0x20
/-- Value of `VK_QUEUE_VIDEO_ENCODE_BIT_KHR`. -/
def QueueFlagBits.eVideoEncodeKHR : Nat := 0x40

/-- The fields of the native `vk::QueueFamilyProperties` read by `init`. -/
structure QueueFamilyProperties where
  queueFlags : Nat := 0
  queueCount : Nat := 0
deriving DecidableEq, Repr, Inhabited

end vk

/-- The assignment `m_queues[key] = value` on the map: the value of an existing key is
replaced, a new key gets a new entry. -/
def queuesAssign (queues : List (Nat × QueueFamilyProps)) (key : Nat)
    (value : QueueFamilyProps) : List (Nat × QueueFamilyProps) :=
  if queues.any (fun e => e.1 == key) then
    queues.map fun e => if e.1 = key then (key, value) else e
  else
    queues ++ [(key, value)]

/-- The loop of `init` over the native queue families from index `queueFamilyIndex` on.
`noGraphics` tells whether `QMVK_NO_GRAPHICS` is defined and `headerVersion` is
`VK_HEADER_VERSION`. -/
def initQueuesLoop (noGraphics : Bool) (headerVersion : Nat) :
    List vk.QueueFamilyProperties → Nat → List (Nat × QueueFamilyProps) →
      List (Nat × QueueFamilyProps)
  | [], _, queues => queues
  | props :: rest, queueFamilyIndex, queues =>
    if props.queueCount < 1 then
      initQueuesLoop noGraphics headerVersion rest (queueFamilyIndex + 1) queues
    else
      let hasGraphics : Bool :=
        if noGraphics then false
        else decide (props.queueFlags &&& vk.QueueFlagBits.eGraphics ≠ 0)
      let hasDecode : Bool :=
        if headerVersion > 237 then
          decide (props.queueFlags &&& vk.QueueFlagBits.eVideoDecodeKHR ≠ 0)
        else false
      let hasEncode : Bool :=
        if headerVersion > 274 then
          decide (props.queueFlags &&& vk.QueueFlagBits.eVideoEncodeKHR ≠ 0)
        else false
      let hasCompute : Bool := decide (props.queueFlags &&& vk.QueueFlagBits.eCompute ≠ 0)
      let hasTransfer : Bool := decide (props.queueFlags &&& vk.QueueFlagBits.eTransfer ≠ 0)
      if !hasGraphics && !hasCompute && !hasTransfer && !hasDecode && !hasEncode then
        initQueuesLoop noGraphics headerVersion rest (queueFamilyIndex + 1) queues
      else
        initQueuesLoop noGraphics headerVersion rest (queueFamilyIndex + 1)
          (queuesAssign queues queueFamilyIndex
            { flags := props.queueFlags
              familyIndex := queueFamilyIndex
              count := props.queueCount })

/-- The map `m_queues` that `init` builds from the native queue families. -/
def initQueues (noGraphics : Bool) (headerVersion : Nat)
    (queueFamilyProperties : List vk.QueueFamilyProperties) : List (Nat × QueueFamilyProps) :=
  initQueuesLoop noGraphics headerVersion queueFamilyProperties 0 []

/-- The flags include a capability that `init` counts in the given build: graphics unless
`QMVK_NO_GRAPHICS`, compute, transfer, video decode from header version 238 on, video encode
from header version 275 on. -/
def HasCountedCapability (noGraphics : Bool) (headerVersion : Nat) (queueFlags : Nat) : Prop :=
  (noGraphics = false ∧ queueFlags &&& vk.QueueFlagBits.eGraphics ≠ 0) ∨
  queueFlags &&& vk.QueueFlagBits.eCompute ≠ 0 ∨
  queueFlags &&& vk.QueueFlagBits.eTransfer ≠ 0 ∨
  (headerVersion > 237 ∧ queueFlags &&& vk.QueueFlagBits.eVideoDecodeKHR ≠ 0) ∨
  (headerVersion > 274 ∧ queueFlags &&& vk.QueueFlagBits.eVideoEncodeKHR ≠ 0)

/-- The flags include at least one of graphics, compute, transfer, video decode or video
encode. -/
def HasAnyCapability (queueFlags : Nat) : Prop :=
  queueFlags &&& vk.QueueFlagBits.eGraphics ≠ 0 ∨
  queueFlags &&& vk.QueueFlagBits.eCompute ≠ 0 ∨
  queueFlags &&& vk.QueueFlagBits.eTransfer ≠ 0 ∨
  queueFlags &&& vk.QueueFlagBits.eVideoDecodeKHR ≠ 0 ∨
  queueFlags &&& vk.QueueFlagBits.eVideoEncodeKHR ≠ 0

instance (noGraphics : Bool) (headerVersion queueFlags : Nat) :
    Decidable (HasCountedCapability noGraphics headerVersion queueFlags) := by
  unfold HasCountedCapability; infer_instance

instance (queueFlags : Nat) : Decidable (HasAnyCapability queueFlags) := by
  unfold HasAnyCapability; infer_instance

/-- The entries `init` adds for the families from index `queueFamilyIndex` on, in family
order. -/
def keptFamilies (noGraphics : Bool) (headerVersion : Nat) :
    List vk.QueueFamilyProperties → Nat → List (Nat × QueueFamilyProps)
  | [], _ => []
  | props :: rest, queueFamilyIndex =>
    if props.queueCount ≥ 1 ∧ HasCountedCapability noGraphics headerVersion props.queueFlags then
      (queueFamilyIndex, { flags := props.queueFlags
                           familyIndex := queueFamilyIndex
                           count := props.queueCount }) ::
        keptFamilies noGraphics headerVersion rest (queueFamilyIndex + 1)
    else
      keptFamilies noGraphics headerVersion rest (queueFamilyIndex + 1)

/-! ## `getFormatPropertiesCached` -/

/-- The lookup `m_formatProperties.find(fmt)`; `none` is `end()`. -/
def formatPropertiesFind (formatProperties : List (Nat × vk.FormatProperties)) (fmt : Nat) :
    Option vk.FormatProperties :=
  (formatProperties.find? fun e => e.1 == fmt).map Prod.snd

/-- The assignment `m_formatProperties[fmt] = value`: the record of an existing format is
replaced, a new format gets a new entry. -/
def formatPropertiesAssign (formatProperties : List (Nat × vk.FormatProperties)) (fmt : Nat)
    (value : vk.FormatProperties) : List (Nat × vk.FormatProperties) :=
  if formatProperties.any (fun e => e.1 == fmt) then
    formatProperties.map fun e => if e.1 = fmt then (fmt, value) else e
  else
    formatProperties ++ [(fmt, value)]

/-- The outcome of one call of `getFormatPropertiesCached`: the record returned, the device
after the call, and the formats for which the call issued the native query. -/
structure FormatPropertiesCall where
  value : vk.FormatProperties
  device : PhysicalDevice
  nativeQueries : List Nat

/-- The function `PhysicalDevice::getFormatPropertiesCached`; `getFormatProperties` is the
native query as it answers at the time of the call.  The calls are serialised by
`m_formatPropertiesMutex`. -/
def PhysicalDevice.getFormatPropertiesCached (pd : PhysicalDevice)
    (getFormatProperties : Nat → vk.FormatProperties) (fmt : Nat) : FormatPropertiesCall :=
  match formatPropertiesFind pd.m_formatProperties fmt with
  | some value => { value := value, device := pd, nativeQueries := [] }
  | none =>
    let formatProperties :=
      formatPropertiesAssign pd.m_formatProperties fmt (getFormatProperties fmt)
    { value := (formatPropertiesFind formatProperties fmt).getD default
      device := { pd with m_formatProperties := formatProperties }
      nativeQueries := [fmt] }

/-- A sequence of calls of `getFormatPropertiesCached` on one device, the call at position `t`
of the whole sequence seeing the native answers `native t`.  The result lists, per call, the
record returned and the native queries issued; the second component is the device after the
last call. -/
def formatPropertiesCalls (native : Nat → Nat → vk.FormatProperties) :
    List Nat → Nat → PhysicalDevice →
      List (vk.FormatProperties × List Nat) × PhysicalDevice
  | [], _, pd => ([], pd)
  | fmt :: rest, t, pd =>
    let call := pd.getFormatPropertiesCached (native t) fmt
    let later := formatPropertiesCalls native rest (t + 1) call.device
    ((call.value, call.nativeQueries) :: later.1, later.2)

/-! ## `Device::queue` and the weak queue cache -/

/-- Modelled from the spec: the class `Queue` (`Queue.hpp` is not part of the sources), a
`Queue` object together with its control block: the slot `(queueFamilyIndex, index)` it is
bound to and the number of strong references (`shared_ptr` owners); the object is alive while
that number is positive. -/
structure QueueObject where
  queueFamilyIndex : Nat
  index : Nat
  strongCount : Nat
deriving DecidableEq, Repr

/-- The part of a `Device` (`Device.hpp`) that `queue` works on.  `m_weakQueues` maps a
family index to its vector of weak references (only lookups matter, so the map is a partial
function); a weak reference is empty or names a `Queue` object by its position in
`queueObjects`, the objects constructed so far. -/
structure Device where
  m_weakQueues : Nat → Option (List (Option Nat)) := fun _ => none
  queueObjects : List QueueObject := []

/-- Modelled from the spec: `Device::init` (`Device.cpp` is not part of the sources), the
device as `createDevice` leaves it for a queue plan of `(family index, max count)` pairs: one
empty weak reference per slot and no `Queue` object. -/
def Device.create (queuesFamily : List (Nat × Nat)) : Device :=
  { m_weakQueues := fun queueFamilyIndex =>
      (queuesFamily.find? fun p => p.1 == queueFamilyIndex).map fun p =>
        List.replicate p.2 none
    queueObjects := [] }

/-- The weak reference in the slot `(queueFamilyIndex, index)`, if the plan has that slot. -/
def Device.weakQueue (d : Device) (queueFamilyIndex index : Nat) : Option (Option Nat) :=
  (d.m_weakQueues queueFamilyIndex).bind fun weakQueues => weakQueues[index]?

/-- The `Queue` object `id` exists and has a strong reference. -/
def Device.isAlive (d : Device) (id : Nat) : Bool :=
  match d.queueObjects[id]? with
  | some object => decide (0 < object.strongCount)
  | none => false

/-- The call `weak_ptr::lock`: the object named by the weak reference if it is alive. -/
def Device.lock (d : Device) (weakQueue : Option Nat) : Option Nat :=
  match weakQueue with
  | some id => if d.isAlive id then some id else none
  | none => none

/-- The device after the number of strong references of object `id` changed by `change`. -/
def Device.adjustStrongCount (d : Device) (id : Nat) (change : Nat → Nat) : Device :=
  { d with queueObjects :=
      d.queueObjects.modify (fun o => { o with strongCount := change o.strongCount }) id }

/-- Modelled from the spec: `Device::queue(queueFamilyIndex, index)` (`Device.cpp` is not part
of the sources), run under `m_queueMutex`.  If the slot holds a live reference the call returns
a new strong reference to the same object; otherwise it constructs a new `Queue`, stores a weak
reference to it in the slot and returns it.  `none` stands for a slot outside the plan. -/
def Device.queue (d : Device) (queueFamilyIndex index : Nat) : Option (Nat × Device) :=
  match d.weakQueue queueFamilyIndex index with
  | none => none
  | some weakQueue =>
    match d.lock weakQueue with
    | some id => some (id, d.adjustStrongCount id fun n => n + 1)
    | none =>
      let id := d.queueObjects.length
      some (id,
        { m_weakQueues := fun k =>
            if k = queueFamilyIndex then
              (d.m_weakQueues queueFamilyIndex).map fun weakQueues =>
                weakQueues.set index (some id)
            else d.m_weakQueues k
          queueObjects := d.queueObjects ++ [⟨queueFamilyIndex, index, 1⟩] })

/-- What the callers of a device do with queues: ask for one, copy a strong reference they
hold, or release one. -/
inductive DeviceOp where
  | queue (queueFamilyIndex index : Nat)
  | copy (id : Nat)
  | release (id : Nat)
deriving DecidableEq, Repr

/-- The device after one operation. -/
def Device.step (d : Device) : DeviceOp → Device
  | DeviceOp.queue queueFamilyIndex index =>
    match d.queue queueFamilyIndex index with
    | some (_, d1) => d1
    | none => d
  | DeviceOp.copy id => if d.isAlive id then d.adjustStrongCount id fun n => n + 1 else d
  | DeviceOp.release id => d.adjustStrongCount id fun n => n - 1

/-- The device after a sequence of operations. -/
def Device.run (d : Device) (ops : List DeviceOp) : Device :=
  ops.foldl Device.step d

/-- The invariant of the weak queue cache: every live `Queue` object is the one its slot refers
to, and every weak reference of a slot names an object bound to that slot. -/
def Device.CacheInvariant (d : Device) : Prop :=
  (∀ (id : Nat) (o : QueueObject), d.queueObjects[id]? = some o → 0 < o.strongCount →
    d.weakQueue o.queueFamilyIndex o.index = some (some id)) ∧
  (∀ (queueFamilyIndex index id : Nat),
    d.weakQueue queueFamilyIndex index = some (some id) →
      ∃ o : QueueObject, d.queueObjects[id]? = some o ∧
        o.queueFamilyIndex = queueFamilyIndex ∧ o.index = index)

/-- A device with two queue slots in family 0 after a first call `queue(0, 1)`. -/
def exampleQueueDevice : Device :=
  match (Device.create [(0, 2)]).queue 0 1 with
  | some (_, d1) => d1
  | none => Device.create []

/-! ## `checkExtensions` and `filterAvailableExtensions` -/

/-- Modelled from the spec: `PhysicalDevice::checkExtension` (declared in
`PhysicalDevice.hpp`), the membership test on the supported extension names. -/
def PhysicalDevice.checkExtension (pd : PhysicalDevice) (extensionName : String) : Bool :=
  decide (extensionName ∈ pd.m_extensionProperties)

/-- The loop of `filterAvailableExtensions`; `size` is `wantedExtensions.size()`. -/
def filterAvailableExtensionsLoop (pd : PhysicalDevice) (size : Nat) :
    List String → List String → List String
  | [], availableWantedExtensions => availableWantedExtensions
  | wantedExtension :: rest, availableWantedExtensions =>
    if pd.checkExtension wantedExtension then
      let pushed := availableWantedExtensions ++ [wantedExtension]
      if pushed.length = size then pushed
      else filterAvailableExtensionsLoop pd size rest pushed
    else
      filterAvailableExtensionsLoop pd size rest availableWantedExtensions

/-- The function `PhysicalDevice::filterAvailableExtensions`. -/
def PhysicalDevice.filterAvailableExtensions (pd : PhysicalDevice)
    (wantedExtensions : List String) : List String :=
  filterAvailableExtensionsLoop pd wantedExtensions.length wantedExtensions []

/-- The loop of `checkExtensions`; `size` is `wantedExtensions.size()`. -/
def checkExtensionsLoop (pd : PhysicalDevice) (size : Nat) : List String → Nat → Bool
  | [], _ => false
  | wantedExtension :: rest, foundExtensions =>
    if pd.checkExtension wantedExtension then
      if foundExtensions + 1 = size then true
      else checkExtensionsLoop pd size rest (foundExtensions + 1)
    else
      checkExtensionsLoop pd size rest foundExtensions

/-- The function `PhysicalDevice::checkExtensions`. -/
def PhysicalDevice.checkExtensions (pd : PhysicalDevice) (wantedExtensions : List String) :
    Bool :=
  checkExtensionsLoop pd wantedExtensions.length wantedExtensions 0

/-- A device that supports two extensions. -/
def exampleExtensionsDevice : PhysicalDevice :=
  { m_extensionProperties := ["VK_KHR_swapchain", "VK_EXT_memory_budget"] }

/-! ## `MemoryObjectBase::aligned` -/

/-- The function `MemoryObjectBase::aligned<T>` for an unsigned type `T` of `bits` bits:
`(value + alignment - 1) & ~(alignment - 1)`, every operation taken modulo `2 ^ bits`. -/
def MemoryObjectBase.aligned (bits value alignment : Nat) : Nat :=
  let sum := (value + alignment) % 2 ^ bits
  let sumMinusOne := (sum + (2 ^ bits - 1)) % 2 ^ bits
  let alignmentMinusOne := (alignment + (2 ^ bits - 1)) % 2 ^ bits
  let mask := alignmentMinusOne ^^^ (2 ^ bits - 1)
  sumMinusOne &&& mask

/-! ## Lemmas about the scan loop of `findMemoryType` -/

theorem and_two_pow_ne_zero_iff (m i : Nat) : m &&& 2 ^ i ≠ 0 ↔ m.testBit i = true := by
  constructor
  · intro h
    by_contra hb
    apply h
    apply Nat.eq_of_testBit_eq
    intro j
    simp only [Nat.testBit_and, Nat.testBit_two_pow, Nat.zero_testBit]
    by_cases hij : i = j
    · subst hij; simp [hb]
    · simp [hij]
  · intro hb h
    have := congrArg (fun x => Nat.testBit x i) h
    simp [Nat.testBit_two_pow, hb] at this

theorem mask_test_iff (memoryTypeBits i : Nat) :
    memoryTypeBits &&& ((1 <<< i) % 2 ^ 32) ≠ 0 ↔ MaskAdmits memoryTypeBits i := by
  unfold MaskAdmits
  by_cases hi : i < 32
  · have hlt : 2 ^ i < 2 ^ 32 := Nat.pow_lt_pow_right (by decide) hi
    rw [Nat.one_shiftLeft, Nat.mod_eq_of_lt hlt, and_two_pow_ne_zero_iff]
    simp [hi]
  · have hdvd : 2 ^ 32 ∣ 2 ^ i := Nat.pow_dvd_pow 2 (by omega)
    rw [Nat.one_shiftLeft, Nat.mod_eq_zero_of_dvd hdvd]
    simp [hi]

theorem firstSat_eq_none_iff (p : Nat → vk.MemoryType → Prop) [∀ i mt, Decidable (p i mt)]
    (l : List vk.MemoryType) (i : Nat) :
    firstSat p l i = none ↔ ∀ j mt, l[j]? = some mt → ¬ p (i + j) mt := by
  induction l generalizing i with
  | nil => simp [firstSat]
  | cons a rest ih =>
    unfold firstSat
    by_cases hp : p i a
    · simp only [hp, if_true]
      constructor
      · intro h; cases h
      · intro h; exact absurd hp (by simpa using h 0 a (by simp))
    · simp only [hp, if_false, ih]
      constructor
      · intro h j mt hj
        cases j with
        | zero => simp at hj; subst hj; simpa using hp
        | succ j =>
          have := h j mt (by simpa using hj)
          rwa [show i + 1 + j = i + (j + 1) by omega] at this
      · intro h j mt hj
        have := h (j + 1) mt (by simpa using hj)
        rwa [show i + (j + 1) = i + 1 + j by omega] at this

theorem firstSat_eq_some (p : Nat → vk.MemoryType → Prop) [∀ i mt, Decidable (p i mt)]
    (l : List vk.MemoryType) (i k : Nat) (mt : vk.MemoryType)
    (h : firstSat p l i = some (k, mt)) :
    ∃ j, k = i + j ∧ l[j]? = some mt ∧ p k mt ∧
      ∀ j' mt', j' < j → l[j']? = some mt' → ¬ p (i + j') mt' := by
  induction l generalizing i with
  | nil => simp [firstSat] at h
  | cons a rest ih =>
    unfold firstSat at h
    by_cases hp : p i a
    · simp only [hp, if_true, Option.some.injEq, Prod.mk.injEq] at h
      obtain ⟨rfl, rfl⟩ := h
      exact ⟨0, by simp, by simp, hp, by intro j' mt' hj; omega⟩
    · simp only [hp, if_false] at h
      obtain ⟨j, hk, hj, hpk, hmin⟩ := ih (i + 1) h
      refine ⟨j + 1, by omega, by simpa using hj, hpk, ?_⟩
      intro j' mt' hlt hj'
      cases j' with
      | zero => simp at hj'; subst hj'; simpa using hp
      | succ j' =>
        have := hmin j' mt' (by omega) (by simpa using hj')
        rwa [show i + 1 + j' = i + (j' + 1) by omega] at this

section body

variable (allFlags : Nat) (req : MemoryPropertyFlags) (bits heap : Nat)

theorem body_skip (i : Nat) (mt : vk.MemoryType) (st : ScanState)
    (h : ¬ PassesFilters req bits heap i mt) :
    findMemoryTypeBody allFlags req bits heap i mt st = LoopStep.next st := by
  unfold findMemoryTypeBody
  by_cases h1 : heap ≠ UINT32_MAX ∧ mt.heapIndex ≠ heap
  · rw [if_pos h1]
  · rw [if_neg h1]
    by_cases h2 : bits &&& ((1 <<< i) % 2 ^ 32) = 0
    · rw [if_pos h2]
    · rw [if_neg h2]
      have hm : MaskAdmits bits i := (mask_test_iff bits i).mp h2
      have hh : HeapAdmits heap mt := by
        unfold HeapAdmits
        by_contra hc
        exact h1 ⟨fun e => hc (Or.inl e), fun e => hc (Or.inr e)⟩
      have h3 : ¬ (mt.propertyFlags &&& req.required = req.required) :=
        fun e => h ⟨hh, hm, e⟩
      simp only [h3, if_false]

theorem body_pass (i : Nat) (mt : vk.MemoryType) (st : ScanState)
    (h : PassesFilters req bits heap i mt) :
    findMemoryTypeBody allFlags req bits heap i mt st =
      if req.optional ≠ 0 ∨ req.optionalFallback ≠ 0 then
        if req.optional ≠ 0 ∧ TestFlags allFlags req req.optional mt then
          LoopStep.stop { st with result := ⟨⟨i, mt.propertyFlags⟩, true⟩ }
        else if req.optionalFallback ≠ 0 ∧ st.optionalFallbackFound = false ∧
            TestFlags allFlags req req.optionalFallback mt then
          LoopStep.next { result := ⟨⟨i, mt.propertyFlags⟩, true⟩, optionalFallbackFound := true }
        else
          LoopStep.next
            (if st.result.second then st else { st with result := ⟨⟨i, mt.propertyFlags⟩, true⟩ })
      else if req.notWanted ≠ 0 then
        if mt.propertyFlags &&& vk.flagsNot allFlags req.notWanted = mt.propertyFlags then
          LoopStep.stop { st with result := ⟨⟨i, mt.propertyFlags⟩, true⟩ }
        else
          LoopStep.next
            (if st.result.second then st else { st with result := ⟨⟨i, mt.propertyFlags⟩, true⟩ })
      else
        LoopStep.stop
          (if st.result.second then st else { st with result := ⟨⟨i, mt.propertyFlags⟩, true⟩ }) := by
  obtain ⟨hh, hm, hr⟩ := h
  have h1 : ¬ (heap ≠ UINT32_MAX ∧ mt.heapIndex ≠ heap) := by
    rintro ⟨a, b⟩
    rcases hh with e | e
    · exact a e
    · exact b e
  have h2 : ¬ (bits &&& ((1 <<< i) % 2 ^ 32) = 0) := (mask_test_iff bits i).mpr hm
  unfold MeetsRequired at hr
  unfold findMemoryTypeBody
  rw [if_neg h1, if_neg h2]
  simp only [hr, if_true, TestFlags, findMemoryTypeTail]
  cases hs : st.result.second <;> simp

end body

section loop

variable (allFlags : Nat) (req : MemoryPropertyFlags) (bits heap : Nat)

theorem loop_optional_mode (hA : req.optional ≠ 0 ∨ req.optionalFallback ≠ 0)
    (l : List vk.MemoryType) (i : Nat) (st : ScanState)
    (hinv : st.optionalFallbackFound = true → st.result.second = true) :
    (findMemoryTypeLoop allFlags req bits heap l i st).result =
      match firstSat (OptionalMatch allFlags req bits heap) l i with
      | some p => recorded p
      | none =>
        if st.optionalFallbackFound then st.result
        else
          match firstSat (FallbackMatch allFlags req bits heap) l i with
          | some p => recorded p
          | none =>
            if st.result.second then st.result
            else
              match firstSat (PassesFilters req bits heap) l i with
              | some p => recorded p
              | none => st.result := by
  induction l generalizing i st with
  | nil => simp [findMemoryTypeLoop, firstSat]
  | cons a rest ih =>
    unfold findMemoryTypeLoop
    by_cases hp : PassesFilters req bits heap i a
    · rw [body_pass allFlags req bits heap i a st hp, if_pos hA]
      by_cases ho : req.optional ≠ 0 ∧ TestFlags allFlags req req.optional a
      · have hom : OptionalMatch allFlags req bits heap i a := ⟨hp, ho⟩
        simp [ho, firstSat, hom, recorded]
      · have hom : ¬ OptionalMatch allFlags req bits heap i a := fun h => ho h.2
        rw [if_neg ho]
        by_cases hf : req.optionalFallback ≠ 0 ∧ st.optionalFallbackFound = false ∧
            TestFlags allFlags req req.optionalFallback a
        · have hfm : FallbackMatch allFlags req bits heap i a := ⟨hp, hf.1, hf.2.2⟩
          rw [if_pos hf]
          simp only []
          rw [ih (i + 1) _ (by simp)]
          simp [firstSat, hom, hfm, hf.2.1, recorded]
        · rw [if_neg hf]
          simp only []
          rw [ih (i + 1) _ (by
            intro h
            by_cases hs : st.result.second = true
            · simp only [hs, if_true]
            · simp [hs])]
          by_cases hfound : st.optionalFallbackFound = true
          · have hs := hinv hfound
            simp [firstSat, hom, hfound, hs]
          · have hfm : ¬ FallbackMatch allFlags req bits heap i a := by
              intro h
              exact hf ⟨h.2.1, by simpa using hfound, h.2.2⟩
            by_cases hs : st.result.second = true
            · simp [firstSat, hom, hfm, hfound, hs]
            · simp [firstSat, hom, hfm, hfound, hs, hp, recorded]
    · rw [body_skip allFlags req bits heap i a st hp]
      have hom : ¬ OptionalMatch allFlags req bits heap i a := fun h => hp h.1
      have hfm : ¬ FallbackMatch allFlags req bits heap i a := fun h => hp h.1
      simp only []
      rw [ih (i + 1) st hinv]
      simp [firstSat, hom, hfm, hp]

theorem loop_notWanted_mode (hA : ¬ (req.optional ≠ 0 ∨ req.optionalFallback ≠ 0))
    (hN : req.notWanted ≠ 0) (l : List vk.MemoryType) (i : Nat) (st : ScanState) :
    (findMemoryTypeLoop allFlags req bits heap l i st).result =
      match firstSat (CleanMatch allFlags req bits heap) l i with
      | some p => recorded p
      | none =>
        if st.result.second then st.result
        else
          match firstSat (PassesFilters req bits heap) l i with
          | some p => recorded p
          | none => st.result := by
  induction l generalizing i st with
  | nil => simp [findMemoryTypeLoop, firstSat]
  | cons a rest ih =>
    unfold findMemoryTypeLoop
    by_cases hp : PassesFilters req bits heap i a
    · rw [body_pass allFlags req bits heap i a st hp, if_neg hA, if_pos hN]
      by_cases hc : a.propertyFlags &&& vk.flagsNot allFlags req.notWanted = a.propertyFlags
      · have hcm : CleanMatch allFlags req bits heap i a := ⟨hp, hc⟩
        simp [hc, firstSat, hcm, recorded]
      · have hcm : ¬ CleanMatch allFlags req bits heap i a := fun h => hc h.2
        rw [if_neg hc]
        simp only []
        rw [ih (i + 1) _]
        by_cases hs : st.result.second = true
        · simp [firstSat, hcm, hs]
        · simp [firstSat, hcm, hs, hp, recorded]
    · rw [body_skip allFlags req bits heap i a st hp]
      have hcm : ¬ CleanMatch allFlags req bits heap i a := fun h => hp h.1
      simp only []
      rw [ih (i + 1) st]
      simp [firstSat, hcm, hp]

theorem loop_plain_mode (hA : ¬ (req.optional ≠ 0 ∨ req.optionalFallback ≠ 0))
    (hN : ¬ req.notWanted ≠ 0) (l : List vk.MemoryType) (i : Nat) (st : ScanState) :
    (findMemoryTypeLoop allFlags req bits heap l i st).result =
      match firstSat (PassesFilters req bits heap) l i with
      | some p => if st.result.second then st.result else recorded p
      | none => st.result := by
  induction l generalizing i st with
  | nil => simp [findMemoryTypeLoop, firstSat]
  | cons a rest ih =>
    unfold findMemoryTypeLoop
    by_cases hp : PassesFilters req bits heap i a
    · rw [body_pass allFlags req bits heap i a st hp, if_neg hA, if_neg hN]
      by_cases hs : st.result.second = true
      · simp [firstSat, hs, hp]
      · simp [firstSat, hs, hp, recorded]
    · rw [body_skip allFlags req bits heap i a st hp]
      simp only []
      rw [ih (i + 1) st]
      simp [firstSat, hp]

end loop

/-! ## `findMemoryType` as a priority selection -/

theorem findMemoryType_eq_select (pd : PhysicalDevice) (req : MemoryPropertyFlags)
    (bits heap : Nat) :
    pd.findMemoryType req bits heap =
      match selectMemoryType pd.allMemoryPropertyFlags req bits heap
          pd.queryMemoryProperties.memoryTypes with
      | some p => Except.ok ⟨p.1, p.2.propertyFlags⟩
      | none => Except.error memoryTypeNotFound := by
  unfold PhysicalDevice.findMemoryType selectMemoryType memoryTypeNotFound
  simp only []
  by_cases hA : req.optional ≠ 0 ∨ req.optionalFallback ≠ 0
  · rw [loop_optional_mode pd.allMemoryPropertyFlags req bits heap hA _ 0 {} (by simp), if_pos hA]
    cases h1 : firstSat (OptionalMatch pd.allMemoryPropertyFlags req bits heap)
        pd.queryMemoryProperties.memoryTypes 0 with
    | some p => simp [recorded]
    | none =>
      cases h2 : firstSat (FallbackMatch pd.allMemoryPropertyFlags req bits heap)
          pd.queryMemoryProperties.memoryTypes 0 with
      | some p => simp [recorded]
      | none =>
        cases h3 : firstSat (PassesFilters req bits heap)
            pd.queryMemoryProperties.memoryTypes 0 with
        | some p => simp [recorded]
        | none => simp
  · rw [if_neg hA]
    by_cases hN : req.notWanted ≠ 0
    · rw [loop_notWanted_mode pd.allMemoryPropertyFlags req bits heap hA hN, if_pos hN]
      cases h1 : firstSat (CleanMatch pd.allMemoryPropertyFlags req bits heap)
          pd.queryMemoryProperties.memoryTypes 0 with
      | some p => simp [recorded]
      | none =>
        cases h3 : firstSat (PassesFilters req bits heap)
            pd.queryMemoryProperties.memoryTypes 0 with
        | some p => simp [recorded]
        | none => simp
    · rw [loop_plain_mode pd.allMemoryPropertyFlags req bits heap hA hN, if_neg hN]
      cases h3 : firstSat (PassesFilters req bits heap)
          pd.queryMemoryProperties.memoryTypes 0 with
      | some p => simp [recorded]
      | none => simp

/-- The first match: its index, its entry and its minimality, with indices counted from 0. -/
theorem firstSat_zero_some (p : Nat → vk.MemoryType → Prop) [∀ i mt, Decidable (p i mt)]
    (l : List vk.MemoryType) (k : Nat) (mt : vk.MemoryType)
    (h : firstSat p l 0 = some (k, mt)) :
    l[k]? = some mt ∧ p k mt ∧ ∀ j mt', j < k → l[j]? = some mt' → ¬ p j mt' := by
  obtain ⟨j, hk, hj, hp, hmin⟩ := firstSat_eq_some p l 0 k mt h
  have hkj : k = j := by omega
  subst hkj
  refine ⟨hj, hp, ?_⟩
  intro j' mt' hlt hj'
  have := hmin j' mt' hlt hj'
  rwa [Nat.zero_add] at this

theorem firstSat_zero_none (p : Nat → vk.MemoryType → Prop) [∀ i mt, Decidable (p i mt)]
    (l : List vk.MemoryType) :
    firstSat p l 0 = none ↔ ∀ j mt, l[j]? = some mt → ¬ p j mt := by
  rw [firstSat_eq_none_iff]
  simp only [Nat.zero_add]

theorem firstSat_zero_exists (p : Nat → vk.MemoryType → Prop) [∀ i mt, Decidable (p i mt)]
    (l : List vk.MemoryType) (h : ∃ j mt, l[j]? = some mt ∧ p j mt) :
    ∃ k mt, firstSat p l 0 = some (k, mt) := by
  cases hf : firstSat p l 0 with
  | none =>
    obtain ⟨j, mt, hj, hp⟩ := h
    exact absurd hp ((firstSat_zero_none p l).mp hf j mt hj)
  | some q => exact ⟨q.1, q.2, rfl⟩

/-- Whatever `selectMemoryType` selects is an entry of the list that passes the filters. -/
theorem selectMemoryType_some (allFlags : Nat) (req : MemoryPropertyFlags) (bits heap : Nat)
    (types : List vk.MemoryType) (k : Nat) (mt : vk.MemoryType)
    (h : selectMemoryType allFlags req bits heap types = some (k, mt)) :
    types[k]? = some mt ∧ PassesFilters req bits heap k mt := by
  unfold selectMemoryType at h
  split at h
  · split at h
    · next p h1 =>
      cases h
      have := firstSat_zero_some _ _ _ _ h1
      exact ⟨this.1, this.2.1.1⟩
    · split at h
      · next p h2 =>
        cases h
        have := firstSat_zero_some _ _ _ _ h2
        exact ⟨this.1, this.2.1.1⟩
      · have := firstSat_zero_some _ _ _ _ h
        exact ⟨this.1, this.2.1⟩
  · split at h
    · split at h
      · next p h1 =>
        cases h
        have := firstSat_zero_some _ _ _ _ h1
        exact ⟨this.1, this.2.1.1⟩
      · have := firstSat_zero_some _ _ _ _ h
        exact ⟨this.1, this.2.1⟩
    · have := firstSat_zero_some _ _ _ _ h
      exact ⟨this.1, this.2.1⟩

/-- Nothing is selected exactly when no entry passes the filters. -/
theorem selectMemoryType_none_iff (allFlags : Nat) (req : MemoryPropertyFlags) (bits heap : Nat)
    (types : List vk.MemoryType) :
    selectMemoryType allFlags req bits heap types = none ↔
      ∀ j mt, types[j]? = some mt → ¬ PassesFilters req bits heap j mt := by
  rw [← firstSat_zero_none]
  constructor
  · intro h
    unfold selectMemoryType at h
    split at h
    · split at h
      · cases h
      · split at h
        · cases h
        · exact h
    · split at h
      · split at h
        · cases h
        · exact h
      · exact h
  · intro h
    have hall := (firstSat_zero_none _ _).mp h
    have ho : firstSat (OptionalMatch allFlags req bits heap) types 0 = none :=
      (firstSat_zero_none _ _).mpr fun j mt hj hm => hall j mt hj hm.1
    have hf : firstSat (FallbackMatch allFlags req bits heap) types 0 = none :=
      (firstSat_zero_none _ _).mpr fun j mt hj hm => hall j mt hj hm.1
    have hc : firstSat (CleanMatch allFlags req bits heap) types 0 = none :=
      (firstSat_zero_none _ _).mpr fun j mt hj hm => hall j mt hj hm.1
    unfold selectMemoryType
    simp only [ho, hf, hc, h]
    split
    · rfl
    · split <;> rfl

/-! ## Claims about `findMemoryType` -/

theorem selectMemoryType_optional (allFlags : Nat) (req : MemoryPropertyFlags) (bits heap : Nat)
    (types : List vk.MemoryType) (k : Nat) (mt : vk.MemoryType)
    (h : firstSat (OptionalMatch allFlags req bits heap) types 0 = some (k, mt)) :
    selectMemoryType allFlags req bits heap types = some (k, mt) := by
  have hm := (firstSat_zero_some _ _ _ _ h).2.1
  unfold selectMemoryType
  rw [if_pos (Or.inl hm.2.1), h]

theorem selectMemoryType_fallback (allFlags : Nat) (req : MemoryPropertyFlags) (bits heap : Nat)
    (types : List vk.MemoryType) (k : Nat) (mt : vk.MemoryType)
    (hno : firstSat (OptionalMatch allFlags req bits heap) types 0 = none)
    (h : firstSat (FallbackMatch allFlags req bits heap) types 0 = some (k, mt)) :
    selectMemoryType allFlags req bits heap types = some (k, mt) := by
  have hm := (firstSat_zero_some _ _ _ _ h).2.1
  unfold selectMemoryType
  rw [if_pos (Or.inr hm.2.1), hno, h]

/-- For flags inside `allFlags`, the `notWanted` test of the source holds exactly when none of
the `notWanted` bits is set. -/
theorem flagsWithoutNotWanted_eq_iff (allFlags notWanted flags : Nat)
    (hv : flags &&& allFlags = flags) :
    flags &&& vk.flagsNot allFlags notWanted = flags ↔ flags &&& notWanted = 0 := by
  unfold vk.flagsNot
  constructor
  · intro h
    apply Nat.eq_of_testBit_eq
    intro j
    have h1 := congrArg (fun x => Nat.testBit x j) hv
    have h2 := congrArg (fun x => Nat.testBit x j) h
    simp only [Nat.testBit_and, Nat.testBit_xor, Nat.zero_testBit] at h1 h2 ⊢
    revert h1 h2
    cases flags.testBit j <;> cases notWanted.testBit j <;> cases allFlags.testBit j <;> simp
  · intro h
    apply Nat.eq_of_testBit_eq
    intro j
    have h1 := congrArg (fun x => Nat.testBit x j) hv
    have h2 := congrArg (fun x => Nat.testBit x j) h
    simp only [Nat.testBit_and, Nat.testBit_xor, Nat.zero_testBit] at h1 h2 ⊢
    revert h1 h2
    cases flags.testBit j <;> cases notWanted.testBit j <;> cases allFlags.testBit j <;> simp

/-- For flags inside `allFlags`, `flags & ~notWanted` is `flags` with the `notWanted` bits
cleared. -/
theorem testBit_flagsWithoutNotWanted (allFlags notWanted flags j : Nat)
    (hv : flags &&& allFlags = flags) :
    (flags &&& vk.flagsNot allFlags notWanted).testBit j =
      (flags.testBit j && !notWanted.testBit j) := by
  unfold vk.flagsNot
  have h1 := congrArg (fun x => Nat.testBit x j) hv
  simp only [Nat.testBit_and, Nat.testBit_xor] at h1 ⊢
  revert h1
  cases flags.testBit j <;> cases notWanted.testBit j <;> cases allFlags.testBit j <;> simp

/-- Claim C1: if some type admitted by the mask and the heap restriction has flags containing
all `required` bits, `findMemoryType` does not fail and returns a type of the layout whose
`propertyFlags` contain all `required` bits. -/
theorem findMemoryType_required_satisfiable (pd : PhysicalDevice) (req : MemoryPropertyFlags)
    (memoryTypeBits heap : Nat)
    (h : ∃ i mt, pd.queryMemoryProperties.memoryTypes[i]? = some mt ∧
      MaskAdmits memoryTypeBits i ∧ HeapAdmits heap mt ∧
      mt.propertyFlags &&& req.required = req.required) :
    ∃ r, pd.findMemoryType req memoryTypeBits heap = Except.ok r ∧
      r.propertyFlags &&& req.required = req.required ∧
      ∃ mt, pd.queryMemoryProperties.memoryTypes[r.index]? = some mt ∧
        mt.propertyFlags = r.propertyFlags := by
  rw [findMemoryType_eq_select]
  cases hsel : selectMemoryType pd.allMemoryPropertyFlags req memoryTypeBits heap
      pd.queryMemoryProperties.memoryTypes with
  | none =>
    obtain ⟨i, mt, hi, hm, hh, hr⟩ := h
    exact absurd ⟨hh, hm, hr⟩ ((selectMemoryType_none_iff _ _ _ _ _).mp hsel i mt hi)
  | some p =>
    obtain ⟨k, mt⟩ := p
    have hs := selectMemoryType_some _ _ _ _ _ _ _ hsel
    exact ⟨⟨k, mt.propertyFlags⟩, rfl, hs.2.2.2, mt, hs.1, rfl⟩

/-- Claim C2: with a non-empty `optional`, if some type passing the scan filters has
`flags & ~notWanted` containing all `optional` bits, `findMemoryType` returns the
lowest-index such type. -/
theorem findMemoryType_optional_first (pd : PhysicalDevice) (req : MemoryPropertyFlags)
    (memoryTypeBits heap : Nat) (hopt : req.optional ≠ 0)
    (h : ∃ i mt, pd.queryMemoryProperties.memoryTypes[i]? = some mt ∧
      PassesFilters req memoryTypeBits heap i mt ∧
      TestFlags pd.allMemoryPropertyFlags req req.optional mt) :
    ∃ k mt, pd.queryMemoryProperties.memoryTypes[k]? = some mt ∧
      PassesFilters req memoryTypeBits heap k mt ∧
      TestFlags pd.allMemoryPropertyFlags req req.optional mt ∧
      (∀ j mt', j < k → pd.queryMemoryProperties.memoryTypes[j]? = some mt' →
        ¬ (PassesFilters req memoryTypeBits heap j mt' ∧
          TestFlags pd.allMemoryPropertyFlags req req.optional mt')) ∧
      pd.findMemoryType req memoryTypeBits heap = Except.ok ⟨k, mt.propertyFlags⟩ := by
  obtain ⟨i, mt, hi, hp, ht⟩ := h
  obtain ⟨k, mt', hf⟩ := firstSat_zero_exists
    (OptionalMatch pd.allMemoryPropertyFlags req memoryTypeBits heap)
    pd.queryMemoryProperties.memoryTypes ⟨i, mt, hi, hp, hopt, ht⟩
  obtain ⟨hk, hm, hmin⟩ := firstSat_zero_some _ _ _ _ hf
  refine ⟨k, mt', hk, hm.1, hm.2.2, ?_, ?_⟩
  · intro j mt'' hlt hj hc
    exact hmin j mt'' hlt hj ⟨hc.1, hopt, hc.2⟩
  · rw [findMemoryType_eq_select, selectMemoryType_optional _ _ _ _ _ _ _ hf]

/-- Claim C3: with a non-empty `optionalFallback`, if no type passing the scan filters matches
a non-empty `optional` but some such type has `flags & ~notWanted` containing all
`optionalFallback` bits, `findMemoryType` returns the lowest-index type matching
`optionalFallback`. -/
theorem findMemoryType_fallback_first (pd : PhysicalDevice) (req : MemoryPropertyFlags)
    (memoryTypeBits heap : Nat) (hfb : req.optionalFallback ≠ 0)
    (hno : ∀ j mt, pd.queryMemoryProperties.memoryTypes[j]? = some mt →
      PassesFilters req memoryTypeBits heap j mt →
      ¬ (req.optional ≠ 0 ∧ TestFlags pd.allMemoryPropertyFlags req req.optional mt))
    (h : ∃ i mt, pd.queryMemoryProperties.memoryTypes[i]? = some mt ∧
      PassesFilters req memoryTypeBits heap i mt ∧
      TestFlags pd.allMemoryPropertyFlags req req.optionalFallback mt) :
    ∃ k mt, pd.queryMemoryProperties.memoryTypes[k]? = some mt ∧
      PassesFilters req memoryTypeBits heap k mt ∧
      TestFlags pd.allMemoryPropertyFlags req req.optionalFallback mt ∧
      (∀ j mt', j < k → pd.queryMemoryProperties.memoryTypes[j]? = some mt' →
        ¬ (PassesFilters req memoryTypeBits heap j mt' ∧
          TestFlags pd.allMemoryPropertyFlags req req.optionalFallback mt')) ∧
      pd.findMemoryType req memoryTypeBits heap = Except.ok ⟨k, mt.propertyFlags⟩ := by
  obtain ⟨i, mt, hi, hp, ht⟩ := h
  have hnone : firstSat (OptionalMatch pd.allMemoryPropertyFlags req memoryTypeBits heap)
      pd.queryMemoryProperties.memoryTypes 0 = none :=
    (firstSat_zero_none _ _).mpr fun j mt' hj hm => hno j mt' hj hm.1 hm.2
  obtain ⟨k, mt', hf⟩ := firstSat_zero_exists
    (FallbackMatch pd.allMemoryPropertyFlags req memoryTypeBits heap)
    pd.queryMemoryProperties.memoryTypes ⟨i, mt, hi, hp, hfb, ht⟩
  obtain ⟨hk, hm, hmin⟩ := firstSat_zero_some _ _ _ _ hf
  refine ⟨k, mt', hk, hm.1, hm.2.2, ?_, ?_⟩
  · intro j mt'' hlt hj hc
    exact hmin j mt'' hlt hj ⟨hc.1, hfb, hc.2⟩
  · rw [findMemoryType_eq_select, selectMemoryType_fallback _ _ _ _ _ _ _ hnone hf]

/-- Claim C4: with empty `optional` and `optionalFallback` and a non-empty `notWanted`,
`findMemoryType` returns the lowest-index type passing the scan filters whose flags contain
none of the `notWanted` bits; if there is none but some type passes the filters, it returns
the lowest-index type passing the filters.  This holds when the flags of every type passing
the filters are a flag set of `vk::MemoryPropertyFlags`, that is, lie inside
`allMemoryPropertyFlags`: `operator~` complements inside that set only. -/
theorem findMemoryType_notWanted (pd : PhysicalDevice) (req : MemoryPropertyFlags)
    (memoryTypeBits heap : Nat) (hopt : req.optional = 0) (hfb : req.optionalFallback = 0)
    (hnw : req.notWanted ≠ 0)
    (hvalid : ∀ (i : Nat) (mt : vk.MemoryType), pd.queryMemoryProperties.memoryTypes[i]? = some mt →
      PassesFilters req memoryTypeBits heap i mt →
      mt.propertyFlags &&& pd.allMemoryPropertyFlags = mt.propertyFlags) :
    ((∃ i mt, pd.queryMemoryProperties.memoryTypes[i]? = some mt ∧
        PassesFilters req memoryTypeBits heap i mt ∧ mt.propertyFlags &&& req.notWanted = 0) →
      ∃ k mt, pd.queryMemoryProperties.memoryTypes[k]? = some mt ∧
        PassesFilters req memoryTypeBits heap k mt ∧ mt.propertyFlags &&& req.notWanted = 0 ∧
        (∀ j mt', j < k → pd.queryMemoryProperties.memoryTypes[j]? = some mt' →
          ¬ (PassesFilters req memoryTypeBits heap j mt' ∧
            mt'.propertyFlags &&& req.notWanted = 0)) ∧
        pd.findMemoryType req memoryTypeBits heap = Except.ok ⟨k, mt.propertyFlags⟩) ∧
    ((¬ ∃ i mt, pd.queryMemoryProperties.memoryTypes[i]? = some mt ∧
        PassesFilters req memoryTypeBits heap i mt ∧ mt.propertyFlags &&& req.notWanted = 0) →
      (∃ i mt, pd.queryMemoryProperties.memoryTypes[i]? = some mt ∧
        PassesFilters req memoryTypeBits heap i mt) →
      ∃ k mt, pd.queryMemoryProperties.memoryTypes[k]? = some mt ∧
        PassesFilters req memoryTypeBits heap k mt ∧
        (∀ j mt', j < k → pd.queryMemoryProperties.memoryTypes[j]? = some mt' →
          ¬ PassesFilters req memoryTypeBits heap j mt') ∧
        pd.findMemoryType req memoryTypeBits heap = Except.ok ⟨k, mt.propertyFlags⟩) := by
  have hA : ¬ (req.optional ≠ 0 ∨ req.optionalFallback ≠ 0) := by
    rintro (h | h)
    · exact h hopt
    · exact h hfb
  have hclean : ∀ j mt, pd.queryMemoryProperties.memoryTypes[j]? = some mt →
      (CleanMatch pd.allMemoryPropertyFlags req memoryTypeBits heap j mt ↔
        PassesFilters req memoryTypeBits heap j mt ∧ mt.propertyFlags &&& req.notWanted = 0) := by
    intro j mt hj
    unfold CleanMatch
    exact and_congr_right fun hp => flagsWithoutNotWanted_eq_iff _ _ _ (hvalid j mt hj hp)
  constructor
  · rintro ⟨i, mt, hi, hp, hc⟩
    obtain ⟨k, mt', hf⟩ := firstSat_zero_exists
      (CleanMatch pd.allMemoryPropertyFlags req memoryTypeBits heap)
      pd.queryMemoryProperties.memoryTypes ⟨i, mt, hi, (hclean i mt hi).mpr ⟨hp, hc⟩⟩
    obtain ⟨hk, hm, hmin⟩ := firstSat_zero_some _ _ _ _ hf
    have hm' := (hclean k mt' hk).mp hm
    refine ⟨k, mt', hk, hm'.1, hm'.2, ?_, ?_⟩
    · intro j mt'' hlt hj hc'
      exact hmin j mt'' hlt hj ((hclean j mt'' hj).mpr hc')
    · rw [findMemoryType_eq_select]
      unfold selectMemoryType
      rw [if_neg hA, if_pos hnw, hf]
  · intro hnone hsome
    obtain ⟨i, mt, hi, hp⟩ := hsome
    have hcn : firstSat (CleanMatch pd.allMemoryPropertyFlags req memoryTypeBits heap)
        pd.queryMemoryProperties.memoryTypes 0 = none :=
      (firstSat_zero_none _ _).mpr fun j mt' hj hm =>
        hnone ⟨j, mt', hj, (hclean j mt' hj).mp hm⟩
    obtain ⟨k, mt', hf⟩ := firstSat_zero_exists (PassesFilters req memoryTypeBits heap)
      pd.queryMemoryProperties.memoryTypes ⟨i, mt, hi, hp⟩
    obtain ⟨hk, hm, hmin⟩ := firstSat_zero_some _ _ _ _ hf
    refine ⟨k, mt', hk, hm, hmin, ?_⟩
    rw [findMemoryType_eq_select]
    unfold selectMemoryType
    rw [if_neg hA, if_pos hnw, hcn, hf]

/-- Claim C5: `findMemoryType` fails, with the `InitializationFailedError`, exactly when the
mask excludes every type of the layout or no type admitted by the mask and the heap
restriction has flags containing all `required` bits; in every other case it returns a type. -/
theorem findMemoryType_fails_iff (pd : PhysicalDevice) (req : MemoryPropertyFlags)
    (memoryTypeBits heap : Nat) :
    (pd.findMemoryType req memoryTypeBits heap =
        Except.error (vk.Error.InitializationFailedError "Cannot find specified memory type") ↔
      ((∀ i, i < pd.queryMemoryProperties.memoryTypes.length → ¬ MaskAdmits memoryTypeBits i) ∨
        (∀ i mt, pd.queryMemoryProperties.memoryTypes[i]? = some mt →
          MaskAdmits memoryTypeBits i → HeapAdmits heap mt →
          ¬ mt.propertyFlags &&& req.required = req.required))) ∧
    ((∃ r, pd.findMemoryType req memoryTypeBits heap = Except.ok r) ∨
      pd.findMemoryType req memoryTypeBits heap =
        Except.error (vk.Error.InitializationFailedError "Cannot find specified memory type")) := by
  rw [findMemoryType_eq_select]
  cases hsel : selectMemoryType pd.allMemoryPropertyFlags req memoryTypeBits heap
      pd.queryMemoryProperties.memoryTypes with
  | none =>
    have hn := (selectMemoryType_none_iff _ _ _ _ _).mp hsel
    refine ⟨⟨fun _ => Or.inr ?_, fun _ => rfl⟩, Or.inr rfl⟩
    intro i mt hi hm hh hr
    exact hn i mt hi ⟨hh, hm, hr⟩
  | some p =>
    obtain ⟨k, mt⟩ := p
    have hs := selectMemoryType_some _ _ _ _ _ _ _ hsel
    refine ⟨⟨(fun h => by cases h), ?_⟩, Or.inl ⟨_, rfl⟩⟩
    rintro (h | h)
    · have hlt : k < pd.queryMemoryProperties.memoryTypes.length := by
        by_contra hge
        rw [List.getElem?_eq_none (by omega)] at hs
        cases hs.1
      exact absurd hs.2.2.1 (h k hlt)
    · exact absurd hs.2.2.2 (h k mt hs.1 hs.2.2.1 hs.2.1)

/-- Claim C10: the overload `findMemoryType(memoryTypeBits)` returns the lowest-index type of
the layout whose bit is set in the mask, with that type's own flags, and fails with the
`InitializationFailedError` when no type's bit is set. -/
theorem findMemoryTypeBits_first_admitted (pd : PhysicalDevice) (memoryTypeBits : Nat) :
    (∃ i mt, pd.queryMemoryProperties.memoryTypes[i]? = some mt ∧
        MaskAdmits memoryTypeBits i ∧ (∀ j, j < i → ¬ MaskAdmits memoryTypeBits j) ∧
        pd.findMemoryTypeBits memoryTypeBits = Except.ok ⟨i, mt.propertyFlags⟩) ∨
    ((∀ i, i < pd.queryMemoryProperties.memoryTypes.length → ¬ MaskAdmits memoryTypeBits i) ∧
      pd.findMemoryTypeBits memoryTypeBits =
        Except.error (vk.Error.InitializationFailedError "Cannot find specified memory type")) := by
  have hpass : ∀ i mt, PassesFilters {} memoryTypeBits UINT32_MAX i mt ↔
      MaskAdmits memoryTypeBits i := by
    intro i mt
    unfold PassesFilters HeapAdmits MeetsRequired
    simp
  have hsel : selectMemoryType pd.allMemoryPropertyFlags {} memoryTypeBits UINT32_MAX
      pd.queryMemoryProperties.memoryTypes =
      firstSat (PassesFilters {} memoryTypeBits UINT32_MAX)
        pd.queryMemoryProperties.memoryTypes 0 := by
    unfold selectMemoryType
    simp
  unfold PhysicalDevice.findMemoryTypeBits
  rw [findMemoryType_eq_select, hsel]
  cases hf : firstSat (PassesFilters {} memoryTypeBits UINT32_MAX)
      pd.queryMemoryProperties.memoryTypes 0 with
  | none =>
    right
    refine ⟨?_, rfl⟩
    intro i hi hm
    have hn := (firstSat_zero_none _ _).mp hf i
      (pd.queryMemoryProperties.memoryTypes[i]) (List.getElem?_eq_getElem hi)
    exact hn ((hpass _ _).mpr hm)
  | some p =>
    obtain ⟨k, mt⟩ := p
    left
    obtain ⟨hk, hm, hmin⟩ := firstSat_zero_some _ _ _ _ hf
    refine ⟨k, mt, hk, (hpass _ _).mp hm, ?_, rfl⟩
    intro j hlt hmj
    have hklt : k < pd.queryMemoryProperties.memoryTypes.length := by
      by_contra hge
      rw [List.getElem?_eq_none (by omega)] at hk
      cases hk
    have hjlt : j < pd.queryMemoryProperties.memoryTypes.length := by omega
    exact hmin j (pd.queryMemoryProperties.memoryTypes[j]) hlt
      (List.getElem?_eq_getElem hjlt) ((hpass _ _).mpr hmj)

/-! ### Instances of the conditional statements -/

theorem findMemoryType_required_satisfiable_witness :
    (∃ i mt, exampleDevice.queryMemoryProperties.memoryTypes[i]? = some mt ∧
      MaskAdmits 0x1F i ∧ HeapAdmits UINT32_MAX mt ∧
      mt.propertyFlags &&& ({ required := 2 } : MemoryPropertyFlags).required =
        ({ required := 2 } : MemoryPropertyFlags).required) ∧
    ∃ r, exampleDevice.findMemoryType { required := 2 } 0x1F UINT32_MAX = Except.ok r ∧
      r.propertyFlags &&& ({ required := 2 } : MemoryPropertyFlags).required =
        ({ required := 2 } : MemoryPropertyFlags).required ∧
      ∃ mt, exampleDevice.queryMemoryProperties.memoryTypes[r.index]? = some mt ∧
        mt.propertyFlags = r.propertyFlags :=
  ⟨⟨1, ⟨6, 1⟩, by decide⟩,
    findMemoryType_required_satisfiable exampleDevice { required := 2 } 0x1F UINT32_MAX
      ⟨1, ⟨6, 1⟩, by decide⟩⟩

theorem findMemoryType_optional_first_witness :
    exampleDevice.findMemoryType { required := 2, optional := 8, optionalFallback := 4 }
        0x1F UINT32_MAX = Except.ok ⟨2, 14⟩ ∧
    ∃ k mt, exampleDevice.queryMemoryProperties.memoryTypes[k]? = some mt ∧
      PassesFilters { required := 2, optional := 8, optionalFallback := 4 } 0x1F UINT32_MAX k mt ∧
      TestFlags exampleDevice.allMemoryPropertyFlags
        { required := 2, optional := 8, optionalFallback := 4 } 8 mt ∧
      (∀ j mt', j < k → exampleDevice.queryMemoryProperties.memoryTypes[j]? = some mt' →
        ¬ (PassesFilters { required := 2, optional := 8, optionalFallback := 4 }
            0x1F UINT32_MAX j mt' ∧
          TestFlags exampleDevice.allMemoryPropertyFlags
            { required := 2, optional := 8, optionalFallback := 4 } 8 mt')) ∧
      exampleDevice.findMemoryType { required := 2, optional := 8, optionalFallback := 4 }
        0x1F UINT32_MAX = Except.ok ⟨k, mt.propertyFlags⟩ :=
  ⟨by decide,
    findMemoryType_optional_first exampleDevice
      { required := 2, optional := 8, optionalFallback := 4 } 0x1F UINT32_MAX (by decide)
      ⟨2, ⟨14, 1⟩, by decide⟩⟩

theorem findMemoryType_fallback_first_witness :
    exampleDevice.findMemoryType { required := 2, optional := 16, optionalFallback := 8 }
        0x1F UINT32_MAX = Except.ok ⟨2, 14⟩ ∧
    ∃ k mt, exampleDevice.queryMemoryProperties.memoryTypes[k]? = some mt ∧
      PassesFilters { required := 2, optional := 16, optionalFallback := 8 }
        0x1F UINT32_MAX k mt ∧
      TestFlags exampleDevice.allMemoryPropertyFlags
        { required := 2, optional := 16, optionalFallback := 8 } 8 mt ∧
      (∀ j mt', j < k → exampleDevice.queryMemoryProperties.memoryTypes[j]? = some mt' →
        ¬ (PassesFilters { required := 2, optional := 16, optionalFallback := 8 }
            0x1F UINT32_MAX j mt' ∧
          TestFlags exampleDevice.allMemoryPropertyFlags
            { required := 2, optional := 16, optionalFallback := 8 } 8 mt')) ∧
      exampleDevice.findMemoryType { required := 2, optional := 16, optionalFallback := 8 }
        0x1F UINT32_MAX = Except.ok ⟨k, mt.propertyFlags⟩ :=
  ⟨by decide,
    findMemoryType_fallback_first exampleDevice
      { required := 2, optional := 16, optionalFallback := 8 } 0x1F UINT32_MAX (by decide)
      (fun j mt hj _ =>
        (by decide : ∀ mt ∈ exampleDevice.queryMemoryProperties.memoryTypes,
          ¬ ((16 : Nat) ≠ 0 ∧ TestFlags exampleDevice.allMemoryPropertyFlags
            { required := 2, optional := 16, optionalFallback := 8 } 16 mt))
          mt (List.mem_iff_getElem?.mpr ⟨_, hj⟩))
      ⟨2, ⟨14, 1⟩, by decide⟩⟩

theorem findMemoryType_notWanted_witness :
    exampleDevice.findMemoryType { required := 1, notWanted := 2 } 0x1F UINT32_MAX =
        Except.ok ⟨0, 1⟩ ∧
    exampleDevice.findMemoryType { required := 2, notWanted := 4 } 0x1F UINT32_MAX =
        Except.ok ⟨1, 6⟩ ∧
    (∃ k mt, exampleDevice.queryMemoryProperties.memoryTypes[k]? = some mt ∧
      PassesFilters { required := 1, notWanted := 2 } 0x1F UINT32_MAX k mt ∧
      mt.propertyFlags &&& 2 = 0 ∧
      (∀ j mt', j < k → exampleDevice.queryMemoryProperties.memoryTypes[j]? = some mt' →
        ¬ (PassesFilters { required := 1, notWanted := 2 } 0x1F UINT32_MAX j mt' ∧
          mt'.propertyFlags &&& 2 = 0)) ∧
      exampleDevice.findMemoryType { required := 1, notWanted := 2 } 0x1F UINT32_MAX =
        Except.ok ⟨k, mt.propertyFlags⟩) :=
  ⟨by decide, by decide,
    (findMemoryType_notWanted exampleDevice { required := 1, notWanted := 2 } 0x1F UINT32_MAX
      (by decide) (by decide) (by decide)
      (fun _ mt hj _ =>
        (by decide : ∀ mt ∈ exampleDevice.queryMemoryProperties.memoryTypes,
          mt.propertyFlags &&& exampleDevice.allMemoryPropertyFlags = mt.propertyFlags)
          mt (List.mem_iff_getElem?.mpr ⟨_, hj⟩))).1
      ⟨0, ⟨1, 0⟩, by decide⟩⟩

/-- Claim C4 as stated fails for a layout with a flag bit that `vk::MemoryPropertyFlags` does
not declare: with declared bits `0x1FF`, types with flags `0x201` and `0x1` and
`notWanted = 0x2`, type 0 passes the filters and has no `notWanted` bit, but
`0x201 & ~0x2 = 0x201 & 0x1FD = 0x1`, which is not `0x201`, so the scan passes over type 0 and
returns type 1. -/
theorem findMemoryType_notWanted_undeclared_bit :
    undeclaredFlagDevice.queryMemoryProperties.memoryTypes = [⟨0x201, 0⟩, ⟨0x1, 0⟩] ∧
    PassesFilters { required := 1, notWanted := 2 } 0x3 UINT32_MAX 0 ⟨0x201, 0⟩ ∧
    (0x201 : Nat) &&& 2 = 0 ∧
    undeclaredFlagDevice.findMemoryType { required := 1, notWanted := 2 } 0x3 UINT32_MAX =
      Except.ok ⟨1, 0x1⟩ ∧
    ¬ ∃ (k : Nat) (mt : vk.MemoryType),
      undeclaredFlagDevice.queryMemoryProperties.memoryTypes[k]? = some mt ∧
      PassesFilters { required := 1, notWanted := 2 } 0x3 UINT32_MAX k mt ∧
      mt.propertyFlags &&& 2 = 0 ∧
      (∀ (j : Nat) (mt' : vk.MemoryType), j < k →
        undeclaredFlagDevice.queryMemoryProperties.memoryTypes[j]? = some mt' →
        ¬ (PassesFilters { required := 1, notWanted := 2 } 0x3 UINT32_MAX j mt' ∧
          mt'.propertyFlags &&& 2 = 0)) ∧
      undeclaredFlagDevice.findMemoryType { required := 1, notWanted := 2 } 0x3 UINT32_MAX =
        Except.ok ⟨k, mt.propertyFlags⟩ := by
  refine ⟨by decide, by decide, by decide, by decide, ?_⟩
  rintro ⟨k, mt, -, -, -, hmin, hr⟩
  have hres : undeclaredFlagDevice.findMemoryType { required := 1, notWanted := 2 } 0x3
      UINT32_MAX = Except.ok ⟨1, 0x1⟩ := by decide
  rw [hres] at hr
  have hk : k = 1 := by
    injection hr with h
    exact (congrArg MemoryType.index h).symm
  subst hk
  exact hmin 0 ⟨0x201, 0⟩ (by decide) (by decide) ⟨by decide, by decide⟩

/-! ## Further claims about `findMemoryType` -/

/-- Claim C13: when `optional` or `optionalFallback` is non-empty and at least one type passes
the scan filters but none of the passing types matches a non-empty `optional` or a non-empty
`optionalFallback` (tested on `flags & ~notWanted`), `findMemoryType` does not fail and
returns the lowest-index type passing the filters. -/
theorem findMemoryType_safety_net (pd : PhysicalDevice) (req : MemoryPropertyFlags)
    (memoryTypeBits heap : Nat) (hA : req.optional ≠ 0 ∨ req.optionalFallback ≠ 0)
    (hsome : ∃ (i : Nat) (mt : vk.MemoryType),
      pd.queryMemoryProperties.memoryTypes[i]? = some mt ∧
      PassesFilters req memoryTypeBits heap i mt)
    (hnone : ∀ (j : Nat) (mt : vk.MemoryType),
      pd.queryMemoryProperties.memoryTypes[j]? = some mt →
      PassesFilters req memoryTypeBits heap j mt →
        ¬ (req.optional ≠ 0 ∧ TestFlags pd.allMemoryPropertyFlags req req.optional mt) ∧
        ¬ (req.optionalFallback ≠ 0 ∧
          TestFlags pd.allMemoryPropertyFlags req req.optionalFallback mt)) :
    ∃ (k : Nat) (mt : vk.MemoryType), pd.queryMemoryProperties.memoryTypes[k]? = some mt ∧
      PassesFilters req memoryTypeBits heap k mt ∧
      (∀ (j : Nat) (mt' : vk.MemoryType), j < k →
        pd.queryMemoryProperties.memoryTypes[j]? = some mt' →
        ¬ PassesFilters req memoryTypeBits heap j mt') ∧
      pd.findMemoryType req memoryTypeBits heap = Except.ok ⟨k, mt.propertyFlags⟩ := by
  have ho : firstSat (OptionalMatch pd.allMemoryPropertyFlags req memoryTypeBits heap)
      pd.queryMemoryProperties.memoryTypes 0 = none :=
    (firstSat_zero_none _ _).mpr fun j mt hj hm => (hnone j mt hj hm.1).1 hm.2
  have hf : firstSat (FallbackMatch pd.allMemoryPropertyFlags req memoryTypeBits heap)
      pd.queryMemoryProperties.memoryTypes 0 = none :=
    (firstSat_zero_none _ _).mpr fun j mt hj hm => (hnone j mt hj hm.1).2 hm.2
  obtain ⟨i, mt, hi, hp⟩ := hsome
  obtain ⟨k, mt', hfp⟩ := firstSat_zero_exists (PassesFilters req memoryTypeBits heap)
    pd.queryMemoryProperties.memoryTypes ⟨i, mt, hi, hp⟩
  obtain ⟨hk, hm, hmin⟩ := firstSat_zero_some _ _ _ _ hfp
  refine ⟨k, mt', hk, hm, hmin, ?_⟩
  rw [findMemoryType_eq_select]
  unfold selectMemoryType
  rw [if_pos hA, ho, hf, hfp]

theorem findMemoryType_safety_net_witness :
    exampleDevice.findMemoryType { required := 2, optional := 16, optionalFallback := 32 }
        0x1F UINT32_MAX = Except.ok ⟨1, 6⟩ ∧
    ∃ (k : Nat) (mt : vk.MemoryType),
      exampleDevice.queryMemoryProperties.memoryTypes[k]? = some mt ∧
      PassesFilters { required := 2, optional := 16, optionalFallback := 32 }
        0x1F UINT32_MAX k mt ∧
      (∀ (j : Nat) (mt' : vk.MemoryType), j < k →
        exampleDevice.queryMemoryProperties.memoryTypes[j]? = some mt' →
        ¬ PassesFilters { required := 2, optional := 16, optionalFallback := 32 }
          0x1F UINT32_MAX j mt') ∧
      exampleDevice.findMemoryType { required := 2, optional := 16, optionalFallback := 32 }
        0x1F UINT32_MAX = Except.ok ⟨k, mt.propertyFlags⟩ :=
  ⟨by decide,
    findMemoryType_safety_net exampleDevice
      { required := 2, optional := 16, optionalFallback := 32 } 0x1F UINT32_MAX
      (by decide) ⟨1, ⟨6, 1⟩, by decide⟩
      (fun _ mt hj _ =>
        (by decide : ∀ mt ∈ exampleDevice.queryMemoryProperties.memoryTypes,
          ¬ ((16 : Nat) ≠ 0 ∧ TestFlags exampleDevice.allMemoryPropertyFlags
            { required := 2, optional := 16, optionalFallback := 32 } 16 mt) ∧
          ¬ ((32 : Nat) ≠ 0 ∧ TestFlags exampleDevice.allMemoryPropertyFlags
            { required := 2, optional := 16, optionalFallback := 32 } 32 mt))
          mt (List.mem_iff_getElem?.mpr ⟨_, hj⟩))⟩

/-- Claim C20: whenever `findMemoryType` returns a type `{index, propertyFlags}`, `index` is
below the type count of the layout, bit `index` is set in the mask, the heap of that type is
the requested heap when a heap restriction is given, and `propertyFlags` are the flags of the
(quirk-corrected) layout's type at `index`. -/
theorem findMemoryType_result_admitted (pd : PhysicalDevice) (req : MemoryPropertyFlags)
    (memoryTypeBits heap : Nat) (r : MemoryType)
    (h : pd.findMemoryType req memoryTypeBits heap = Except.ok r) :
    r.index < pd.queryMemoryProperties.memoryTypes.length ∧
    MaskAdmits memoryTypeBits r.index ∧
    ∃ mt : vk.MemoryType, pd.queryMemoryProperties.memoryTypes[r.index]? = some mt ∧
      (heap ≠ UINT32_MAX → mt.heapIndex = heap) ∧
      r.propertyFlags = mt.propertyFlags := by
  rw [findMemoryType_eq_select] at h
  cases hsel : selectMemoryType pd.allMemoryPropertyFlags req memoryTypeBits heap
      pd.queryMemoryProperties.memoryTypes with
  | none => rw [hsel] at h; cases h
  | some p =>
    obtain ⟨k, mt⟩ := p
    rw [hsel] at h
    cases h
    obtain ⟨hk, hh, hm, _⟩ := selectMemoryType_some _ _ _ _ _ _ _ hsel
    have hlt : k < pd.queryMemoryProperties.memoryTypes.length := by
      by_contra hge
      rw [List.getElem?_eq_none (by omega)] at hk
      cases hk
    refine ⟨hlt, hm, mt, hk, ?_, rfl⟩
    intro hne
    rcases hh with e | e
    · exact absurd e hne
    · exact e

theorem findMemoryType_result_admitted_witness :
    exampleDevice.findMemoryType { required := 2 } 0x1C 1 = Except.ok ⟨2, 14⟩ ∧
    ((2 : Nat) < exampleDevice.queryMemoryProperties.memoryTypes.length ∧
    MaskAdmits 0x1C 2 ∧
    ∃ mt : vk.MemoryType, exampleDevice.queryMemoryProperties.memoryTypes[2]? = some mt ∧
      ((1 : Nat) ≠ UINT32_MAX → mt.heapIndex = 1) ∧
      (14 : Nat) = mt.propertyFlags) :=
  ⟨by decide,
    findMemoryType_result_admitted exampleDevice { required := 2 } 0x1C 1 ⟨2, 14⟩ (by decide)⟩

/-! ## `getQueuesFamily` -/

theorem qualifyingFamilies_cons_pos (queueFlags : Nat) (excludeGraphics : Bool)
    (e : Nat × QueueFamilyProps) (rest : List (Nat × QueueFamilyProps))
    (h : FamilySelected queueFlags excludeGraphics e) :
    qualifyingFamilies queueFlags excludeGraphics (e :: rest) =
      (e.2.familyIndex, e.2.count) :: qualifyingFamilies queueFlags excludeGraphics rest := by
  unfold qualifyingFamilies
  simp [List.filter_cons, h]

theorem qualifyingFamilies_cons_neg (queueFlags : Nat) (excludeGraphics : Bool)
    (e : Nat × QueueFamilyProps) (rest : List (Nat × QueueFamilyProps))
    (h : ¬ FamilySelected queueFlags excludeGraphics e) :
    qualifyingFamilies queueFlags excludeGraphics (e :: rest) =
      qualifyingFamilies queueFlags excludeGraphics rest := by
  unfold qualifyingFamilies
  simp [List.filter_cons, h]

theorem getQueuesFamilyScan_eq (queueFlags : Nat) (tryExcludeGraphics firstOnly : Bool)
    (queues : List (Nat × QueueFamilyProps)) (ret : List (Nat × Nat)) :
    getQueuesFamilyScan queueFlags tryExcludeGraphics firstOnly queues ret =
      ret ++ collectedFamilies queueFlags tryExcludeGraphics firstOnly queues := by
  induction queues generalizing ret with
  | nil => simp [getQueuesFamilyScan, collectedFamilies, qualifyingFamilies]
  | cons e rest ih =>
    unfold getQueuesFamilyScan
    simp only []
    by_cases hg : tryExcludeGraphics = true ∧ e.2.flags &&& vk.QueueFlagBits.eGraphics ≠ 0
    · rw [if_pos hg, ih]
      have hn : ¬ FamilySelected queueFlags tryExcludeGraphics e := fun h => h.1 hg
      unfold collectedFamilies
      rw [qualifyingFamilies_cons_neg _ _ _ _ hn]
    · rw [if_neg hg]
      by_cases hq : e.2.flags &&& queueFlags = queueFlags
      · rw [if_pos hq]
        have hsel : FamilySelected queueFlags tryExcludeGraphics e := ⟨hg, hq⟩
        unfold collectedFamilies
        rw [qualifyingFamilies_cons_pos _ _ _ _ hsel]
        cases firstOnly with
        | true => simp
        | false =>
          simp only [Bool.false_eq_true, if_false]
          rw [ih]
          simp [collectedFamilies]
      · rw [if_neg hq, ih]
        have hn : ¬ FamilySelected queueFlags tryExcludeGraphics e := fun h => hq h.2
        unfold collectedFamilies
        rw [qualifyingFamilies_cons_neg _ _ _ _ hn]

theorem getQueuesFamilyPasses_eq (queues : List (Nat × QueueFamilyProps)) (queueFlags : Nat)
    (firstOnly tryExcludeGraphics : Bool) :
    getQueuesFamilyPasses queues queueFlags firstOnly 2 tryExcludeGraphics [] =
      if tryExcludeGraphics = true ∧
          collectedFamilies queueFlags true firstOnly queues = [] then
        collectedFamilies queueFlags false firstOnly queues
      else
        collectedFamilies queueFlags tryExcludeGraphics firstOnly queues := by
  cases tryExcludeGraphics with
  | false => simp [getQueuesFamilyPasses, getQueuesFamilyScan_eq]
  | true =>
    simp only [getQueuesFamilyPasses, getQueuesFamilyScan_eq, List.nil_append, true_and,
      List.isEmpty_iff]
    by_cases he : collectedFamilies queueFlags true firstOnly queues = []
    · rw [if_pos he, if_pos he, he]
      simp
    · rw [if_neg he, if_neg he]

theorem collectedFamilies_eq_nil_iff (queueFlags : Nat) (excludeGraphics firstOnly : Bool)
    (queues : List (Nat × QueueFamilyProps)) :
    collectedFamilies queueFlags excludeGraphics firstOnly queues = [] ↔
      ∀ e ∈ queues, ¬ FamilySelected queueFlags excludeGraphics e := by
  have hq : qualifyingFamilies queueFlags excludeGraphics queues = [] ↔
      ∀ e ∈ queues, ¬ FamilySelected queueFlags excludeGraphics e := by
    unfold qualifyingFamilies
    rw [List.map_eq_nil_iff, List.filter_eq_nil_iff]
    constructor
    · intro h e he hs
      exact h e he (decide_eq_true hs)
    · intro h e he hs
      exact h e he (of_decide_eq_true hs)
  unfold collectedFamilies
  cases firstOnly with
  | true =>
    simp only [if_true]
    rw [← hq]
    cases qualifyingFamilies queueFlags excludeGraphics queues <;> simp
  | false => simpa using hq

theorem mem_collectedFamilies (queueFlags : Nat) (excludeGraphics firstOnly : Bool)
    (queues : List (Nat × QueueFamilyProps)) (p : Nat × Nat)
    (h : p ∈ collectedFamilies queueFlags excludeGraphics firstOnly queues) :
    ∃ e ∈ queues, FamilySelected queueFlags excludeGraphics e ∧
      p = (e.2.familyIndex, e.2.count) := by
  have hq : p ∈ qualifyingFamilies queueFlags excludeGraphics queues := by
    unfold collectedFamilies at h
    cases firstOnly with
    | true => exact List.mem_of_mem_take h
    | false => simpa using h
  unfold qualifyingFamilies at hq
  rw [List.mem_map] at hq
  obtain ⟨e, he, hp⟩ := hq
  rw [List.mem_filter] at he
  exact ⟨e, he.1, of_decide_eq_true he.2, hp.symm⟩
theorem getQueuesFamily_eq (pd : PhysicalDevice) (queueFlags : Nat)
    (tryExcludeGraphics firstOnly exceptionOnFail : Bool) :
    pd.getQueuesFamily queueFlags tryExcludeGraphics firstOnly exceptionOnFail =
      if exceptionOnFail = true ∧
          getQueuesFamilyPasses pd.m_queues queueFlags firstOnly 2 tryExcludeGraphics [] = [] then
        Except.error queueFamilyNotFound
      else
        Except.ok
          (getQueuesFamilyPasses pd.m_queues queueFlags firstOnly 2 tryExcludeGraphics []) := by
  unfold PhysicalDevice.getQueuesFamily queueFamilyNotFound
  simp only [List.isEmpty_iff]

theorem familySelected_false_iff (queueFlags : Nat) (e : Nat × QueueFamilyProps) :
    FamilySelected queueFlags false e ↔ Qualifies queueFlags e.2 := by
  unfold FamilySelected
  simp

theorem familySelected_true_iff (queueFlags : Nat) (e : Nat × QueueFamilyProps) :
    FamilySelected queueFlags true e ↔ ¬ IsGraphics e.2 ∧ Qualifies queueFlags e.2 := by
  unfold FamilySelected
  simp

/-- The two passes collect nothing exactly when no family of the map qualifies. -/
theorem getQueuesFamilyPasses_eq_nil_iff (queues : List (Nat × QueueFamilyProps))
    (queueFlags : Nat) (firstOnly tryExcludeGraphics : Bool) :
    getQueuesFamilyPasses queues queueFlags firstOnly 2 tryExcludeGraphics [] = [] ↔
      ∀ e ∈ queues, ¬ Qualifies queueFlags e.2 := by
  have hfalse : collectedFamilies queueFlags false firstOnly queues = [] ↔
      ∀ e ∈ queues, ¬ Qualifies queueFlags e.2 := by
    rw [collectedFamilies_eq_nil_iff]
    constructor
    · intro h e he hq
      exact h e he ((familySelected_false_iff _ _).mpr hq)
    · intro h e he hs
      exact h e he ((familySelected_false_iff _ _).mp hs)
  rw [getQueuesFamilyPasses_eq]
  cases tryExcludeGraphics with
  | false => simpa using hfalse
  | true =>
    by_cases he : collectedFamilies queueFlags true firstOnly queues = []
    · rw [if_pos ⟨rfl, he⟩]
      exact hfalse
    · rw [if_neg (fun h => he h.2)]
      constructor
      · intro h
        exact absurd h he
      · intro h
        rw [collectedFamilies_eq_nil_iff]
        intro e hmem hs
        exact h e hmem ((familySelected_true_iff _ _).mp hs).2

/-- Claim C6: with `tryExcludeGraphics = true`, `getQueuesFamily` returns a graphics-capable
family only if no family without the graphics flag has flags that are a superset of the
requested flags, and in that case the call gives what the call with
`tryExcludeGraphics = false` gives. -/
theorem getQueuesFamily_excludes_graphics (pd : PhysicalDevice) (queueFlags : Nat)
    (firstOnly exceptionOnFail : Bool) (hwf : QueuesWellFormed pd.m_queues) :
    (∀ ret, pd.getQueuesFamily queueFlags true firstOnly exceptionOnFail = Except.ok ret →
      ∀ e ∈ pd.m_queues, IsGraphics e.2 → (e.2.familyIndex, e.2.count) ∈ ret →
        ∀ e' ∈ pd.m_queues, ¬ IsGraphics e'.2 → ¬ Qualifies queueFlags e'.2) ∧
    ((∀ e' ∈ pd.m_queues, ¬ IsGraphics e'.2 → ¬ Qualifies queueFlags e'.2) →
      pd.getQueuesFamily queueFlags true firstOnly exceptionOnFail =
        pd.getQueuesFamily queueFlags false firstOnly exceptionOnFail) := by
  constructor
  · intro ret hret e he hg hmem e' he' hng' hq'
    have hne : collectedFamilies queueFlags true firstOnly pd.m_queues ≠ [] := by
      intro hnil
      exact (collectedFamilies_eq_nil_iff _ _ _ _).mp hnil e' he'
        ((familySelected_true_iff _ _).mpr ⟨hng', hq'⟩)
    have hpass : getQueuesFamilyPasses pd.m_queues queueFlags firstOnly 2 true [] =
        collectedFamilies queueFlags true firstOnly pd.m_queues := by
      rw [getQueuesFamilyPasses_eq, if_neg (fun h => hne h.2)]
    rw [getQueuesFamily_eq, hpass] at hret
    split at hret
    · cases hret
    · cases hret
      obtain ⟨e'', he'', hs, hp⟩ := mem_collectedFamilies _ _ _ _ _ hmem
      have hidx : e.2.familyIndex = e''.2.familyIndex := by
        have := congrArg Prod.fst hp
        simpa using this
      have hkey : e.1 = e''.1 := by
        rw [← hwf.2 e he, ← hwf.2 e'' he'', hidx]
      have heq : e = e'' := List.inj_on_of_nodup_map hwf.1 he he'' hkey
      subst heq
      exact ((familySelected_true_iff _ _).mp hs).1 hg
  · intro hnone
    have hnil : collectedFamilies queueFlags true firstOnly pd.m_queues = [] := by
      rw [collectedFamilies_eq_nil_iff]
      intro e he hs
      have := (familySelected_true_iff _ _).mp hs
      exact hnone e he this.1 this.2
    have hpass : getQueuesFamilyPasses pd.m_queues queueFlags firstOnly 2 true [] =
        getQueuesFamilyPasses pd.m_queues queueFlags firstOnly 2 false [] := by
      rw [getQueuesFamilyPasses_eq, getQueuesFamilyPasses_eq, if_pos ⟨rfl, hnil⟩]
      simp
    rw [getQueuesFamily_eq, getQueuesFamily_eq, hpass]

theorem getQueuesFamily_excludes_graphics_witness :
    QueuesWellFormed exampleQueuesDevice.m_queues ∧
    exampleQueuesDevice.getQueuesFamily 4 true false true = Except.ok [(1, 2), (2, 1)] ∧
    exampleQueuesDevice.getQueuesFamily 1 true false true = Except.ok [(0, 1)] ∧
    ((∀ ret, exampleQueuesDevice.getQueuesFamily 1 true false true = Except.ok ret →
      ∀ e ∈ exampleQueuesDevice.m_queues, IsGraphics e.2 → (e.2.familyIndex, e.2.count) ∈ ret →
        ∀ e' ∈ exampleQueuesDevice.m_queues, ¬ IsGraphics e'.2 → ¬ Qualifies 1 e'.2) ∧
    ((∀ e' ∈ exampleQueuesDevice.m_queues, ¬ IsGraphics e'.2 → ¬ Qualifies 1 e'.2) →
      exampleQueuesDevice.getQueuesFamily 1 true false true =
        exampleQueuesDevice.getQueuesFamily 1 false false true)) :=
  ⟨by decide, by decide, by decide,
    getQueuesFamily_excludes_graphics exampleQueuesDevice 1 false true (by decide)⟩

/-- Claim C7: `getQueuesFamily` fails, with the `InitializationFailedError`, if and only if
`exceptionOnFail` is set and no family of the map has flags that are a superset of the
requested flags; without `exceptionOnFail` and with no qualifying family it returns the empty
list. -/
theorem getQueuesFamily_fails_iff (pd : PhysicalDevice) (queueFlags : Nat)
    (tryExcludeGraphics firstOnly exceptionOnFail : Bool) :
    (pd.getQueuesFamily queueFlags tryExcludeGraphics firstOnly exceptionOnFail =
        Except.error (vk.Error.InitializationFailedError "Cannot find specified queue family") ↔
      exceptionOnFail = true ∧ ∀ e ∈ pd.m_queues, ¬ Qualifies queueFlags e.2) ∧
    ((∃ ret, pd.getQueuesFamily queueFlags tryExcludeGraphics firstOnly exceptionOnFail =
        Except.ok ret) ∨
      pd.getQueuesFamily queueFlags tryExcludeGraphics firstOnly exceptionOnFail =
        Except.error (vk.Error.InitializationFailedError "Cannot find specified queue family")) ∧
    ((∀ e ∈ pd.m_queues, ¬ Qualifies queueFlags e.2) →
      pd.getQueuesFamily queueFlags tryExcludeGraphics firstOnly false = Except.ok []) := by
  refine ⟨?_, ?_, ?_⟩
  · rw [getQueuesFamily_eq, ← getQueuesFamilyPasses_eq_nil_iff pd.m_queues queueFlags firstOnly
      tryExcludeGraphics]
    constructor
    · intro h
      split at h
      · assumption
      · cases h
    · intro h
      rw [if_pos h]
      rfl
  · rw [getQueuesFamily_eq]
    split
    · exact Or.inr rfl
    · exact Or.inl ⟨_, rfl⟩
  · intro h
    rw [getQueuesFamily_eq, if_neg (by simp),
      (getQueuesFamilyPasses_eq_nil_iff pd.m_queues queueFlags firstOnly tryExcludeGraphics).mpr h]

theorem getQueuesFamily_fails_iff_witness :
    (∀ e ∈ exampleQueuesDevice.m_queues, ¬ Qualifies 8 e.2) ∧
    exampleQueuesDevice.getQueuesFamily 8 true false true =
      Except.error (vk.Error.InitializationFailedError "Cannot find specified queue family") ∧
    exampleQueuesDevice.getQueuesFamily 8 true false false = Except.ok [] :=
  ⟨by decide, by decide,
    (getQueuesFamily_fails_iff exampleQueuesDevice 8 true false false).2.2 (by decide)⟩

/-- Claim C15: with `tryExcludeGraphics = false`, `getQueuesFamily` with `firstOnly = false`
returns exactly the `(familyIndex, count)` pairs of the families whose flags are a superset of
the requested flags, one per family, in the iteration order of the map and with no other
pairs; with `firstOnly = true` it returns only the first pair of that list.  The call returns
unless `exceptionOnFail` is set and no family qualifies (then it throws). -/
theorem getQueuesFamily_collects_qualifying (pd : PhysicalDevice) (queueFlags : Nat)
    (exceptionOnFail : Bool)
    (h : exceptionOnFail = false ∨ ∃ e ∈ pd.m_queues, Qualifies queueFlags e.2) :
    pd.getQueuesFamily queueFlags false false exceptionOnFail =
      Except.ok ((pd.m_queues.filter fun e => decide (Qualifies queueFlags e.2)).map
        fun e => (e.2.familyIndex, e.2.count)) ∧
    pd.getQueuesFamily queueFlags false true exceptionOnFail =
      Except.ok (((pd.m_queues.filter fun e => decide (Qualifies queueFlags e.2)).map
        fun e => (e.2.familyIndex, e.2.count)).take 1) := by
  have hq : qualifyingFamilies queueFlags false pd.m_queues =
      (pd.m_queues.filter fun e => decide (Qualifies queueFlags e.2)).map
        fun e => (e.2.familyIndex, e.2.count) := by
    unfold qualifyingFamilies
    congr 1
    apply List.filter_congr
    intro e _
    simp [familySelected_false_iff]
  have hpass : ∀ firstOnly, getQueuesFamilyPasses pd.m_queues queueFlags firstOnly 2 false [] =
      collectedFamilies queueFlags false firstOnly pd.m_queues := by
    intro firstOnly
    rw [getQueuesFamilyPasses_eq, if_neg (by simp)]
  have hok : ∀ firstOnly, pd.getQueuesFamily queueFlags false firstOnly exceptionOnFail =
      Except.ok (collectedFamilies queueFlags false firstOnly pd.m_queues) := by
    intro firstOnly
    rw [getQueuesFamily_eq, if_neg, hpass]
    rintro ⟨hex, hempty⟩
    rcases h with h | ⟨e, he, hq'⟩
    · rw [h] at hex; cases hex
    · exact (getQueuesFamilyPasses_eq_nil_iff pd.m_queues queueFlags firstOnly false).mp
        hempty e he hq'
  constructor
  · rw [hok false]
    simp [collectedFamilies, hq]
  · rw [hok true]
    simp [collectedFamilies, hq]

theorem getQueuesFamily_collects_qualifying_witness :
    ((true : Bool) = false ∨ ∃ e ∈ exampleQueuesDevice.m_queues, Qualifies 4 e.2) ∧
    exampleQueuesDevice.getQueuesFamily 4 false false true =
      Except.ok [(0, 1), (1, 2), (2, 1)] ∧
    exampleQueuesDevice.getQueuesFamily 4 false true true = Except.ok [(0, 1)] ∧
    (exampleQueuesDevice.getQueuesFamily 4 false false true =
      Except.ok ((exampleQueuesDevice.m_queues.filter fun e => decide (Qualifies 4 e.2)).map
        fun e => (e.2.familyIndex, e.2.count)) ∧
    exampleQueuesDevice.getQueuesFamily 4 false true true =
      Except.ok (((exampleQueuesDevice.m_queues.filter fun e => decide (Qualifies 4 e.2)).map
        fun e => (e.2.familyIndex, e.2.count)).take 1)) :=
  ⟨by decide, by decide, by decide,
    getQueuesFamily_collects_qualifying exampleQueuesDevice 4 true (by decide)⟩

/-! ## `linuxPCIPath` -/

/-- Padding the digits left after stripping leading zeros restores the list. -/
theorem replicate_append_dropWhile_zero (l : List Char) :
    List.replicate (l.length - (l.dropWhile fun c => c == '0').length) '0' ++
      (l.dropWhile fun c => c == '0') = l := by
  induction l with
  | nil => rfl
  | cons c rest ih =>
    by_cases hc : (c == '0') = true
    · have hle : (rest.dropWhile fun c => c == '0').length ≤ rest.length :=
        (List.dropWhile_sublist _).length_le
      have hlen : (c :: rest).length - (rest.dropWhile fun c => c == '0').length =
          (rest.length - (rest.dropWhile fun c => c == '0').length) + 1 := by
        simp only [List.length_cons]
        omega
      have hd : ((c :: rest).dropWhile fun c => c == '0') =
          (rest.dropWhile fun c => c == '0') := by
        simp only [List.dropWhile_cons, hc, if_true]
      rw [hd, hlen, List.replicate_succ, List.cons_append, ih]
      have : c = '0' := by simpa using hc
      rw [this]
    · have hd : ((c :: rest).dropWhile fun c => c == '0') = c :: rest := by
        simp only [List.dropWhile_cons, hc, if_false]
        simp
      rw [hd]
      simp

theorem hexDigits_of_lt_two (v : Nat) (hv : v < 16 ^ 2) :
    hexDigits v =
      ([Nat.digitChar (v / 16 % 16), Nat.digitChar (v % 16)].dropWhile fun c => c == '0') := by
  have h7 : v / 16 ^ 7 % 16 = 0 := by norm_num at hv ⊢; omega
  have h6 : v / 16 ^ 6 % 16 = 0 := by norm_num at hv ⊢; omega
  have h5 : v / 16 ^ 5 % 16 = 0 := by norm_num at hv ⊢; omega
  have h4 : v / 16 ^ 4 % 16 = 0 := by norm_num at hv ⊢; omega
  have h3 : v / 16 ^ 3 % 16 = 0 := by norm_num at hv ⊢; omega
  have h2 : v / 16 ^ 2 % 16 = 0 := by norm_num at hv ⊢; omega
  have hz : ((Nat.digitChar 0) == '0') = true := by decide
  unfold hexDigits
  simp only [List.map_cons, List.map_nil, h7, h6, h5, h4, h3, h2, pow_one, pow_zero, Nat.div_one]
  simp only [List.dropWhile_cons, hz, if_true]

theorem hexDigits_of_lt_four (v : Nat) (hv : v < 16 ^ 4) :
    hexDigits v =
      ([Nat.digitChar (v / 16 ^ 3 % 16), Nat.digitChar (v / 16 ^ 2 % 16),
        Nat.digitChar (v / 16 % 16), Nat.digitChar (v % 16)].dropWhile fun c => c == '0') := by
  have h7 : v / 16 ^ 7 % 16 = 0 := by norm_num at hv ⊢; omega
  have h6 : v / 16 ^ 6 % 16 = 0 := by norm_num at hv ⊢; omega
  have h5 : v / 16 ^ 5 % 16 = 0 := by norm_num at hv ⊢; omega
  have h4 : v / 16 ^ 4 % 16 = 0 := by norm_num at hv ⊢; omega
  have hz : ((Nat.digitChar 0) == '0') = true := by decide
  unfold hexDigits
  simp only [List.map_cons, List.map_nil, h7, h6, h5, h4, pow_one, pow_zero, Nat.div_one]
  simp only [List.dropWhile_cons, hz, if_true]

theorem formatHexPrecision_four (v : Nat) (hv : v < 16 ^ 4) :
    formatHexPrecision 4 v =
      [Nat.digitChar (v / 16 ^ 3 % 16), Nat.digitChar (v / 16 ^ 2 % 16),
        Nat.digitChar (v / 16 % 16), Nat.digitChar (v % 16)] := by
  unfold formatHexPrecision
  rw [hexDigits_of_lt_four v hv]
  exact replicate_append_dropWhile_zero
    [Nat.digitChar (v / 16 ^ 3 % 16), Nat.digitChar (v / 16 ^ 2 % 16),
      Nat.digitChar (v / 16 % 16), Nat.digitChar (v % 16)]

theorem formatHexPrecision_two (v : Nat) (hv : v < 16 ^ 2) :
    formatHexPrecision 2 v = [Nat.digitChar (v / 16 % 16), Nat.digitChar (v % 16)] := by
  unfold formatHexPrecision
  rw [hexDigits_of_lt_two v hv]
  exact replicate_append_dropWhile_zero [Nat.digitChar (v / 16 % 16), Nat.digitChar (v % 16)]

theorem formatHexWidth_one (v : Nat) (hv : v < 16) :
    formatHexWidth 1 v = [Nat.digitChar (v % 16)] := by
  have h1 : v / 16 % 16 = 0 := by omega
  have hz : ((Nat.digitChar 0) == '0') = true := by decide
  have hp : formatHexPrecision 1 v = [Nat.digitChar (v % 16)] := by
    unfold formatHexPrecision
    have hd : ([Nat.digitChar 0, Nat.digitChar (v % 16)].dropWhile fun c => c == '0') =
        ([Nat.digitChar (v % 16)].dropWhile fun c => c == '0') := by
      simp only [List.dropWhile_cons, hz, if_true]
    rw [hexDigits_of_lt_two v (by norm_num; omega), h1, hd]
    exact replicate_append_dropWhile_zero [Nat.digitChar (v % 16)]
  unfold formatHexWidth
  rw [hp]
  rfl

/-- Claim C8, as amended: when PCI bus info is supported and the domain fits 4 hex digits, the
bus and the device 2 and the function 1, `linuxPCIPath` is the 12-character string
`DDDD:BB:DD.F`; when PCI bus info is unsupported it is the empty string. -/
theorem linuxPCIPath_form (pd : PhysicalDevice) :
    (pd.m_hasPciBusInfo = false → pd.linuxPCIPath = "") ∧
    (pd.m_hasPciBusInfo = true → pd.m_pciBusInfo.pciDomain < 0x10000 →
      pd.m_pciBusInfo.pciBus < 0x100 → pd.m_pciBusInfo.pciDevice < 0x100 →
      pd.m_pciBusInfo.pciFunction < 0x10 →
      pd.linuxPCIPath = pciPathForm pd.m_pciBusInfo ∧ pd.linuxPCIPath.length = 12 ∧
        HasPCIPathShape pd.linuxPCIPath) := by
  constructor
  · intro h
    simp [PhysicalDevice.linuxPCIPath, h]
  · intro h hd hb hv hf
    have heq : pd.linuxPCIPath = pciPathForm pd.m_pciBusInfo := by
      unfold PhysicalDevice.linuxPCIPath snprintfPCI pciPathForm
      rw [formatHexPrecision_four _ (by norm_num; exact hd),
        formatHexPrecision_two _ (by norm_num; exact hb),
        formatHexPrecision_two _ (by norm_num; exact hv),
        formatHexWidth_one _ hf]
      simp [h]
    rw [heq]
    refine ⟨rfl, rfl, ?_⟩
    unfold HasPCIPathShape pciPathForm
    simp

theorem linuxPCIPath_form_witness :
    examplePCIDevice.linuxPCIPath = "0000:01:00.0" ∧
    (examplePCIDevice.linuxPCIPath = pciPathForm examplePCIDevice.m_pciBusInfo ∧
      examplePCIDevice.linuxPCIPath.length = 12 ∧
      HasPCIPathShape examplePCIDevice.linuxPCIPath) :=
  ⟨by decide,
    (linuxPCIPath_form examplePCIDevice).2 (by decide) (by decide) (by decide) (by decide)
      (by decide)⟩

/-- Claim C8 as stated fails: in PCI domain `0x10000`, a 32-bit value, the domain takes five
digits and the 13-byte buffer cuts the string after 12 characters, so the result is
`10000:00:00.`, which is not of the form `DDDD:BB:DD.F`. -/
theorem linuxPCIPath_wide_domain :
    wideDomainPCIDevice.m_hasPciBusInfo = true ∧
    wideDomainPCIDevice.m_pciBusInfo.pciDomain < 2 ^ 32 ∧
    wideDomainPCIDevice.linuxPCIPath = "10000:00:00." ∧
    ¬ HasPCIPathShape wideDomainPCIDevice.linuxPCIPath ∧
    wideDomainPCIDevice.linuxPCIPath ≠ pciPathForm wideDomainPCIDevice.m_pciBusInfo := by
  decide

/-! ## `getMemoryHeapsInfo` and the frame of the quirk -/

/-- Modifying an entry by a function that keeps `g` fixed keeps the `g`-image of the list. -/
theorem map_modify_of_invariant {α β : Type} (g : α → β) (f : α → α) (hf : ∀ x, g (f x) = g x)
    (n : Nat) (l : List α) : (l.modify f n).map g = l.map g := by
  induction l generalizing n with
  | nil => simp
  | cons a rest ih =>
    cases n with
    | zero => simp [hf]
    | succ n => simp [ih]

theorem markHeapDeviceLocal_heap_sizes (props : vk.PhysicalDeviceMemoryProperties)
    (heapIndex : Nat) :
    (markHeapDeviceLocal props heapIndex).memoryHeaps.map (fun h => h.size) =
      props.memoryHeaps.map (fun h => h.size) := by
  unfold markHeapDeviceLocal
  exact map_modify_of_invariant (fun h : vk.MemoryHeap => h.size)
    (fun h => { h with flags := h.flags ||| vk.MemoryHeapFlagBits.eDeviceLocal })
    (fun _ => rfl) heapIndex props.memoryHeaps

theorem foldl_markHeapDeviceLocal_heap_sizes (heapIndexes : List Nat)
    (props : vk.PhysicalDeviceMemoryProperties) :
    (heapIndexes.foldl markHeapDeviceLocal props).memoryHeaps.map (fun h => h.size) =
      props.memoryHeaps.map (fun h => h.size) := by
  induction heapIndexes generalizing props with
  | nil => rfl
  | cons k rest ih => rw [List.foldl_cons, ih, markHeapDeviceLocal_heap_sizes]

/-- The quirk keeps the number of heaps and their sizes. -/
theorem applyMemoryPropertiesQuirks_heap_sizes (physDevProps : vk.PhysicalDeviceProperties)
    (props : vk.PhysicalDeviceMemoryProperties) :
    (applyMemoryPropertiesQuirks physDevProps props).memoryHeaps.map (fun h => h.size) =
      props.memoryHeaps.map (fun h => h.size) := by
  unfold applyMemoryPropertiesQuirks
  split
  · rfl
  · simp only []
    split
    · rfl
    · split
      · rfl
      · exact foldl_markHeapDeviceLocal_heap_sizes _ _

theorem queryMemoryProperties_heap_sizes (pd : PhysicalDevice) :
    pd.queryMemoryProperties.memoryHeaps.map (fun h => h.size) =
      pd.nativeMemoryProperties.memoryHeaps.map (fun h => h.size) := by
  unfold PhysicalDevice.queryMemoryProperties
  split
  · exact applyMemoryPropertiesQuirks_heap_sizes _ _
  · rfl

/-- The second loop of `getMemoryHeapsInfo` changes nothing but `hostVisible`. -/
theorem heapsInfoMarkHostVisible_core (memoryHeaps : List MemoryHeap)
    (types : List vk.MemoryType) :
    (heapsInfoMarkHostVisible memoryHeaps types).map
        (fun r => (r.idx, r.size, r.budget, r.usage)) =
      memoryHeaps.map (fun r => (r.idx, r.size, r.budget, r.usage)) := by
  induction types generalizing memoryHeaps with
  | nil => rfl
  | cons t rest ih =>
    unfold heapsInfoMarkHostVisible
    split
    · rw [ih]
      exact map_modify_of_invariant (fun r : MemoryHeap => (r.idx, r.size, r.budget, r.usage))
        (fun r => { r with hostVisible := true }) (fun _ => rfl) t.heapIndex memoryHeaps
    · exact ih _

/-- Without the budget extension the first loop of `getMemoryHeapsInfo` writes, for the heap at
position `j`, the index `i + j`, the heap's size as size and budget, and usage 0. -/
theorem heapsInfoFill_core (pd : PhysicalDevice) (hb : pd.m_hasMemoryBudget = false)
    (heaps : List vk.MemoryHeap) (i j : Nat) :
    ((heapsInfoFill pd heaps i).map (fun r => (r.idx, r.size, r.budget, r.usage)))[j]? =
      (heaps.map (fun h => h.size))[j]?.map (fun s => (i + j, s, s, 0)) := by
  induction heaps generalizing i j with
  | nil => simp [heapsInfoFill]
  | cons h rest ih =>
    unfold heapsInfoFill
    cases j with
    | zero => simp [hb]
    | succ j =>
      simp only [List.map_cons, List.getElem?_cons_succ]
      rw [ih (i + 1) j]
      have : i + 1 + j = i + (j + 1) := by omega
      rw [this]

/-- Claim C9: when the memory-budget extension is not recorded as available,
`getMemoryHeapsInfo` returns one record per heap, in heap order, and record `i` has `idx = i`,
the size of heap `i`, `budget = size` and `usage = 0`. -/
theorem getMemoryHeapsInfo_without_budget (pd : PhysicalDevice)
    (hb : pd.m_hasMemoryBudget = false) :
    pd.getMemoryHeapsInfo.length = pd.nativeMemoryProperties.memoryHeaps.length ∧
    ∀ (i : Nat) (heap : vk.MemoryHeap), pd.nativeMemoryProperties.memoryHeaps[i]? = some heap →
      ∃ r : MemoryHeap, pd.getMemoryHeapsInfo[i]? = some r ∧
        r.idx = i ∧ r.size = heap.size ∧ r.budget = r.size ∧ r.usage = 0 := by
  have hcore : ∀ j : Nat, (pd.getMemoryHeapsInfo.map (fun r => (r.idx, r.size, r.budget, r.usage)))[j]? =
      (pd.nativeMemoryProperties.memoryHeaps.map (fun h => h.size))[j]?.map
        (fun s => (j, s, s, 0)) := by
    intro j
    unfold PhysicalDevice.getMemoryHeapsInfo
    simp only []
    rw [heapsInfoMarkHostVisible_core, heapsInfoFill_core pd hb, queryMemoryProperties_heap_sizes,
      Nat.zero_add]
  constructor
  · have hlen : ∀ j : Nat, j < pd.getMemoryHeapsInfo.length ↔
        j < pd.nativeMemoryProperties.memoryHeaps.length := by
      intro j
      have := hcore j
      constructor
      · intro hj
        by_contra hge
        rw [List.getElem?_map, List.getElem?_map, List.getElem?_eq_getElem hj,
          List.getElem?_eq_none (by omega)] at this
        simp at this
      · intro hj
        by_contra hge
        rw [List.getElem?_map, List.getElem?_map, List.getElem?_eq_getElem hj,
          List.getElem?_eq_none (by omega)] at this
        simp at this
    by_contra hne
    rcases Nat.lt_or_gt_of_ne hne with h | h
    · exact absurd ((hlen _).mpr h) (Nat.lt_irrefl _)
    · exact absurd ((hlen _).mp h) (Nat.lt_irrefl _)
  · intro i heap hi
    have := hcore i
    rw [List.getElem?_map, List.getElem?_map, hi] at this
    cases hr : pd.getMemoryHeapsInfo[i]? with
    | none => rw [hr] at this; simp at this
    | some r =>
      rw [hr] at this
      simp only [Option.map_some', Option.some.injEq, Prod.mk.injEq] at this
      exact ⟨r, rfl, this.1, this.2.1, by rw [this.2.2.1, this.2.1], this.2.2.2⟩

theorem getMemoryHeapsInfo_without_budget_witness :
    exampleDevice.m_hasMemoryBudget = false ∧
    exampleDevice.getMemoryHeapsInfo =
      [{ idx := 0, size := 100, budget := 100, usage := 0, deviceLocal := true,
          hostVisible := true, multiInstance := false },
        { idx := 1, size := 200, budget := 200, usage := 0, deviceLocal := false,
          hostVisible := true, multiInstance := false }] ∧
    (exampleDevice.getMemoryHeapsInfo.length =
        exampleDevice.nativeMemoryProperties.memoryHeaps.length ∧
      ∀ (i : Nat) (heap : vk.MemoryHeap), exampleDevice.nativeMemoryProperties.memoryHeaps[i]? = some heap →
        ∃ r : MemoryHeap, exampleDevice.getMemoryHeapsInfo[i]? = some r ∧
          r.idx = i ∧ r.size = heap.size ∧ r.budget = r.size ∧ r.usage = 0) :=
  ⟨by decide, by decide, getMemoryHeapsInfo_without_budget exampleDevice (by decide)⟩

/-- The record the first loop of `getMemoryHeapsInfo` writes at position `j`. -/
theorem heapsInfoFill_getElem? (pd : PhysicalDevice) (heaps : List vk.MemoryHeap) (i j : Nat) :
    (heapsInfoFill pd heaps i)[j]? =
      heaps[j]?.map fun heap =>
        { idx := i + j
          size := heap.size
          budget :=
            if pd.m_hasMemoryBudget then pd.nativeBudget.heapBudget.getD (i + j) 0 else heap.size
          usage := if pd.m_hasMemoryBudget then pd.nativeBudget.heapUsage.getD (i + j) 0 else 0
          deviceLocal := decide (heap.flags &&& vk.MemoryHeapFlagBits.eDeviceLocal ≠ 0)
          hostVisible := false
          multiInstance := decide (heap.flags &&& vk.MemoryHeapFlagBits.eMultiInstance ≠ 0) } := by
  induction heaps generalizing i j with
  | nil => simp [heapsInfoFill]
  | cons h rest ih =>
    unfold heapsInfoFill
    cases j with
    | zero => simp
    | succ j =>
      simp only [List.getElem?_cons_succ]
      rw [ih (i + 1) j]
      have : i + 1 + j = i + (j + 1) := by omega
      rw [this]

/-- The record at position `h` after the second loop of `getMemoryHeapsInfo`: `hostVisible` is
set when it was set before or some host-visible type of the list has heap index `h`; the other
fields are kept. -/
theorem heapsInfoMarkHostVisible_getElem? (memoryHeaps : List MemoryHeap)
    (types : List vk.MemoryType) (h : Nat) :
    (heapsInfoMarkHostVisible memoryHeaps types)[h]? =
      memoryHeaps[h]?.map fun r =>
        { r with hostVisible := r.hostVisible || types.any fun t =>
            decide (t.propertyFlags &&& vk.MemoryPropertyFlagBits.eHostVisible ≠ 0 ∧
              t.heapIndex = h) } := by
  induction types generalizing memoryHeaps with
  | nil =>
    unfold heapsInfoMarkHostVisible
    cases memoryHeaps[h]? <;> simp
  | cons t rest ih =>
    unfold heapsInfoMarkHostVisible
    by_cases hv : t.propertyFlags &&& vk.MemoryPropertyFlagBits.eHostVisible ≠ 0
    · rw [if_pos hv, ih, List.getElem?_modify]
      cases hr : memoryHeaps[h]? with
      | none => simp
      | some r =>
        by_cases hk : t.heapIndex = h
        · simp [hv, hk]
        · simp [hv, hk]
    · rw [if_neg hv, ih]
      have hv0 : t.propertyFlags &&& vk.MemoryPropertyFlagBits.eHostVisible = 0 := by
        simpa using hv
      cases hr : memoryHeaps[h]? with
      | none => simp
      | some r => simp [hv0]

/-- Claim C16: for a layout in which the heap index of every memory type is below the heap
count, record `h` of `getMemoryHeapsInfo` has `hostVisible` set if and only if some memory type
with `heapIndex = h` carries the host-visible bit, and `deviceLocal` / `multiInstance` tell
whether heap `h` carries the corresponding heap flag.  (The hypothesis keeps the writes of
the source inside the vector; the model drops a write outside it.) -/
theorem getMemoryHeapsInfo_flags (pd : PhysicalDevice)
    (_hvalid : ∀ t ∈ pd.queryMemoryProperties.memoryTypes,
      t.heapIndex < pd.queryMemoryProperties.memoryHeaps.length)
    (h : Nat) (heap : vk.MemoryHeap)
    (hh : pd.queryMemoryProperties.memoryHeaps[h]? = some heap) :
    ∃ r : MemoryHeap, pd.getMemoryHeapsInfo[h]? = some r ∧
      (r.hostVisible = true ↔ ∃ t ∈ pd.queryMemoryProperties.memoryTypes,
        t.heapIndex = h ∧ t.propertyFlags &&& vk.MemoryPropertyFlagBits.eHostVisible ≠ 0) ∧
      (r.deviceLocal = true ↔ heap.flags &&& vk.MemoryHeapFlagBits.eDeviceLocal ≠ 0) ∧
      (r.multiInstance = true ↔ heap.flags &&& vk.MemoryHeapFlagBits.eMultiInstance ≠ 0) := by
  unfold PhysicalDevice.getMemoryHeapsInfo
  simp only []
  rw [heapsInfoMarkHostVisible_getElem?, heapsInfoFill_getElem?, hh]
  refine ⟨_, rfl, ?_, ?_, ?_⟩
  · simp only [Bool.false_or, List.any_eq_true, decide_eq_true_eq]
    constructor
    · rintro ⟨t, ht, hv, hk⟩
      exact ⟨t, ht, hk, hv⟩
    · rintro ⟨t, ht, hk, hv⟩
      exact ⟨t, ht, hv, hk⟩
  · simp
  · simp

theorem getMemoryHeapsInfo_flags_witness :
    (∀ t ∈ exampleDevice.queryMemoryProperties.memoryTypes,
      t.heapIndex < exampleDevice.queryMemoryProperties.memoryHeaps.length) ∧
    exampleDevice.queryMemoryProperties.memoryHeaps[0]? = some ⟨100, 1⟩ ∧
    ∃ r : MemoryHeap, exampleDevice.getMemoryHeapsInfo[0]? = some r ∧
      (r.hostVisible = true ↔ ∃ t ∈ exampleDevice.queryMemoryProperties.memoryTypes,
        t.heapIndex = 0 ∧ t.propertyFlags &&& vk.MemoryPropertyFlagBits.eHostVisible ≠ 0) ∧
      (r.deviceLocal = true ↔
        (⟨100, 1⟩ : vk.MemoryHeap).flags &&& vk.MemoryHeapFlagBits.eDeviceLocal ≠ 0) ∧
      (r.multiInstance = true ↔
        (⟨100, 1⟩ : vk.MemoryHeap).flags &&& vk.MemoryHeapFlagBits.eMultiInstance ≠ 0) :=
  ⟨by decide, by decide,
    getMemoryHeapsInfo_flags exampleDevice (by decide) 0 ⟨100, 1⟩ (by decide)⟩

/-! ## `applyMemoryPropertiesQuirks` -/

theorem or_deviceLocal_and_ne_zero (x : Nat) : (x ||| 1) &&& 1 ≠ 0 := by
  intro h
  have := congrArg (fun y => Nat.testBit y 0) h
  simp at this

theorem markHeapDeviceLocal_memoryTypes (props : vk.PhysicalDeviceMemoryProperties)
    (heapIndex : Nat) :
    (markHeapDeviceLocal props heapIndex).memoryTypes =
      props.memoryTypes.map fun t => markTypeStep t heapIndex := rfl

theorem markHeapDeviceLocal_memoryHeaps_getElem? (props : vk.PhysicalDeviceMemoryProperties)
    (heapIndex j : Nat) :
    (markHeapDeviceLocal props heapIndex).memoryHeaps[j]? =
      props.memoryHeaps[j]?.map fun h => markHeapStep j h heapIndex := by
  unfold markHeapDeviceLocal
  simp only []
  rw [List.getElem?_modify]
  cases props.memoryHeaps[j]? with
  | none => rfl
  | some h =>
    unfold markHeapStep
    by_cases hk : heapIndex = j <;> simp [hk]

/-- The memory types after the second loop: every type goes through the steps of all collected
heap indexes. -/
theorem foldl_markHeapDeviceLocal_memoryTypes (heapIndexes : List Nat)
    (props : vk.PhysicalDeviceMemoryProperties) :
    (heapIndexes.foldl markHeapDeviceLocal props).memoryTypes =
      props.memoryTypes.map fun t => heapIndexes.foldl markTypeStep t := by
  induction heapIndexes generalizing props with
  | nil => simp
  | cons k rest ih =>
    rw [List.foldl_cons, ih, markHeapDeviceLocal_memoryTypes, List.map_map]
    rfl

/-- The heap at position `j` after the second loop. -/
theorem foldl_markHeapDeviceLocal_memoryHeaps_getElem? (heapIndexes : List Nat)
    (props : vk.PhysicalDeviceMemoryProperties) (j : Nat) :
    (heapIndexes.foldl markHeapDeviceLocal props).memoryHeaps[j]? =
      props.memoryHeaps[j]?.map fun h => heapIndexes.foldl (markHeapStep j) h := by
  induction heapIndexes generalizing props with
  | nil => simp
  | cons k rest ih =>
    rw [List.foldl_cons, ih, markHeapDeviceLocal_memoryHeaps_getElem?]
    cases props.memoryHeaps[j]? with
    | none => rfl
    | some h => rfl

theorem foldl_markTypeStep_heapIndex (heapIndexes : List Nat) (t : vk.MemoryType) :
    (heapIndexes.foldl markTypeStep t).heapIndex = t.heapIndex := by
  induction heapIndexes generalizing t with
  | nil => rfl
  | cons k rest ih =>
    rw [List.foldl_cons, ih]
    unfold markTypeStep
    split <;> rfl

theorem foldl_markTypeStep_keeps_deviceLocal (heapIndexes : List Nat) (t : vk.MemoryType)
    (h : t.propertyFlags &&& vk.MemoryPropertyFlagBits.eDeviceLocal ≠ 0) :
    (heapIndexes.foldl markTypeStep t).propertyFlags &&&
      vk.MemoryPropertyFlagBits.eDeviceLocal ≠ 0 := by
  induction heapIndexes generalizing t with
  | nil => exact h
  | cons k rest ih =>
    rw [List.foldl_cons]
    apply ih
    unfold markTypeStep
    split
    · exact or_deviceLocal_and_ne_zero _
    · exact h

theorem foldl_markTypeStep_deviceLocal (heapIndexes : List Nat) (t : vk.MemoryType)
    (hmem : t.heapIndex ∈ heapIndexes) :
    (heapIndexes.foldl markTypeStep t).propertyFlags &&&
      vk.MemoryPropertyFlagBits.eDeviceLocal ≠ 0 := by
  induction heapIndexes generalizing t with
  | nil => cases hmem
  | cons k rest ih =>
    rw [List.foldl_cons]
    by_cases hk : t.heapIndex = k
    · apply foldl_markTypeStep_keeps_deviceLocal
      unfold markTypeStep
      rw [if_pos hk]
      exact or_deviceLocal_and_ne_zero _
    · apply ih
      have hrest : t.heapIndex ∈ rest := by
        rcases List.mem_cons.mp hmem with e | e
        · exact absurd e hk
        · exact e
      unfold markTypeStep
      rw [if_neg hk]
      exact hrest

theorem foldl_markHeapStep_keeps_deviceLocal (heapIndexes : List Nat) (j : Nat)
    (h : vk.MemoryHeap) (hdl : h.flags &&& vk.MemoryHeapFlagBits.eDeviceLocal ≠ 0) :
    (heapIndexes.foldl (markHeapStep j) h).flags &&& vk.MemoryHeapFlagBits.eDeviceLocal ≠ 0 := by
  induction heapIndexes generalizing h with
  | nil => exact hdl
  | cons k rest ih =>
    rw [List.foldl_cons]
    apply ih
    unfold markHeapStep
    split
    · exact or_deviceLocal_and_ne_zero _
    · exact hdl

theorem foldl_markHeapStep_deviceLocal (heapIndexes : List Nat) (j : Nat) (h : vk.MemoryHeap)
    (hmem : j ∈ heapIndexes) :
    (heapIndexes.foldl (markHeapStep j) h).flags &&& vk.MemoryHeapFlagBits.eDeviceLocal ≠ 0 := by
  induction heapIndexes generalizing h with
  | nil => cases hmem
  | cons k rest ih =>
    rw [List.foldl_cons]
    by_cases hk : k = j
    · apply foldl_markHeapStep_keeps_deviceLocal
      unfold markHeapStep
      rw [if_pos hk]
      exact or_deviceLocal_and_ne_zero _
    · apply ih
      rcases List.mem_cons.mp hmem with e | e
      · exact absurd e.symm hk
      · exact e

theorem mem_heapIndexesInsert (heapIndexes : List Nat) (heapIndex k : Nat) :
    k ∈ heapIndexesInsert heapIndexes heapIndex ↔ k ∈ heapIndexes ∨ k = heapIndex := by
  unfold heapIndexesInsert
  split
  · next hin =>
    constructor
    · exact Or.inl
    · rintro (h | h)
      · exact h
      · rw [h]; exact hin
  · simp

/-- When no host-coherent cached type is device-local, the first loop of the quirk runs to the
end and collects, among others, every valid heap index of a host-coherent cached type. -/
theorem collectHeapIndexes_some (nHeaps : Nat) (types : List vk.MemoryType) (acc : List Nat)
    (hnone : ∀ t ∈ types, IsHostCoherentCached t →
      t.propertyFlags &&& vk.MemoryPropertyFlagBits.eDeviceLocal = 0) :
    ∃ heapIndexes, collectHeapIndexes nHeaps types acc = some heapIndexes ∧
      (∀ k ∈ acc, k ∈ heapIndexes) ∧
      ∀ t ∈ types, IsHostCoherentCached t → t.heapIndex < nHeaps →
        t.heapIndex ∈ heapIndexes := by
  induction types generalizing acc with
  | nil => exact ⟨acc, rfl, fun _ h => h, fun t ht => by cases ht⟩
  | cons a rest ih =>
    have hrest : ∀ t ∈ rest, IsHostCoherentCached t →
        t.propertyFlags &&& vk.MemoryPropertyFlagBits.eDeviceLocal = 0 :=
      fun t ht => hnone t (List.mem_cons_of_mem _ ht)
    unfold collectHeapIndexes
    by_cases hc : a.propertyFlags &&& hostFlags ≠ hostFlags
    · rw [if_pos hc]
      obtain ⟨l, hl, hacc, hall⟩ := ih acc hrest
      refine ⟨l, hl, hacc, ?_⟩
      intro t ht hcc hlt
      rcases List.mem_cons.mp ht with e | e
      · subst e; exact absurd hcc hc
      · exact hall t e hcc hlt
    · rw [if_neg hc]
      have hcc : IsHostCoherentCached a := by
        unfold IsHostCoherentCached
        by_contra hn
        exact hc hn
      have hdl : ¬ (a.propertyFlags &&& vk.MemoryPropertyFlagBits.eDeviceLocal ≠ 0) := by
        intro hne
        exact hne (hnone a (List.mem_cons_self _ _) hcc)
      rw [if_neg hdl]
      by_cases hlt : a.heapIndex < nHeaps
      · rw [if_pos hlt]
        obtain ⟨l, hl, hacc, hall⟩ := ih (heapIndexesInsert acc a.heapIndex) hrest
        refine ⟨l, hl, ?_, ?_⟩
        · intro k hk
          exact hacc k ((mem_heapIndexesInsert _ _ _).mpr (Or.inl hk))
        · intro t ht hcc' hlt'
          rcases List.mem_cons.mp ht with e | e
          · subst e
            exact hacc _ ((mem_heapIndexesInsert _ _ _).mpr (Or.inr rfl))
          · exact hall t e hcc' hlt'
      · rw [if_neg hlt]
        obtain ⟨l, hl, hacc, hall⟩ := ih acc hrest
        refine ⟨l, hl, hacc, ?_⟩
        intro t ht hcc' hlt'
        rcases List.mem_cons.mp ht with e | e
        · subst e; exact absurd hlt' hlt
        · exact hall t e hcc' hlt'

/-- Claim C17: on an integrated adapter of vendor `0x1002` with more than one heap, when no
host-visible, host-coherent, host-cached memory type carries the device-local flag, after
`applyMemoryPropertiesQuirks` every heap that such a type references by a valid heap index has
the device-local heap flag, and every memory type on such a heap has the device-local
property flag. -/
theorem applyMemoryPropertiesQuirks_marks_deviceLocal
    (physDevProps : vk.PhysicalDeviceProperties) (props : vk.PhysicalDeviceMemoryProperties)
    (hint : physDevProps.deviceType = vk.PhysicalDeviceType.eIntegratedGpu)
    (hvendor : physDevProps.vendorID = 0x1002)
    (hheaps : 1 < props.memoryHeaps.length)
    (hnone : ∀ t ∈ props.memoryTypes, IsHostCoherentCached t →
      t.propertyFlags &&& vk.MemoryPropertyFlagBits.eDeviceLocal = 0)
    (t : vk.MemoryType) (ht : t ∈ props.memoryTypes) (hcc : IsHostCoherentCached t)
    (hlt : t.heapIndex < props.memoryHeaps.length) :
    (∃ heap : vk.MemoryHeap,
      (applyMemoryPropertiesQuirks physDevProps props).memoryHeaps[t.heapIndex]? = some heap ∧
      heap.flags &&& vk.MemoryHeapFlagBits.eDeviceLocal ≠ 0) ∧
    ∀ t' ∈ (applyMemoryPropertiesQuirks physDevProps props).memoryTypes,
      t'.heapIndex = t.heapIndex →
        t'.propertyFlags &&& vk.MemoryPropertyFlagBits.eDeviceLocal ≠ 0 := by
  obtain ⟨l, hl, _, hall⟩ := collectHeapIndexes_some props.memoryHeaps.length
    props.memoryTypes [] hnone
  have hmem : t.heapIndex ∈ l := hall t ht hcc hlt
  have hq : applyMemoryPropertiesQuirks physDevProps props =
      l.foldl markHeapDeviceLocal props := by
    unfold applyMemoryPropertiesQuirks
    rw [if_neg (by rw [hint, hvendor]; simp)]
    simp only []
    rw [if_neg (by omega), hl]
  rw [hq]
  constructor
  · rw [foldl_markHeapDeviceLocal_memoryHeaps_getElem?, List.getElem?_eq_getElem hlt]
    exact ⟨_, rfl, foldl_markHeapStep_deviceLocal l _ _ hmem⟩
  · intro t' ht' hidx
    rw [foldl_markHeapDeviceLocal_memoryTypes, List.mem_map] at ht'
    obtain ⟨t0, _, rfl⟩ := ht'
    rw [foldl_markTypeStep_heapIndex] at hidx
    exact foldl_markTypeStep_deviceLocal l t0 (hidx ▸ hmem)

theorem applyMemoryPropertiesQuirks_marks_deviceLocal_witness :
    applyMemoryPropertiesQuirks exampleQuirkDevice.m_properties
        exampleQuirkDevice.nativeMemoryProperties =
      { memoryTypes := [⟨1, 0⟩, ⟨15, 1⟩, ⟨7, 1⟩], memoryHeaps := [⟨100, 1⟩, ⟨200, 1⟩] } ∧
    ((∃ heap : vk.MemoryHeap,
      (applyMemoryPropertiesQuirks exampleQuirkDevice.m_properties
        exampleQuirkDevice.nativeMemoryProperties).memoryHeaps[
          (⟨14, 1⟩ : vk.MemoryType).heapIndex]? = some heap ∧
      heap.flags &&& vk.MemoryHeapFlagBits.eDeviceLocal ≠ 0) ∧
    ∀ t' ∈ (applyMemoryPropertiesQuirks exampleQuirkDevice.m_properties
        exampleQuirkDevice.nativeMemoryProperties).memoryTypes,
      t'.heapIndex = (⟨14, 1⟩ : vk.MemoryType).heapIndex →
        t'.propertyFlags &&& vk.MemoryPropertyFlagBits.eDeviceLocal ≠ 0) :=
  ⟨by decide,
    applyMemoryPropertiesQuirks_marks_deviceLocal exampleQuirkDevice.m_properties
      exampleQuirkDevice.nativeMemoryProperties (by decide) (by decide) (by decide) (by decide)
      ⟨14, 1⟩ (by decide) (by decide) (by decide)⟩

/-! ## The frame of `applyMemoryPropertiesQuirks` -/

theorem or_one_or_one (x : Nat) : x ||| 1 ||| 1 = x ||| 1 := by
  rw [Nat.lor_assoc, Nat.or_self]

theorem and_or_self_left (x y : Nat) : x &&& (x ||| y) = x := by
  apply Nat.eq_of_testBit_eq
  intro j
  simp only [Nat.testBit_and, Nat.testBit_or]
  cases x.testBit j <;> simp

/-- All steps of the second loop together leave a memory type as it is or add the device-local
bit to its flags. -/
theorem foldl_markTypeStep_flags (heapIndexes : List Nat) (t : vk.MemoryType) :
    (heapIndexes.foldl markTypeStep t).propertyFlags = t.propertyFlags ∨
    (heapIndexes.foldl markTypeStep t).propertyFlags =
      t.propertyFlags ||| vk.MemoryPropertyFlagBits.eDeviceLocal := by
  induction heapIndexes generalizing t with
  | nil => exact Or.inl rfl
  | cons k rest ih =>
    rw [List.foldl_cons]
    by_cases hk : t.heapIndex = k
    · have hstep : markTypeStep t k =
          { t with propertyFlags :=
              t.propertyFlags ||| vk.MemoryPropertyFlagBits.eDeviceLocal } := by
        unfold markTypeStep
        rw [if_pos hk]
      rw [hstep]
      rcases ih { t with propertyFlags :=
          t.propertyFlags ||| vk.MemoryPropertyFlagBits.eDeviceLocal } with h | h
      · exact Or.inr h
      · exact Or.inr (h.trans (or_one_or_one _))
    · have hstep : markTypeStep t k = t := by
        unfold markTypeStep
        rw [if_neg hk]
      rw [hstep]
      exact ih t

/-- All steps of the second loop together leave a heap as it is or add the device-local bit to
its flags, and keep its size. -/
theorem foldl_markHeapStep_frame (heapIndexes : List Nat) (j : Nat) (h : vk.MemoryHeap) :
    (heapIndexes.foldl (markHeapStep j) h).size = h.size ∧
    ((heapIndexes.foldl (markHeapStep j) h).flags = h.flags ∨
      (heapIndexes.foldl (markHeapStep j) h).flags =
        h.flags ||| vk.MemoryHeapFlagBits.eDeviceLocal) := by
  induction heapIndexes generalizing h with
  | nil => exact ⟨rfl, Or.inl rfl⟩
  | cons k rest ih =>
    rw [List.foldl_cons]
    by_cases hk : k = j
    · have hstep : markHeapStep j h k =
          { h with flags := h.flags ||| vk.MemoryHeapFlagBits.eDeviceLocal } := by
        unfold markHeapStep
        rw [if_pos hk]
      rw [hstep]
      obtain ⟨hs, hf⟩ := ih { h with flags := h.flags ||| vk.MemoryHeapFlagBits.eDeviceLocal }
      refine ⟨hs, ?_⟩
      rcases hf with hf | hf
      · exact Or.inr hf
      · exact Or.inr (hf.trans (or_one_or_one _))
    · have hstep : markHeapStep j h k = h := by
        unfold markHeapStep
        rw [if_neg hk]
      rw [hstep]
      exact ih h

/-- The first loop of the quirk takes the early return as soon as some host-coherent cached
type is device-local. -/
theorem collectHeapIndexes_none (nHeaps : Nat) (types : List vk.MemoryType) (acc : List Nat)
    (h : ∃ t ∈ types, IsHostCoherentCached t ∧
      t.propertyFlags &&& vk.MemoryPropertyFlagBits.eDeviceLocal ≠ 0) :
    collectHeapIndexes nHeaps types acc = none := by
  induction types generalizing acc with
  | nil =>
    obtain ⟨t, ht, _⟩ := h
    cases ht
  | cons a rest ih =>
    unfold collectHeapIndexes
    by_cases hc : a.propertyFlags &&& hostFlags ≠ hostFlags
    · rw [if_pos hc]
      apply ih
      obtain ⟨t, ht, hcc, hdl⟩ := h
      rcases List.mem_cons.mp ht with e | e
      · subst e; exact absurd hcc hc
      · exact ⟨t, e, hcc, hdl⟩
    · rw [if_neg hc]
      by_cases hd : a.propertyFlags &&& vk.MemoryPropertyFlagBits.eDeviceLocal ≠ 0
      · rw [if_pos hd]
      · rw [if_neg hd]
        have hrest : ∃ t ∈ rest, IsHostCoherentCached t ∧
            t.propertyFlags &&& vk.MemoryPropertyFlagBits.eDeviceLocal ≠ 0 := by
          obtain ⟨t, ht, hcc, hdl⟩ := h
          rcases List.mem_cons.mp ht with e | e
          · subst e; exact absurd hdl hd
          · exact ⟨t, e, hcc, hdl⟩
        split
        · exact ih _ hrest
        · exact ih _ hrest

/-- The quirk is the second loop run over some list of heap indexes, the empty list when it
returns early. -/
theorem applyMemoryPropertiesQuirks_eq_foldl (physDevProps : vk.PhysicalDeviceProperties)
    (props : vk.PhysicalDeviceMemoryProperties) :
    ∃ heapIndexes : List Nat,
      applyMemoryPropertiesQuirks physDevProps props =
        heapIndexes.foldl markHeapDeviceLocal props := by
  unfold applyMemoryPropertiesQuirks
  split
  · exact ⟨[], rfl⟩
  · simp only []
    split
    · exact ⟨[], rfl⟩
    · split
      · exact ⟨[], rfl⟩
      · next l _ => exact ⟨l, rfl⟩

/-- Claim C22: `applyMemoryPropertiesQuirks` keeps the number of memory types and of heaps, the
heap index of every type and the size of every heap; the flags of every type and of every heap
are left as they are or get the device-local bit added, so no flag is cleared; and the layout
is unchanged when the adapter is not an integrated GPU of vendor `0x1002`, when there is at
most one heap, or when some host-visible, host-coherent, host-cached type already carries the
device-local flag. -/
theorem applyMemoryPropertiesQuirks_frame (physDevProps : vk.PhysicalDeviceProperties)
    (props : vk.PhysicalDeviceMemoryProperties) :
    (applyMemoryPropertiesQuirks physDevProps props).memoryTypes.length =
      props.memoryTypes.length ∧
    (applyMemoryPropertiesQuirks physDevProps props).memoryHeaps.length =
      props.memoryHeaps.length ∧
    (∀ (i : Nat) (t : vk.MemoryType), props.memoryTypes[i]? = some t →
      ∃ t' : vk.MemoryType,
        (applyMemoryPropertiesQuirks physDevProps props).memoryTypes[i]? = some t' ∧
        t'.heapIndex = t.heapIndex ∧
        (t'.propertyFlags = t.propertyFlags ∨
          t'.propertyFlags = t.propertyFlags ||| vk.MemoryPropertyFlagBits.eDeviceLocal) ∧
        t.propertyFlags &&& t'.propertyFlags = t.propertyFlags) ∧
    (∀ (j : Nat) (h : vk.MemoryHeap), props.memoryHeaps[j]? = some h →
      ∃ h' : vk.MemoryHeap,
        (applyMemoryPropertiesQuirks physDevProps props).memoryHeaps[j]? = some h' ∧
        h'.size = h.size ∧
        (h'.flags = h.flags ∨ h'.flags = h.flags ||| vk.MemoryHeapFlagBits.eDeviceLocal) ∧
        h.flags &&& h'.flags = h.flags) ∧
    ((physDevProps.deviceType ≠ vk.PhysicalDeviceType.eIntegratedGpu ∨
        physDevProps.vendorID ≠ 0x1002 ∨ props.memoryHeaps.length ≤ 1 ∨
        ∃ t ∈ props.memoryTypes, IsHostCoherentCached t ∧
          t.propertyFlags &&& vk.MemoryPropertyFlagBits.eDeviceLocal ≠ 0) →
      applyMemoryPropertiesQuirks physDevProps props = props) := by
  obtain ⟨l, hl⟩ := applyMemoryPropertiesQuirks_eq_foldl physDevProps props
  have hkeep : ∀ x y : Nat, (y = x ∨ y = x ||| 1) → x &&& y = x := by
    intro x y hy
    rcases hy with e | e
    · rw [e, Nat.and_self]
    · rw [e, and_or_self_left]
  refine ⟨?_, ?_, ?_, ?_, ?_⟩
  · rw [hl, foldl_markHeapDeviceLocal_memoryTypes, List.length_map]
  · have := congrArg List.length (applyMemoryPropertiesQuirks_heap_sizes physDevProps props)
    simpa using this
  · intro i t ht
    rw [hl, foldl_markHeapDeviceLocal_memoryTypes, List.getElem?_map, ht]
    have hflags := foldl_markTypeStep_flags l t
    exact ⟨_, rfl, foldl_markTypeStep_heapIndex l t, hflags, hkeep _ _ hflags⟩
  · intro j h hh
    rw [hl, foldl_markHeapDeviceLocal_memoryHeaps_getElem?, hh]
    obtain ⟨hsize, hflags⟩ := foldl_markHeapStep_frame l j h
    exact ⟨_, rfl, hsize, hflags, hkeep _ _ hflags⟩
  · intro hcase
    unfold applyMemoryPropertiesQuirks
    by_cases h1 : physDevProps.deviceType ≠ vk.PhysicalDeviceType.eIntegratedGpu ∨
        physDevProps.vendorID ≠ 0x1002
    · rw [if_pos h1]
    · rw [if_neg h1]
      simp only []
      by_cases h2 : props.memoryHeaps.length ≤ 1
      · rw [if_pos h2]
      · rw [if_neg h2]
        have h3 : ∃ t ∈ props.memoryTypes, IsHostCoherentCached t ∧
            t.propertyFlags &&& vk.MemoryPropertyFlagBits.eDeviceLocal ≠ 0 := by
          rcases hcase with h | h | h | h
          · exact absurd (Or.inl h) h1
          · exact absurd (Or.inr h) h1
          · exact absurd h h2
          · exact h
        rw [collectHeapIndexes_none _ _ _ h3]

theorem applyMemoryPropertiesQuirks_frame_witness :
    exampleDevice.m_properties.deviceType ≠ vk.PhysicalDeviceType.eIntegratedGpu ∧
    applyMemoryPropertiesQuirks exampleDevice.m_properties exampleDevice.nativeMemoryProperties =
      exampleDevice.nativeMemoryProperties ∧
    applyMemoryPropertiesQuirks exampleQuirkDevice.m_properties
        { memoryTypes := [⟨1, 0⟩, ⟨15, 0⟩, ⟨14, 1⟩], memoryHeaps := [⟨100, 1⟩, ⟨200, 0⟩] } =
      { memoryTypes := [⟨1, 0⟩, ⟨15, 0⟩, ⟨14, 1⟩], memoryHeaps := [⟨100, 1⟩, ⟨200, 0⟩] } ∧
    applyMemoryPropertiesQuirks exampleQuirkDevice.m_properties
        exampleQuirkDevice.nativeMemoryProperties =
      { memoryTypes := [⟨1, 0⟩, ⟨15, 1⟩, ⟨7, 1⟩], memoryHeaps := [⟨100, 1⟩, ⟨200, 1⟩] } :=
  ⟨by decide,
    (applyMemoryPropertiesQuirks_frame exampleDevice.m_properties
      exampleDevice.nativeMemoryProperties).2.2.2.2 (Or.inl (by decide)),
    by decide, by decide⟩

/-! ## `init`: the host-visible device-local heuristic -/

theorem initHeapSizesLoop_eq (heaps : List MemoryHeap) (a b : Nat) :
    initHeapSizesLoop heaps (a, b) =
      (if a = 0 then
          firstNonzeroHeapSize (fun r => r.deviceLocal && r.hostVisible) heaps
        else a,
        if b = 0 then
          firstNonzeroHeapSize (fun r => r.deviceLocal && !r.hostVisible) heaps
        else b) := by
  induction heaps generalizing a b with
  | nil =>
    unfold initHeapSizesLoop firstNonzeroHeapSize
    by_cases ha : a = 0 <;> by_cases hb : b = 0 <;> simp [ha, hb]
  | cons r rest ih =>
    unfold initHeapSizesLoop
    cases hd : r.deviceLocal with
    | false =>
      simp only [Bool.not_false, if_true]
      rw [ih]
      simp [firstNonzeroHeapSize, List.filter_cons, hd]
    | true =>
      simp only [Bool.not_true, Bool.false_eq_true, if_false]
      cases hv : r.hostVisible with
      | true =>
        simp only [if_true]
        rw [ih]
        by_cases ha : a = 0
        · by_cases hs : r.size = 0
          · simp [firstNonzeroHeapSize, List.filter_cons, hd, hv, ha, hs]
          · simp [firstNonzeroHeapSize, List.filter_cons, hd, hv, ha, hs]
        · simp [firstNonzeroHeapSize, List.filter_cons, hd, hv, ha]
      | false =>
        simp only [Bool.false_eq_true, if_false]
        rw [ih]
        by_cases hb : b = 0
        · by_cases hs : r.size = 0
          · simp [firstNonzeroHeapSize, List.filter_cons, hd, hv, hb, hs]
          · simp [firstNonzeroHeapSize, List.filter_cons, hd, hv, hb, hs]
        · simp [firstNonzeroHeapSize, List.filter_cons, hd, hv, hb]

/-- Claim C12, as amended: `hasFullHostVisibleDeviceLocal` is true if and only if the size of
the first heap, in heap order, of non-zero size that is both device-local and host-visible
(0 if none) is greater than or equal to the size of the first heap of non-zero size that is
device-local but not host-visible (0 if none). -/
theorem initHasFullHostVisibleDeviceLocal_iff (pd : PhysicalDevice) :
    pd.initHasFullHostVisibleDeviceLocal = true ↔
      firstNonzeroHeapSize (fun r => r.deviceLocal && r.hostVisible) pd.getMemoryHeapsInfo ≥
        firstNonzeroHeapSize (fun r => r.deviceLocal && !r.hostVisible)
          pd.getMemoryHeapsInfo := by
  unfold PhysicalDevice.initHasFullHostVisibleDeviceLocal
  simp only []
  rw [initHeapSizesLoop_eq]
  simp

/-- Claim C12 as stated fails: with device-local host-visible heaps of sizes 10 and 1000 and a
device-local heap of size 500 that is not host-visible, the largest host-visible one (1000) is
at least as large as the largest other one (500), but `init` compares the first ones, 10 and
500, and stores `false`. -/
theorem initHasFullHostVisibleDeviceLocal_not_largest :
    largestHeapSize (fun r => r.deviceLocal && r.hostVisible)
        twoVisibleHeapsDevice.getMemoryHeapsInfo = 1000 ∧
    largestHeapSize (fun r => r.deviceLocal && !r.hostVisible)
        twoVisibleHeapsDevice.getMemoryHeapsInfo = 500 ∧
    twoVisibleHeapsDevice.initHasFullHostVisibleDeviceLocal = false ∧
    ¬ (twoVisibleHeapsDevice.initHasFullHostVisibleDeviceLocal = true ↔
      largestHeapSize (fun r => r.deviceLocal && r.hostVisible)
          twoVisibleHeapsDevice.getMemoryHeapsInfo ≥
        largestHeapSize (fun r => r.deviceLocal && !r.hostVisible)
          twoVisibleHeapsDevice.getMemoryHeapsInfo) := by
  decide

/-! ## `init`: the queue-family map -/

theorem queuesAssign_of_fresh (queues : List (Nat × QueueFamilyProps)) (key : Nat)
    (value : QueueFamilyProps) (h : ∀ e ∈ queues, e.1 < key) :
    queuesAssign queues key value = queues ++ [(key, value)] := by
  unfold queuesAssign
  rw [if_neg]
  intro hany
  rw [List.any_eq_true] at hany
  obtain ⟨e, he, hk⟩ := hany
  have := h e he
  have hek : e.1 = key := by simpa using hk
  omega

theorem initQueuesLoop_eq (noGraphics : Bool) (headerVersion : Nat)
    (families : List vk.QueueFamilyProperties) (queueFamilyIndex : Nat)
    (queues : List (Nat × QueueFamilyProps)) (h : ∀ e ∈ queues, e.1 < queueFamilyIndex) :
    initQueuesLoop noGraphics headerVersion families queueFamilyIndex queues =
      queues ++ keptFamilies noGraphics headerVersion families queueFamilyIndex := by
  induction families generalizing queueFamilyIndex queues with
  | nil => simp [initQueuesLoop, keptFamilies]
  | cons props rest ih =>
    have hstep : ∀ e ∈ queues, e.1 < queueFamilyIndex + 1 := fun e he => by
      have := h e he
      omega
    unfold initQueuesLoop keptFamilies
    by_cases hc : props.queueCount < 1
    · rw [if_pos hc, if_neg (by omega), ih _ _ hstep]
    · rw [if_neg hc]
      simp only []
      by_cases hcap : HasCountedCapability noGraphics headerVersion props.queueFlags
      · have hkeep : ¬ ((!(if noGraphics then false
              else decide (props.queueFlags &&& vk.QueueFlagBits.eGraphics ≠ 0)) &&
            !decide (props.queueFlags &&& vk.QueueFlagBits.eCompute ≠ 0) &&
            !decide (props.queueFlags &&& vk.QueueFlagBits.eTransfer ≠ 0) &&
            !(if headerVersion > 237 then
                decide (props.queueFlags &&& vk.QueueFlagBits.eVideoDecodeKHR ≠ 0)
              else false) &&
            !(if headerVersion > 274 then
                decide (props.queueFlags &&& vk.QueueFlagBits.eVideoEncodeKHR ≠ 0)
              else false)) = true) := by
          unfold HasCountedCapability at hcap
          cases noGraphics <;> by_cases h1 : headerVersion > 237 <;>
            by_cases h2 : headerVersion > 274 <;> simp [h1, h2] at hcap ⊢ <;> tauto
        rw [if_neg hkeep, if_pos ⟨by omega, hcap⟩, queuesAssign_of_fresh _ _ _ h, ih]
        · simp
        · intro e he
          rcases List.mem_append.mp he with h' | h'
          · exact hstep e h'
          · have hfst : e.1 = queueFamilyIndex := by
              have := List.mem_singleton.mp h'
              rw [this]
            omega
      · have hdrop : ((!(if noGraphics then false
              else decide (props.queueFlags &&& vk.QueueFlagBits.eGraphics ≠ 0)) &&
            !decide (props.queueFlags &&& vk.QueueFlagBits.eCompute ≠ 0) &&
            !decide (props.queueFlags &&& vk.QueueFlagBits.eTransfer ≠ 0) &&
            !(if headerVersion > 237 then
                decide (props.queueFlags &&& vk.QueueFlagBits.eVideoDecodeKHR ≠ 0)
              else false) &&
            !(if headerVersion > 274 then
                decide (props.queueFlags &&& vk.QueueFlagBits.eVideoEncodeKHR ≠ 0)
              else false)) = true) := by
          unfold HasCountedCapability at hcap
          cases noGraphics <;> by_cases h1 : headerVersion > 237 <;>
            by_cases h2 : headerVersion > 274 <;> simp [h1, h2] at hcap ⊢ <;> tauto
        rw [if_pos hdrop, if_neg (fun hk => hcap hk.2), ih _ _ hstep]

theorem mem_keptFamilies (noGraphics : Bool) (headerVersion : Nat)
    (families : List vk.QueueFamilyProperties) (queueFamilyIndex : Nat)
    (e : Nat × QueueFamilyProps) :
    e ∈ keptFamilies noGraphics headerVersion families queueFamilyIndex ↔
      ∃ (j : Nat) (props : vk.QueueFamilyProperties), families[j]? = some props ∧
        props.queueCount ≥ 1 ∧
        HasCountedCapability noGraphics headerVersion props.queueFlags ∧
        e = (queueFamilyIndex + j, { flags := props.queueFlags
                                     familyIndex := queueFamilyIndex + j
                                     count := props.queueCount }) := by
  induction families generalizing queueFamilyIndex with
  | nil => simp [keptFamilies]
  | cons p rest ih =>
    unfold keptFamilies
    have hshift : (∃ (j : Nat) (props : vk.QueueFamilyProperties), rest[j]? = some props ∧
          props.queueCount ≥ 1 ∧
          HasCountedCapability noGraphics headerVersion props.queueFlags ∧
          e = (queueFamilyIndex + 1 + j, { flags := props.queueFlags
                                           familyIndex := queueFamilyIndex + 1 + j
                                           count := props.queueCount })) ↔
        ∃ (j : Nat) (props : vk.QueueFamilyProperties), (p :: rest)[j + 1]? = some props ∧
          props.queueCount ≥ 1 ∧
          HasCountedCapability noGraphics headerVersion props.queueFlags ∧
          e = (queueFamilyIndex + (j + 1), { flags := props.queueFlags
                                             familyIndex := queueFamilyIndex + (j + 1)
                                             count := props.queueCount }) := by
      constructor
      · rintro ⟨j, props, hj, h1, h2, h3⟩
        refine ⟨j, props, by simpa using hj, h1, h2, ?_⟩
        rw [h3, show queueFamilyIndex + 1 + j = queueFamilyIndex + (j + 1) by omega]
      · rintro ⟨j, props, hj, h1, h2, h3⟩
        refine ⟨j, props, by simpa using hj, h1, h2, ?_⟩
        rw [h3, show queueFamilyIndex + 1 + j = queueFamilyIndex + (j + 1) by omega]
    by_cases hk : p.queueCount ≥ 1 ∧ HasCountedCapability noGraphics headerVersion p.queueFlags
    · rw [if_pos hk, List.mem_cons, ih, hshift]
      constructor
      · rintro (h | ⟨j, props, h⟩)
        · exact ⟨0, p, by simp, hk.1, hk.2, by simpa using h⟩
        · exact ⟨j + 1, props, h⟩
      · rintro ⟨j, props, hj, h1, h2, h3⟩
        cases j with
        | zero =>
          left
          simp at hj
          subst hj
          simpa using h3
        | succ j => exact Or.inr ⟨j, props, hj, h1, h2, h3⟩
    · rw [if_neg hk, ih, hshift]
      constructor
      · rintro ⟨j, props, h⟩
        exact ⟨j + 1, props, h⟩
      · rintro ⟨j, props, hj, h1, h2, h3⟩
        cases j with
        | zero =>
          simp at hj
          subst hj
          exact absurd ⟨h1, h2⟩ hk
        | succ j => exact ⟨j, props, hj, h1, h2, h3⟩

theorem keptFamilies_keys_nodup (noGraphics : Bool) (headerVersion : Nat)
    (families : List vk.QueueFamilyProperties) (queueFamilyIndex : Nat) :
    ((keptFamilies noGraphics headerVersion families queueFamilyIndex).map Prod.fst).Nodup := by
  induction families generalizing queueFamilyIndex with
  | nil => simp [keptFamilies]
  | cons p rest ih =>
    unfold keptFamilies
    split
    · rw [List.map_cons, List.nodup_cons]
      refine ⟨?_, ih _⟩
      intro hmem
      rw [List.mem_map] at hmem
      obtain ⟨e, he, hfst⟩ := hmem
      obtain ⟨j, props, _, _, _, h3⟩ := (mem_keptFamilies _ _ _ _ _).mp he
      rw [h3] at hfst
      simp only [] at hfst
      omega
    · exact ih _

theorem initQueues_eq (noGraphics : Bool) (headerVersion : Nat)
    (families : List vk.QueueFamilyProperties) :
    initQueues noGraphics headerVersion families =
      keptFamilies noGraphics headerVersion families 0 := by
  unfold initQueues
  rw [initQueuesLoop_eq _ _ _ _ _ (fun e he => by cases he), List.nil_append]

theorem mem_initQueues (noGraphics : Bool) (headerVersion : Nat)
    (families : List vk.QueueFamilyProperties) (i : Nat) (v : QueueFamilyProps) :
    (i, v) ∈ initQueues noGraphics headerVersion families ↔
      ∃ props : vk.QueueFamilyProperties, families[i]? = some props ∧ props.queueCount ≥ 1 ∧
        HasCountedCapability noGraphics headerVersion props.queueFlags ∧
        v = { flags := props.queueFlags, familyIndex := i, count := props.queueCount } := by
  rw [initQueues_eq, mem_keptFamilies]
  constructor
  · rintro ⟨j, props, hj, h1, h2, h3⟩
    simp only [Nat.zero_add, Prod.mk.injEq] at h3
    obtain ⟨rfl, rfl⟩ := h3
    exact ⟨props, hj, h1, h2, rfl⟩
  · rintro ⟨props, hj, h1, h2, rfl⟩
    exact ⟨i, props, hj, h1, h2, by simp⟩

/-- Claim C14, as amended: after `init` the queue-family map has an entry under key `i` if and
only if family `i` has `queueCount >= 1` and its flags include at least one of graphics
(unless `QMVK_NO_GRAPHICS` is defined), compute, transfer, video decode (only for
`VK_HEADER_VERSION > 237`) or video encode (only for `VK_HEADER_VERSION > 274`); the entry
holds the flags of family `i`, `familyIndex = i` and `count` equal to its `queueCount`, and
the keys of the map are distinct.  In a build with graphics and `VK_HEADER_VERSION > 274` this
is the condition "at least one of graphics, compute, transfer, video decode or video
encode". -/
theorem initQueues_entries (noGraphics : Bool) (headerVersion : Nat)
    (families : List vk.QueueFamilyProperties) :
    (∀ i : Nat, (∃ v, (i, v) ∈ initQueues noGraphics headerVersion families) ↔
      ∃ props : vk.QueueFamilyProperties, families[i]? = some props ∧ props.queueCount ≥ 1 ∧
        HasCountedCapability noGraphics headerVersion props.queueFlags) ∧
    (∀ (i : Nat) (v : QueueFamilyProps), (i, v) ∈ initQueues noGraphics headerVersion families →
      ∃ props : vk.QueueFamilyProperties, families[i]? = some props ∧
        v = { flags := props.queueFlags, familyIndex := i, count := props.queueCount }) ∧
    QueuesWellFormed (initQueues noGraphics headerVersion families) ∧
    (noGraphics = false → headerVersion > 274 →
      ∀ i : Nat, (∃ v, (i, v) ∈ initQueues noGraphics headerVersion families) ↔
        ∃ props : vk.QueueFamilyProperties, families[i]? = some props ∧ props.queueCount ≥ 1 ∧
          HasAnyCapability props.queueFlags) := by
  have h1 : ∀ i : Nat, (∃ v, (i, v) ∈ initQueues noGraphics headerVersion families) ↔
      ∃ props : vk.QueueFamilyProperties, families[i]? = some props ∧ props.queueCount ≥ 1 ∧
        HasCountedCapability noGraphics headerVersion props.queueFlags := by
    intro i
    constructor
    · rintro ⟨v, hv⟩
      obtain ⟨props, hp, hc, hcap, _⟩ := (mem_initQueues _ _ _ _ _).mp hv
      exact ⟨props, hp, hc, hcap⟩
    · rintro ⟨props, hp, hc, hcap⟩
      exact ⟨_, (mem_initQueues _ _ _ _ _).mpr ⟨props, hp, hc, hcap, rfl⟩⟩
  refine ⟨h1, ?_, ?_, ?_⟩
  · intro i v hv
    obtain ⟨props, hp, _, _, hv'⟩ := (mem_initQueues _ _ _ _ _).mp hv
    exact ⟨props, hp, hv'⟩
  · constructor
    · rw [initQueues_eq]
      exact keptFamilies_keys_nodup _ _ _ _
    · rintro ⟨i, v⟩ he
      obtain ⟨props, _, _, _, hv'⟩ := (mem_initQueues _ _ _ _ _).mp he
      rw [hv']
  · intro hg hv i
    rw [h1]
    have hcap : ∀ flags : Nat, HasCountedCapability noGraphics headerVersion flags ↔
        HasAnyCapability flags := by
      intro flags
      unfold HasCountedCapability HasAnyCapability
      have h237 : headerVersion > 237 := by omega
      simp [hg, hv, h237]
    constructor
    · rintro ⟨props, hp, hc, hcc⟩
      exact ⟨props, hp, hc, (hcap _).mp hcc⟩
    · rintro ⟨props, hp, hc, hcc⟩
      exact ⟨props, hp, hc, (hcap _).mpr hcc⟩

theorem initQueues_entries_witness :
    initQueues false 275 [⟨1, 1⟩, ⟨8, 4⟩, ⟨6, 0⟩, ⟨0x24, 2⟩] =
      [(0, ⟨1, 0, 1⟩), (3, ⟨0x24, 3, 2⟩)] ∧
    ∀ i : Nat, (∃ v, (i, v) ∈ initQueues false 275 [⟨1, 1⟩, ⟨8, 4⟩, ⟨6, 0⟩, ⟨0x24, 2⟩]) ↔
      ∃ props : vk.QueueFamilyProperties,
        ([⟨1, 1⟩, ⟨8, 4⟩, ⟨6, 0⟩, ⟨0x24, 2⟩] : List vk.QueueFamilyProperties)[i]? =
          some props ∧ props.queueCount ≥ 1 ∧ HasAnyCapability props.queueFlags :=
  ⟨by decide,
    (initQueues_entries false 275 [⟨1, 1⟩, ⟨8, 4⟩, ⟨6, 0⟩, ⟨0x24, 2⟩]).2.2.2 (by decide)
      (by decide)⟩

/-- Claim C14 as stated fails in a build with `QMVK_NO_GRAPHICS`: a family with one queue and
only the graphics flag has a flag of the claim's list, but `init` does not store it. -/
theorem initQueues_no_graphics_build :
    ([⟨1, 1⟩] : List vk.QueueFamilyProperties)[0]? = some ⟨1, 1⟩ ∧
    (⟨1, 1⟩ : vk.QueueFamilyProperties).queueCount ≥ 1 ∧
    HasAnyCapability (⟨1, 1⟩ : vk.QueueFamilyProperties).queueFlags ∧
    initQueues true 275 [⟨1, 1⟩] = [] ∧
    ¬ ∃ v, (0, v) ∈ initQueues true 275 [⟨1, 1⟩] := by
  refine ⟨by decide, by decide, by decide, by decide, ?_⟩
  rintro ⟨v, hv⟩
  have hnil : initQueues true 275 [⟨1, 1⟩] = [] := by decide
  rw [hnil] at hv
  cases hv

/-! ## `getFormatPropertiesCached` -/

theorem formatPropertiesFind_append_fresh (m : List (Nat × vk.FormatProperties)) (fmt : Nat)
    (value : vk.FormatProperties) (h : formatPropertiesFind m fmt = none) (f : Nat) :
    formatPropertiesFind (m ++ [(fmt, value)]) f =
      if f = fmt then some value else formatPropertiesFind m f := by
  unfold formatPropertiesFind at h ⊢
  rw [List.find?_append]
  by_cases hf : f = fmt
  · subst hf
    have hn : m.find? (fun e => e.1 == f) = none := by
      cases hm : m.find? (fun e => e.1 == f) with
      | none => rfl
      | some e => rw [hm] at h; cases h
    rw [hn]
    simp
  · rw [if_neg hf]
    have hne : ¬ ((fmt == f) = true) := by
      intro hb
      have hb' : fmt = f := by simpa using hb
      exact hf hb'.symm
    cases hm : m.find? (fun e => e.1 == f) with
    | none => simp [List.find?_cons, hne]
    | some e => simp

theorem formatPropertiesAssign_of_miss (m : List (Nat × vk.FormatProperties)) (fmt : Nat)
    (value : vk.FormatProperties) (h : formatPropertiesFind m fmt = none) :
    formatPropertiesAssign m fmt value = m ++ [(fmt, value)] := by
  unfold formatPropertiesAssign
  rw [if_neg]
  intro hany
  rw [List.any_eq_true] at hany
  obtain ⟨e, he, hk⟩ := hany
  unfold formatPropertiesFind at h
  have hn : m.find? (fun e => e.1 == fmt) = none := by
    cases hm : m.find? (fun e => e.1 == fmt) with
    | none => rfl
    | some e => rw [hm] at h; cases h
  exact (List.find?_eq_none.mp hn) e he hk

/-- A call that finds the format in the cache returns the cached record, leaves the device as
it is and issues no native query. -/
theorem getFormatPropertiesCached_hit (pd : PhysicalDevice)
    (getFormatProperties : Nat → vk.FormatProperties) (fmt : Nat) (value : vk.FormatProperties)
    (h : formatPropertiesFind pd.m_formatProperties fmt = some value) :
    (pd.getFormatPropertiesCached getFormatProperties fmt).value = value ∧
    (pd.getFormatPropertiesCached getFormatProperties fmt).device = pd ∧
    (pd.getFormatPropertiesCached getFormatProperties fmt).nativeQueries = [] := by
  unfold PhysicalDevice.getFormatPropertiesCached
  rw [h]
  exact ⟨rfl, rfl, rfl⟩

/-- A call that misses queries the native API once, stores the answer under the format and
returns it. -/
theorem getFormatPropertiesCached_miss (pd : PhysicalDevice)
    (getFormatProperties : Nat → vk.FormatProperties) (fmt : Nat)
    (h : formatPropertiesFind pd.m_formatProperties fmt = none) :
    (pd.getFormatPropertiesCached getFormatProperties fmt).value = getFormatProperties fmt ∧
    (pd.getFormatPropertiesCached getFormatProperties fmt).device.m_formatProperties =
      pd.m_formatProperties ++ [(fmt, getFormatProperties fmt)] ∧
    (pd.getFormatPropertiesCached getFormatProperties fmt).nativeQueries = [fmt] := by
  unfold PhysicalDevice.getFormatPropertiesCached
  rw [h]
  simp only []
  rw [formatPropertiesAssign_of_miss _ _ _ h, formatPropertiesFind_append_fresh _ _ _ h]
  simp

/-- The cache after a call: the requested format is mapped to the returned record and every
other format is mapped as before. -/
theorem getFormatPropertiesCached_find (pd : PhysicalDevice)
    (getFormatProperties : Nat → vk.FormatProperties) (fmt f : Nat) :
    formatPropertiesFind
        (pd.getFormatPropertiesCached getFormatProperties fmt).device.m_formatProperties f =
      if f = fmt then some (pd.getFormatPropertiesCached getFormatProperties fmt).value
      else formatPropertiesFind pd.m_formatProperties f := by
  cases h : formatPropertiesFind pd.m_formatProperties fmt with
  | some value =>
    obtain ⟨hv, hd, _⟩ := getFormatPropertiesCached_hit pd getFormatProperties fmt value h
    rw [hd, hv]
    by_cases hf : f = fmt
    · rw [if_pos hf, hf, h]
    · rw [if_neg hf]
  | none =>
    obtain ⟨hv, hd, _⟩ := getFormatPropertiesCached_miss pd getFormatProperties fmt h
    rw [hd, hv, formatPropertiesFind_append_fresh _ _ _ h]

/-- The outcome of the call at position `k` of a sequence of calls that starts at time `t`: a
format cached before the sequence is answered from the cache without a native query; any other
format is answered with the native answer given at its first call, and the native query is
issued at that first call only. -/
theorem formatPropertiesCalls_getElem? (native : Nat → Nat → vk.FormatProperties)
    (fmts : List Nat) (t : Nat) (pd : PhysicalDevice) (k fmt : Nat)
    (hk : fmts[k]? = some fmt) :
    (formatPropertiesCalls native fmts t pd).1[k]? =
      some
        (match formatPropertiesFind pd.m_formatProperties fmt with
          | some value => (value, [])
          | none =>
            (native (t + fmts.indexOf fmt) fmt, if fmts.indexOf fmt = k then [fmt] else [])) := by
  induction fmts generalizing t pd k with
  | nil => simp at hk
  | cons f0 rest ih =>
    unfold formatPropertiesCalls
    simp only []
    cases k with
    | zero =>
      simp only [List.getElem?_cons_zero, Option.some.injEq] at hk
      subst hk
      simp only [List.getElem?_cons_zero, Option.some.injEq]
      cases h : formatPropertiesFind pd.m_formatProperties f0 with
      | some value =>
        obtain ⟨hv, _, hq⟩ := getFormatPropertiesCached_hit pd (native t) f0 value h
        rw [hv, hq]
      | none =>
        obtain ⟨hv, _, hq⟩ := getFormatPropertiesCached_miss pd (native t) f0 h
        rw [hv, hq]
        simp [List.indexOf_cons_self]
    | succ k =>
      simp only [List.getElem?_cons_succ] at hk ⊢
      rw [ih (t + 1) _ k hk, getFormatPropertiesCached_find]
      by_cases hf : fmt = f0
      · subst hf
        rw [if_pos rfl]
        cases h : formatPropertiesFind pd.m_formatProperties fmt with
        | some value =>
          rw [(getFormatPropertiesCached_hit pd (native t) fmt value h).1]
        | none =>
          rw [(getFormatPropertiesCached_miss pd (native t) fmt h).1]
          simp [List.indexOf_cons_self]
      · rw [if_neg hf]
        have hidx : (f0 :: rest).indexOf fmt = rest.indexOf fmt + 1 :=
          List.indexOf_cons_ne rest (fun e => hf e.symm)
        cases h : formatPropertiesFind pd.m_formatProperties fmt with
        | some value => rfl
        | none =>
          simp only [hidx]
          rw [show t + 1 + rest.indexOf fmt = t + (rest.indexOf fmt + 1) by omega]
          by_cases hkk : rest.indexOf fmt = k
          · simp [hkk]
          · simp [hkk]
/-- Claim C19: in every sequence of `getFormatPropertiesCached` calls on one device, the call
at position `k` issues the native query exactly when its format is not cached before the
sequence and `k` is the first position of that format in the sequence (`indexOf`), so at most
once per format; every call for a format returns the record of the cache or, for a format not
cached before, the native answer stored at that first call; and a call never removes or
changes the cached record of any format. -/
theorem getFormatPropertiesCached_caches (native : Nat → Nat → vk.FormatProperties)
    (fmts : List Nat) (pd : PhysicalDevice) :
    (∀ (k fmt : Nat), fmts[k]? = some fmt →
      ∃ r : vk.FormatProperties × List Nat,
        (formatPropertiesCalls native fmts 0 pd).1[k]? = some r ∧
        r.2 = (if formatPropertiesFind pd.m_formatProperties fmt = none ∧
            fmts.indexOf fmt = k then [fmt] else []) ∧
        r.1 = (formatPropertiesFind pd.m_formatProperties fmt).getD
          (native (fmts.indexOf fmt) fmt)) ∧
    (∀ (j k fmt : Nat) (r1 r2 : vk.FormatProperties × List Nat),
      (formatPropertiesCalls native fmts 0 pd).1[j]? = some r1 →
      (formatPropertiesCalls native fmts 0 pd).1[k]? = some r2 →
      fmts[j]? = some fmt → fmts[k]? = some fmt →
        r1.1 = r2.1 ∧ (r1.2 ≠ [] → r2.2 ≠ [] → j = k)) ∧
    (∀ (getFormatProperties : Nat → vk.FormatProperties) (fmt f : Nat)
      (value : vk.FormatProperties),
      formatPropertiesFind pd.m_formatProperties f = some value →
        formatPropertiesFind
          (pd.getFormatPropertiesCached getFormatProperties fmt).device.m_formatProperties f =
            some value) := by
  have hcall : ∀ (k fmt : Nat), fmts[k]? = some fmt →
      ∃ r : vk.FormatProperties × List Nat,
        (formatPropertiesCalls native fmts 0 pd).1[k]? = some r ∧
        r.2 = (if formatPropertiesFind pd.m_formatProperties fmt = none ∧
            fmts.indexOf fmt = k then [fmt] else []) ∧
        r.1 = (formatPropertiesFind pd.m_formatProperties fmt).getD
          (native (fmts.indexOf fmt) fmt) := by
    intro k fmt hk
    refine ⟨_, formatPropertiesCalls_getElem? native fmts 0 pd k fmt hk, ?_, ?_⟩
    · cases h : formatPropertiesFind pd.m_formatProperties fmt with
      | some value => simp
      | none => simp
    · cases h : formatPropertiesFind pd.m_formatProperties fmt with
      | some value => simp
      | none => simp
  refine ⟨hcall, ?_, ?_⟩
  · intro j k fmt r1 r2 h1 h2 hj hk
    obtain ⟨r1', h1', hq1, hv1⟩ := hcall j fmt hj
    obtain ⟨r2', h2', hq2, hv2⟩ := hcall k fmt hk
    rw [h1] at h1'
    rw [h2] at h2'
    cases h1'
    cases h2'
    refine ⟨by rw [hv1, hv2], ?_⟩
    intro hn1 hn2
    rw [hq1] at hn1
    rw [hq2] at hn2
    by_cases hc1 : formatPropertiesFind pd.m_formatProperties fmt = none ∧ fmts.indexOf fmt = j
    · by_cases hc2 : formatPropertiesFind pd.m_formatProperties fmt = none ∧
          fmts.indexOf fmt = k
      · rw [← hc1.2, ← hc2.2]
      · rw [if_neg hc2] at hn2
        exact absurd rfl hn2
    · rw [if_neg hc1] at hn1
      exact absurd rfl hn1
  · intro getFormatProperties fmt f value hf
    rw [getFormatPropertiesCached_find]
    by_cases hff : f = fmt
    · rw [if_pos hff]
      rw [hff] at hf
      rw [(getFormatPropertiesCached_hit pd getFormatProperties fmt value hf).1]
    · rw [if_neg hff]
      exact hf

theorem getFormatPropertiesCached_caches_witness :
    (formatPropertiesCalls (fun t fmt => ⟨t, fmt, 0⟩) [5, 7, 5] 0 {}).1 =
      [(⟨0, 5, 0⟩, [5]), (⟨1, 7, 0⟩, [7]), (⟨0, 5, 0⟩, [])] ∧
    ([5, 7, 5] : List Nat)[2]? = some 5 ∧
    ∃ r : vk.FormatProperties × List Nat,
      (formatPropertiesCalls (fun t fmt => ⟨t, fmt, 0⟩) [5, 7, 5] 0 {}).1[2]? = some r ∧
      r.2 = (if formatPropertiesFind ({} : PhysicalDevice).m_formatProperties 5 = none ∧
          ([5, 7, 5] : List Nat).indexOf 5 = 2 then [5] else []) ∧
      r.1 = (formatPropertiesFind ({} : PhysicalDevice).m_formatProperties 5).getD
        ((fun t fmt => (⟨t, fmt, 0⟩ : vk.FormatProperties)) (([5, 7, 5] : List Nat).indexOf 5) 5) :=
  ⟨by decide, by decide,
    (getFormatPropertiesCached_caches (fun t fmt => ⟨t, fmt, 0⟩) [5, 7, 5] {}).1 2 5
      (by decide)⟩

/-! ## `Device::queue` and the weak queue cache -/

theorem Device.create_invariant (queuesFamily : List (Nat × Nat)) :
    (Device.create queuesFamily).CacheInvariant := by
  constructor
  · intro id o ho
    simp [Device.create] at ho
  · intro f i id h
    unfold Device.weakQueue Device.create at h
    simp only [] at h
    cases hf : queuesFamily.find? (fun p => p.1 == f) with
    | none => rw [hf] at h; simp at h
    | some p =>
      rw [hf] at h
      simp only [Option.map_some', Option.some_bind, List.getElem?_replicate] at h
      split at h <;> simp at h

theorem Device.adjustStrongCount_getElem? (d : Device) (id : Nat) (change : Nat → Nat)
    (j : Nat) :
    (d.adjustStrongCount id change).queueObjects[j]? =
      d.queueObjects[j]?.map fun o =>
        if id = j then { o with strongCount := change o.strongCount } else o := by
  unfold Device.adjustStrongCount
  simp only []
  rw [List.getElem?_modify]
  rfl

theorem Device.adjustStrongCount_weakQueue (d : Device) (id : Nat) (change : Nat → Nat)
    (f i : Nat) : (d.adjustStrongCount id change).weakQueue f i = d.weakQueue f i := rfl

/-- Changing a strong count keeps the invariant when it does not revive a dead object. -/
theorem Device.adjustStrongCount_invariant (d : Device) (id : Nat) (change : Nat → Nat)
    (hinv : d.CacheInvariant)
    (hchange : ∀ o : QueueObject, d.queueObjects[id]? = some o →
      0 < change o.strongCount → 0 < o.strongCount) :
    (d.adjustStrongCount id change).CacheInvariant := by
  constructor
  · intro j o' ho' halive
    rw [Device.adjustStrongCount_getElem?] at ho'
    rw [Device.adjustStrongCount_weakQueue]
    cases ho : d.queueObjects[j]? with
    | none => rw [ho] at ho'; cases ho'
    | some o =>
      rw [ho] at ho'
      simp only [Option.map_some', Option.some.injEq] at ho'
      by_cases hj : id = j
      · rw [if_pos hj] at ho'
        subst ho'
        subst hj
        exact hinv.1 id o ho (hchange o ho halive)
      · rw [if_neg hj] at ho'
        subst ho'
        exact hinv.1 j o ho halive
  · intro f i j h
    rw [Device.adjustStrongCount_weakQueue] at h
    obtain ⟨o, ho, hf, hi⟩ := hinv.2 f i j h
    rw [Device.adjustStrongCount_getElem?, ho]
    by_cases hj : id = j
    · exact ⟨{ o with strongCount := change o.strongCount }, by simp [hj], hf, hi⟩
    · exact ⟨o, by simp [hj], hf, hi⟩

theorem Device.isAlive_iff (d : Device) (id : Nat) :
    d.isAlive id = true ↔ ∃ o : QueueObject, d.queueObjects[id]? = some o ∧ 0 < o.strongCount := by
  unfold Device.isAlive
  cases h : d.queueObjects[id]? with
  | none => simp
  | some o => simp

theorem Device.lock_eq_some (d : Device) (weakQueue : Option Nat) (id : Nat) :
    d.lock weakQueue = some id ↔ weakQueue = some id ∧ d.isAlive id = true := by
  cases weakQueue with
  | none => simp [Device.lock]
  | some j =>
    simp only [Device.lock]
    by_cases hj : d.isAlive j = true
    · rw [if_pos hj]
      constructor
      · intro h; cases h; exact ⟨rfl, hj⟩
      · rintro ⟨h, _⟩; cases h; rfl
    · rw [if_neg hj]
      constructor
      · intro h; cases h
      · rintro ⟨h, ha⟩; cases h; exact absurd ha hj

/-- A call of `queue` that finds a live object in the slot returns it with one more strong
reference. -/
theorem Device.queue_hit (d : Device) (f i id : Nat)
    (hslot : d.weakQueue f i = some (some id)) (halive : d.isAlive id = true) :
    d.queue f i = some (id, d.adjustStrongCount id fun n => n + 1) := by
  unfold Device.queue
  rw [hslot]
  simp only []
  rw [(d.lock_eq_some (some id) id).mpr ⟨rfl, halive⟩]

/-- The weak reference of a slot after a miss of `queue` on the slot `(f, i)`. -/
theorem Device.weakQueue_after_miss (d : Device) (f i id f' i' : Nat)
    (w : Option Nat) (hslot : d.weakQueue f i = some w) :
    Device.weakQueue
        { m_weakQueues := fun k =>
            if k = f then (d.m_weakQueues f).map fun weakQueues => weakQueues.set i (some id)
            else d.m_weakQueues k
          queueObjects := d.queueObjects ++ [⟨f, i, 1⟩] } f' i' =
      if f' = f ∧ i' = i then some (some id) else d.weakQueue f' i' := by
  unfold Device.weakQueue at hslot ⊢
  simp only []
  by_cases hf : f' = f
  · subst hf
    rw [if_pos rfl]
    cases hm : d.m_weakQueues f' with
    | none => rw [hm] at hslot; simp at hslot
    | some wq =>
      rw [hm] at hslot
      simp only [Option.some_bind] at hslot
      simp only [Option.map_some', Option.some_bind, List.getElem?_set]
      by_cases hi : i' = i
      · subst hi
        have hlt : i' < wq.length := by
          by_contra hge
          rw [List.getElem?_eq_none (by omega)] at hslot
          cases hslot
        simp [hlt]
      · have hne : ¬ i = i' := fun e => hi e.symm
        simp [hi, hne]
  · rw [if_neg hf]
    simp [hf]

/-- One call of `queue` keeps the invariant of the cache. -/
theorem Device.queue_invariant (d : Device) (f i q : Nat) (d1 : Device)
    (hinv : d.CacheInvariant) (hq : d.queue f i = some (q, d1)) : d1.CacheInvariant := by
  unfold Device.queue at hq
  cases hslot : d.weakQueue f i with
  | none => rw [hslot] at hq; cases hq
  | some w =>
    rw [hslot] at hq
    simp only [] at hq
    cases hlock : d.lock w with
    | some id =>
      rw [hlock] at hq
      simp only [Option.some.injEq, Prod.mk.injEq] at hq
      obtain ⟨_, rfl⟩ := hq
      have halive := ((d.lock_eq_some w id).mp hlock).2
      obtain ⟨o, ho, hpos⟩ := (d.isAlive_iff id).mp halive
      apply Device.adjustStrongCount_invariant d id _ hinv
      intro o' ho' _
      rw [ho] at ho'
      cases ho'
      exact hpos
    | none =>
      rw [hlock] at hq
      simp only [Option.some.injEq, Prod.mk.injEq] at hq
      obtain ⟨_, rfl⟩ := hq
      constructor
      · intro j o ho hpos
        rw [Device.weakQueue_after_miss d f i _ _ _ w hslot]
        simp only [] at ho
        by_cases hj : j < d.queueObjects.length
        · rw [List.getElem?_append_left hj] at ho
          have hold := hinv.1 j o ho hpos
          by_cases hsame : o.queueFamilyIndex = f ∧ o.index = i
          · exfalso
            rw [hsame.1, hsame.2, hslot] at hold
            have hw : w = some j := by simpa using hold
            have hal : d.isAlive j = true := (d.isAlive_iff j).mpr ⟨o, ho, hpos⟩
            have := (d.lock_eq_some w j).mpr ⟨hw, hal⟩
            rw [hlock] at this
            cases this
          · rw [if_neg hsame]
            exact hold
        · rw [List.getElem?_append_right (by omega)] at ho
          have hj0 : j - d.queueObjects.length = 0 := by
            by_contra hne
            have : ([({ queueFamilyIndex := f, index := i, strongCount := 1 } :
                QueueObject)])[j - d.queueObjects.length]? = none :=
              List.getElem?_eq_none (by simp; omega)
            rw [this] at ho
            cases ho
          rw [hj0] at ho
          simp only [List.getElem?_cons_zero, Option.some.injEq] at ho
          subst ho
          have hjeq : j = d.queueObjects.length := by omega
          simp [hjeq]
      · intro f' i' j h
        rw [Device.weakQueue_after_miss d f i _ _ _ w hslot] at h
        simp only []
        by_cases hsame : f' = f ∧ i' = i
        · rw [if_pos hsame] at h
          have hj : j = d.queueObjects.length := by
            have := Option.some.inj (Option.some.inj h)
            exact this.symm
          subst hj
          refine ⟨⟨f, i, 1⟩, ?_, hsame.1.symm, hsame.2.symm⟩
          rw [List.getElem?_append_right (Nat.le_refl _)]
          simp
        · rw [if_neg hsame] at h
          obtain ⟨o, ho, hf', hi'⟩ := hinv.2 f' i' j h
          have hlt : j < d.queueObjects.length := by
            by_contra hge
            rw [List.getElem?_eq_none (by omega)] at ho
            cases ho
          exact ⟨o, by rw [List.getElem?_append_left hlt]; exact ho, hf', hi'⟩

theorem Device.step_invariant (d : Device) (op : DeviceOp) (hinv : d.CacheInvariant) :
    (d.step op).CacheInvariant := by
  cases op with
  | queue f i =>
    simp only [Device.step]
    cases hq : d.queue f i with
    | none => exact hinv
    | some r =>
      obtain ⟨q, d1⟩ := r
      exact Device.queue_invariant d f i q d1 hinv hq
  | copy id =>
    simp only [Device.step]
    by_cases halive : d.isAlive id = true
    · rw [if_pos halive]
      obtain ⟨o, ho, hpos⟩ := (d.isAlive_iff id).mp halive
      apply Device.adjustStrongCount_invariant d id _ hinv
      intro o' ho' _
      rw [ho] at ho'
      cases ho'
      exact hpos
    · rw [if_neg halive]
      exact hinv
  | release id =>
    simp only [Device.step]
    apply Device.adjustStrongCount_invariant d id _ hinv
    intro o _ hpos
    omega

theorem Device.run_invariant (d : Device) (ops : List DeviceOp) (hinv : d.CacheInvariant) :
    (d.run ops).CacheInvariant := by
  unfold Device.run
  induction ops generalizing d with
  | nil => exact hinv
  | cons op rest ih =>
    rw [List.foldl_cons]
    exact ih _ (Device.step_invariant d op hinv)
/-- The object a call of `queue` returns exists afterwards, is bound to the requested slot and
has a strong reference. -/
theorem Device.queue_returns_bound (d : Device) (f i q : Nat) (d1 : Device)
    (hinv : d.CacheInvariant) (hq : d.queue f i = some (q, d1)) :
    ∃ o : QueueObject, d1.queueObjects[q]? = some o ∧ o.queueFamilyIndex = f ∧ o.index = i ∧
      0 < o.strongCount := by
  unfold Device.queue at hq
  cases hslot : d.weakQueue f i with
  | none => rw [hslot] at hq; cases hq
  | some w =>
    rw [hslot] at hq
    simp only [] at hq
    cases hlock : d.lock w with
    | some id =>
      rw [hlock] at hq
      simp only [Option.some.injEq, Prod.mk.injEq] at hq
      obtain ⟨rfl, rfl⟩ := hq
      obtain ⟨hw, _⟩ := (d.lock_eq_some w id).mp hlock
      rw [hw] at hslot
      obtain ⟨o, ho, hf, hi⟩ := hinv.2 f i id hslot
      refine ⟨{ o with strongCount := o.strongCount + 1 }, ?_, hf, hi, Nat.succ_pos _⟩
      rw [Device.adjustStrongCount_getElem?, ho]
      simp
    | none =>
      rw [hlock] at hq
      simp only [Option.some.injEq, Prod.mk.injEq] at hq
      obtain ⟨rfl, rfl⟩ := hq
      refine ⟨⟨f, i, 1⟩, ?_, rfl, rfl, Nat.one_pos⟩
      simp only []
      rw [List.getElem?_append_right (Nat.le_refl _)]
      simp

/-- No operation removes a `Queue` object or changes the slot it is bound to. -/
theorem Device.step_keeps_binding (d : Device) (op : DeviceOp) (q : Nat) (o : QueueObject)
    (ho : d.queueObjects[q]? = some o) :
    ∃ o' : QueueObject, (d.step op).queueObjects[q]? = some o' ∧
      o'.queueFamilyIndex = o.queueFamilyIndex ∧ o'.index = o.index := by
  have hadjust : ∀ (id : Nat) (change : Nat → Nat),
      ∃ o' : QueueObject, (d.adjustStrongCount id change).queueObjects[q]? = some o' ∧
        o'.queueFamilyIndex = o.queueFamilyIndex ∧ o'.index = o.index := by
    intro id change
    rw [Device.adjustStrongCount_getElem?, ho]
    by_cases hj : id = q
    · exact ⟨{ o with strongCount := change o.strongCount }, by simp [hj], rfl, rfl⟩
    · exact ⟨o, by simp [hj], rfl, rfl⟩
  cases op with
  | queue f i =>
    simp only [Device.step]
    cases hq : d.queue f i with
    | none => exact ⟨o, ho, rfl, rfl⟩
    | some r =>
      obtain ⟨q', d1⟩ := r
      simp only []
      unfold Device.queue at hq
      cases hslot : d.weakQueue f i with
      | none => rw [hslot] at hq; cases hq
      | some w =>
        rw [hslot] at hq
        simp only [] at hq
        cases hlock : d.lock w with
        | some id =>
          rw [hlock] at hq
          simp only [Option.some.injEq, Prod.mk.injEq] at hq
          obtain ⟨_, rfl⟩ := hq
          exact hadjust id _
        | none =>
          rw [hlock] at hq
          simp only [Option.some.injEq, Prod.mk.injEq] at hq
          obtain ⟨_, rfl⟩ := hq
          have hlt : q < d.queueObjects.length := by
            by_contra hge
            rw [List.getElem?_eq_none (by omega)] at ho
            cases ho
          exact ⟨o, by simp only []; rw [List.getElem?_append_left hlt]; exact ho, rfl, rfl⟩
  | copy id =>
    simp only [Device.step]
    by_cases halive : d.isAlive id = true
    · rw [if_pos halive]
      exact hadjust id _
    · rw [if_neg halive]
      exact ⟨o, ho, rfl, rfl⟩
  | release id =>
    simp only [Device.step]
    exact hadjust id _

theorem Device.run_keeps_binding (d : Device) (ops : List DeviceOp) (q : Nat) (o : QueueObject)
    (ho : d.queueObjects[q]? = some o) :
    ∃ o' : QueueObject, (d.run ops).queueObjects[q]? = some o' ∧
      o'.queueFamilyIndex = o.queueFamilyIndex ∧ o'.index = o.index := by
  unfold Device.run
  induction ops generalizing d o with
  | nil => exact ⟨o, ho, rfl, rfl⟩
  | cons op rest ih =>
    rw [List.foldl_cons]
    obtain ⟨o1, ho1, hf1, hi1⟩ := Device.step_keeps_binding d op q o ho
    obtain ⟨o2, ho2, hf2, hi2⟩ := ih (d.step op) o1 ho1
    exact ⟨o2, ho2, hf2.trans hf1, hi2.trans hi1⟩

/-- Claim C11: on a device created for a queue plan and used through any sequence of `queue`
calls, copies and releases of strong references, let a `queue(familyIndex, index)` call return
the object `q`.  Then `q` is alive after the call; after any later operations, as long as `q`
still has a strong reference, the next `queue(familyIndex, index)` call returns `q` itself, so
a call returns another object only when `q` has no strong reference left; and at any time two
live `Queue` objects bound to the same slot are the same object. -/
theorem Device.queue_identity (queuesFamily : List (Nat × Nat)) (earlier later : List DeviceOp)
    (queueFamilyIndex index q : Nat) (d1 : Device)
    (hq : ((Device.create queuesFamily).run earlier).queue queueFamilyIndex index =
      some (q, d1)) :
    d1.isAlive q = true ∧
    ((d1.run later).isAlive q = true →
      ∃ d3, (d1.run later).queue queueFamilyIndex index = some (q, d3)) ∧
    (∀ (q' : Nat) (d3 : Device),
      (d1.run later).queue queueFamilyIndex index = some (q', d3) → q' ≠ q →
        (d1.run later).isAlive q = false) ∧
    (∀ (id1 id2 : Nat) (o1 o2 : QueueObject),
      (d1.run later).queueObjects[id1]? = some o1 →
      (d1.run later).queueObjects[id2]? = some o2 →
      0 < o1.strongCount → 0 < o2.strongCount →
      o1.queueFamilyIndex = o2.queueFamilyIndex → o1.index = o2.index → id1 = id2) := by
  have hinv0 : ((Device.create queuesFamily).run earlier).CacheInvariant :=
    Device.run_invariant _ _ (Device.create_invariant queuesFamily)
  have hinv1 : d1.CacheInvariant := Device.queue_invariant _ _ _ _ _ hinv0 hq
  have hinv2 : (d1.run later).CacheInvariant := Device.run_invariant _ _ hinv1
  obtain ⟨o, ho, hf, hi, hpos⟩ := Device.queue_returns_bound _ _ _ _ _ hinv0 hq
  have hsame : (d1.run later).isAlive q = true →
      ∃ d3, (d1.run later).queue queueFamilyIndex index = some (q, d3) := by
    intro halive
    obtain ⟨o2, ho2, hf2, hi2⟩ := Device.run_keeps_binding d1 later q o ho
    obtain ⟨o3, ho3, hpos3⟩ := ((d1.run later).isAlive_iff q).mp halive
    rw [ho2] at ho3
    cases ho3
    have hslot := hinv2.1 q o2 ho2 hpos3
    rw [hf2, hi2, hf, hi] at hslot
    exact ⟨_, Device.queue_hit _ _ _ _ hslot halive⟩
  refine ⟨(d1.isAlive_iff q).mpr ⟨o, ho, hpos⟩, hsame, ?_, ?_⟩
  · intro q' d3 hq' hne
    by_contra halive
    have halive' : (d1.run later).isAlive q = true := by
      cases h : (d1.run later).isAlive q with
      | true => rfl
      | false => exact absurd h halive
    obtain ⟨d3', hq''⟩ := hsame halive'
    rw [hq'] at hq''
    simp only [Option.some.injEq, Prod.mk.injEq] at hq''
    exact hne hq''.1
  · intro id1 id2 o1 o2 h1 h2 hp1 hp2 hfam hidx
    have hs1 := hinv2.1 id1 o1 h1 hp1
    have hs2 := hinv2.1 id2 o2 h2 hp2
    rw [hfam, hidx, hs2] at hs1
    exact (Option.some.inj (Option.some.inj hs1)).symm

theorem Device.queue_identity_witness :
    ((Device.create [(0, 2)]).run []).queue 0 1 = some (0, exampleQueueDevice) ∧
    ((exampleQueueDevice.run
        [DeviceOp.queue 0 0, DeviceOp.copy 0, DeviceOp.release 0]).queue 0 1).map Prod.fst =
      some 0 ∧
    ((exampleQueueDevice.run [DeviceOp.release 0]).queue 0 1).map Prod.fst = some 1 ∧
    (exampleQueueDevice.isAlive 0 = true ∧
    ((exampleQueueDevice.run
        [DeviceOp.queue 0 0, DeviceOp.copy 0, DeviceOp.release 0]).isAlive 0 = true →
      ∃ d3, (exampleQueueDevice.run
        [DeviceOp.queue 0 0, DeviceOp.copy 0, DeviceOp.release 0]).queue 0 1 = some (0, d3)) ∧
    (∀ (q' : Nat) (d3 : Device),
      (exampleQueueDevice.run
        [DeviceOp.queue 0 0, DeviceOp.copy 0, DeviceOp.release 0]).queue 0 1 = some (q', d3) →
      q' ≠ 0 →
        (exampleQueueDevice.run
          [DeviceOp.queue 0 0, DeviceOp.copy 0, DeviceOp.release 0]).isAlive 0 = false) ∧
    (∀ (id1 id2 : Nat) (o1 o2 : QueueObject),
      (exampleQueueDevice.run
        [DeviceOp.queue 0 0, DeviceOp.copy 0, DeviceOp.release 0]).queueObjects[id1]? = some o1 →
      (exampleQueueDevice.run
        [DeviceOp.queue 0 0, DeviceOp.copy 0, DeviceOp.release 0]).queueObjects[id2]? = some o2 →
      0 < o1.strongCount → 0 < o2.strongCount →
      o1.queueFamilyIndex = o2.queueFamilyIndex → o1.index = o2.index → id1 = id2)) :=
  ⟨rfl, by decide, by decide,
    Device.queue_identity [(0, 2)] [] [DeviceOp.queue 0 0, DeviceOp.copy 0, DeviceOp.release 0]
      0 1 0 exampleQueueDevice rfl⟩

/-! ## `checkExtensions` and `filterAvailableExtensions` -/

theorem length_filter_checkExtension_cons (pd : PhysicalDevice) (w : String)
    (rest : List String) :
    ((w :: rest).filter pd.checkExtension).length =
      (if pd.checkExtension w then 1 else 0) + (rest.filter pd.checkExtension).length := by
  by_cases h : pd.checkExtension w = true
  · simp [List.filter_cons, h]
    omega
  · simp [List.filter_cons, h]

/-- The loop of `checkExtensions` answers `true` exactly when the counter reaches `size`:
it is below `size` and the supported names still to come bring it up to `size`. -/
theorem checkExtensionsLoop_eq_true_iff (pd : PhysicalDevice) (size : Nat)
    (wanted : List String) (found : Nat) :
    checkExtensionsLoop pd size wanted found = true ↔
      found < size ∧ size ≤ found + (wanted.filter pd.checkExtension).length := by
  induction wanted generalizing found with
  | nil =>
    unfold checkExtensionsLoop
    simp
  | cons w rest ih =>
    unfold checkExtensionsLoop
    rw [length_filter_checkExtension_cons]
    by_cases h : pd.checkExtension w = true
    · rw [if_pos h, if_pos h]
      by_cases hs : found + 1 = size
      · rw [if_pos hs]
        simp only [true_iff]
        omega
      · rw [if_neg hs, ih]
        omega
    · rw [if_neg h, if_neg h, ih]
      omega

/-- As long as the supported names cannot overfill the result, the loop of
`filterAvailableExtensions` appends the supported names in order. -/
theorem filterAvailableExtensionsLoop_eq (pd : PhysicalDevice) (size : Nat)
    (wanted acc : List String)
    (h : acc.length + (wanted.filter pd.checkExtension).length ≤ size) :
    filterAvailableExtensionsLoop pd size wanted acc =
      acc ++ wanted.filter pd.checkExtension := by
  induction wanted generalizing acc with
  | nil => simp [filterAvailableExtensionsLoop]
  | cons w rest ih =>
    unfold filterAvailableExtensionsLoop
    rw [length_filter_checkExtension_cons] at h
    by_cases hw : pd.checkExtension w = true
    · rw [if_pos hw] at h
      rw [if_pos hw]
      simp only []
      have hfil : (w :: rest).filter pd.checkExtension = w :: rest.filter pd.checkExtension := by
        simp [List.filter_cons, hw]
      rw [hfil]
      by_cases hs : (acc ++ [w]).length = size
      · rw [if_pos hs]
        have hlen : (rest.filter pd.checkExtension).length = 0 := by
          simp only [List.length_append, List.length_cons, List.length_nil] at hs
          omega
        have hnil : rest.filter pd.checkExtension = [] := List.length_eq_zero.mp hlen
        rw [hnil]
      · rw [if_neg hs, ih]
        · simp
        · simp only [List.length_append, List.length_cons, List.length_nil]
          omega
    · rw [if_neg hw] at h
      rw [if_neg hw]
      have hfil : (w :: rest).filter pd.checkExtension = rest.filter pd.checkExtension := by
        simp [List.filter_cons, hw]
      rw [hfil, ih]
      omega

/-- The function `filterAvailableExtensions` keeps exactly the supported names, in order. -/
theorem filterAvailableExtensions_eq_filter (pd : PhysicalDevice) (wanted : List String) :
    pd.filterAvailableExtensions wanted = wanted.filter pd.checkExtension := by
  unfold PhysicalDevice.filterAvailableExtensions
  rw [filterAvailableExtensionsLoop_eq, List.nil_append]
  simp only [List.length_nil, Nat.zero_add]
  exact List.length_filter_le _ _

theorem filter_checkExtension_eq_self_iff (pd : PhysicalDevice) (wanted : List String) :
    wanted.filter pd.checkExtension = wanted ↔
      ∀ name ∈ wanted, name ∈ pd.m_extensionProperties := by
  rw [List.filter_eq_self]
  constructor
  · intro h name hn
    have := h name hn
    unfold PhysicalDevice.checkExtension at this
    exact of_decide_eq_true this
  · intro h name hn
    unfold PhysicalDevice.checkExtension
    exact decide_eq_true (h name hn)

/-- Claim C21: `checkExtensions` returns true if and only if the list of wanted names is
non-empty and every name in it is in the supported set; it returns false for the empty list;
and it returns true exactly when the list is non-empty and `filterAvailableExtensions` returns
the whole list unchanged. -/
theorem checkExtensions_iff (pd : PhysicalDevice) (wantedExtensions : List String) :
    (pd.checkExtensions wantedExtensions = true ↔
      wantedExtensions ≠ [] ∧ ∀ name ∈ wantedExtensions, name ∈ pd.m_extensionProperties) ∧
    pd.checkExtensions [] = false ∧
    (pd.checkExtensions wantedExtensions = true ↔
      wantedExtensions ≠ [] ∧ pd.filterAvailableExtensions wantedExtensions = wantedExtensions) := by
  have hlen : (wantedExtensions.filter pd.checkExtension).length = wantedExtensions.length ↔
      wantedExtensions.filter pd.checkExtension = wantedExtensions := by
    constructor
    · intro h
      exact List.Sublist.eq_of_length (List.filter_sublist _) h
    · intro h
      rw [h]
  have hle : (wantedExtensions.filter pd.checkExtension).length ≤ wantedExtensions.length :=
    List.length_filter_le _ _
  have hmain : pd.checkExtensions wantedExtensions = true ↔
      wantedExtensions ≠ [] ∧ wantedExtensions.filter pd.checkExtension = wantedExtensions := by
    unfold PhysicalDevice.checkExtensions
    rw [checkExtensionsLoop_eq_true_iff, ← hlen]
    constructor
    · rintro ⟨hpos, hge⟩
      refine ⟨?_, by omega⟩
      intro hnil
      rw [hnil] at hpos
      simp at hpos
    · rintro ⟨hne, heq⟩
      refine ⟨?_, by omega⟩
      cases wantedExtensions with
      | nil => exact absurd rfl hne
      | cons a l => simp
  refine ⟨?_, rfl, ?_⟩
  · rw [hmain, filter_checkExtension_eq_self_iff]
  · rw [hmain, filterAvailableExtensions_eq_filter]

theorem checkExtensions_iff_witness :
    exampleExtensionsDevice.checkExtensions ["VK_KHR_swapchain", "VK_EXT_memory_budget"] = true ∧
    exampleExtensionsDevice.checkExtensions ["VK_KHR_swapchain", "VK_KHR_missing"] = false ∧
    exampleExtensionsDevice.filterAvailableExtensions ["VK_KHR_missing", "VK_KHR_swapchain"] =
      ["VK_KHR_swapchain"] ∧
    exampleExtensionsDevice.checkExtensions [] = false :=
  ⟨(checkExtensions_iff exampleExtensionsDevice
      ["VK_KHR_swapchain", "VK_EXT_memory_budget"]).1.mpr ⟨by decide, by decide⟩,
    by decide, by decide, by decide⟩

/-! ## `MemoryObjectBase::aligned` -/

/-- Masking off the low `k` bits of a `w`-bit value rounds it down to a multiple of `2 ^ k`. -/
theorem and_not_low_bits (w k x : Nat) (hx : x < 2 ^ w) :
    x &&& ((2 ^ k - 1) ^^^ (2 ^ w - 1)) = x / 2 ^ k * 2 ^ k := by
  apply Nat.eq_of_testBit_eq
  intro j
  rw [Nat.mul_comm, Nat.testBit_mul_pow_two, Nat.testBit_and, Nat.testBit_xor,
    Nat.testBit_two_pow_sub_one, Nat.testBit_two_pow_sub_one, ← Nat.shiftRight_eq_div_pow,
    Nat.testBit_shiftRight]
  by_cases hjk : j < k
  · have : ¬ j ≥ k := by omega
    simp [hjk, this]
    intro hxj
    by_contra hjw
    have hle : w ≤ j := by omega
    have hlt : x < 2 ^ j := Nat.lt_of_lt_of_le hx (Nat.pow_le_pow_right (by decide) hle)
    rw [Nat.testBit_lt_two_pow hlt] at hxj
    cases hxj
  · have hge : j ≥ k := by omega
    have hadd : k + (j - k) = j := by omega
    by_cases hjw : j < w
    · simp [hjk, hge, hjw, hadd]
    · have hle : w ≤ j := by omega
      have hlt : x < 2 ^ j := Nat.lt_of_lt_of_le hx (Nat.pow_le_pow_right (by decide) hle)
      simp [hjk, hge, hjw, hadd, Nat.testBit_lt_two_pow hlt]

/-- Without overflow `aligned` rounds `value + alignment - 1` down to a multiple of the
alignment. -/
theorem MemoryObjectBase.aligned_eq (bits k value : Nat) (hk : 2 ^ k < 2 ^ bits)
    (hfit : value + 2 ^ k - 1 < 2 ^ bits) :
    MemoryObjectBase.aligned bits value (2 ^ k) = (value + 2 ^ k - 1) / 2 ^ k * 2 ^ k := by
  have hpos : 0 < 2 ^ k := Nat.two_pow_pos k
  have hN : 0 < 2 ^ bits := Nat.two_pow_pos bits
  have hsum : ((value + 2 ^ k) % 2 ^ bits + (2 ^ bits - 1)) % 2 ^ bits = value + 2 ^ k - 1 := by
    by_cases hlt : value + 2 ^ k < 2 ^ bits
    · rw [Nat.mod_eq_of_lt hlt]
      have : value + 2 ^ k + (2 ^ bits - 1) = (value + 2 ^ k - 1) + 2 ^ bits := by omega
      rw [this, Nat.add_mod_right, Nat.mod_eq_of_lt hfit]
    · have heq : value + 2 ^ k = 2 ^ bits := by omega
      rw [heq, Nat.mod_self, Nat.zero_add, Nat.mod_eq_of_lt (by omega)]
  have hmask : (2 ^ k + (2 ^ bits - 1)) % 2 ^ bits = 2 ^ k - 1 := by
    have : 2 ^ k + (2 ^ bits - 1) = (2 ^ k - 1) + 2 ^ bits := by omega
    rw [this, Nat.add_mod_right, Nat.mod_eq_of_lt (by omega)]
  unfold MemoryObjectBase.aligned
  simp only []
  rw [hsum, hmask]
  exact and_not_low_bits bits k _ hfit

/-- Rounding `value + a - 1` down to a multiple of `a` gives the least multiple of `a` that is
at least `value`. -/
theorem round_up_least_multiple (a value : Nat) (ha : 0 < a) :
    a ∣ (value + a - 1) / a * a ∧ value ≤ (value + a - 1) / a * a ∧
    (value + a - 1) / a * a < value + a ∧
    ∀ m, a ∣ m → value ≤ m → (value + a - 1) / a * a ≤ m := by
  have hdm := Nat.div_add_mod (value + a - 1) a
  have hmod := Nat.mod_lt (value + a - 1) ha
  have hcomm : a * ((value + a - 1) / a) = (value + a - 1) / a * a := Nat.mul_comm _ _
  refine ⟨Dvd.intro_left _ rfl, by omega, by omega, ?_⟩
  intro m hm hle
  obtain ⟨c, rfl⟩ := hm
  rw [Nat.mul_comm a c]
  apply Nat.mul_le_mul_right
  have hlt : (value + a - 1) / a * a < (c + 1) * a := by
    have : (c + 1) * a = a * c + a := by rw [Nat.add_mul, Nat.one_mul, Nat.mul_comm]
    omega
  have := Nat.lt_of_mul_lt_mul_right hlt
  omega

/-- Claim C23: for an unsigned type of `bits` bits, a value and a power-of-two alignment of
that type such that `value + alignment - 1` does not overflow, `aligned(value, alignment)` is
the smallest multiple of the alignment that is greater than or equal to the value; it is the
value itself when the value is a multiple already and exceeds it by less than the alignment
otherwise. -/
theorem MemoryObjectBase.aligned_least_multiple (bits k value : Nat)
    (hvalue : value < 2 ^ bits) (hk : 2 ^ k < 2 ^ bits)
    (hfit : value + 2 ^ k - 1 < 2 ^ bits) :
    2 ^ k ∣ MemoryObjectBase.aligned bits value (2 ^ k) ∧
    value ≤ MemoryObjectBase.aligned bits value (2 ^ k) ∧
    (∀ m, 2 ^ k ∣ m → value ≤ m → MemoryObjectBase.aligned bits value (2 ^ k) ≤ m) ∧
    (2 ^ k ∣ value → MemoryObjectBase.aligned bits value (2 ^ k) = value) ∧
    (¬ 2 ^ k ∣ value → value < MemoryObjectBase.aligned bits value (2 ^ k) ∧
      MemoryObjectBase.aligned bits value (2 ^ k) - value < 2 ^ k) := by
  have _ := hvalue
  rw [MemoryObjectBase.aligned_eq bits k value hk hfit]
  obtain ⟨hdvd, hle, hlt, hmin⟩ := round_up_least_multiple (2 ^ k) value (Nat.two_pow_pos k)
  refine ⟨hdvd, hle, hmin, ?_, ?_⟩
  · intro hv
    exact Nat.le_antisymm (hmin value hv (Nat.le_refl _)) hle
  · intro hv
    constructor
    · apply Nat.lt_of_le_of_ne hle
      intro heq
      apply hv
      rw [heq]
      exact hdvd
    · omega

theorem MemoryObjectBase.aligned_least_multiple_witness :
    (13 : Nat) < 2 ^ 32 ∧ (2 : Nat) ^ 3 < 2 ^ 32 ∧ (13 : Nat) + 2 ^ 3 - 1 < 2 ^ 32 ∧
    MemoryObjectBase.aligned 32 13 8 = 16 ∧ MemoryObjectBase.aligned 32 16 8 = 16 ∧
    MemoryObjectBase.aligned 32 4294967288 8 = 4294967288 ∧
    (2 ^ 3 ∣ MemoryObjectBase.aligned 32 13 (2 ^ 3) ∧
    13 ≤ MemoryObjectBase.aligned 32 13 (2 ^ 3) ∧
    (∀ m, 2 ^ 3 ∣ m → 13 ≤ m → MemoryObjectBase.aligned 32 13 (2 ^ 3) ≤ m) ∧
    (2 ^ 3 ∣ 13 → MemoryObjectBase.aligned 32 13 (2 ^ 3) = 13) ∧
    (¬ 2 ^ 3 ∣ 13 → 13 < MemoryObjectBase.aligned 32 13 (2 ^ 3) ∧
      MemoryObjectBase.aligned 32 13 (2 ^ 3) - 13 < 2 ^ 3)) :=
  ⟨by decide, by decide, by decide, by decide, by decide, by decide,
    MemoryObjectBase.aligned_least_multiple 32 3 13 (by decide) (by decide) (by decide)⟩

end QmVk
